import Mathlib

/-!
CrossChain-Bridge: swap execution, DCRM signing client and RPC fan-out.

A shallow embedding of `worker/swap.go`, `dcrm/sign.go`, `tokens/eth/callapi.go` and
`tokens/eth/bridge.go`.

Calls that leave the process (storage, bridge, JSON-RPC, DCRM cluster) are taken as
parameters. Functions that call them return, next to their Go results, a ghost trace
of the calls they made, in order.
-/

namespace CrossChain

/-! ## Errors -/

/-- Go `error` values. The named constructors are the package-level sentinels that the
code compares by identity; `new` is an error made by `errors.New` / `fmt.Errorf`
with the given text; `wrap` is `fmt.Errorf(pfx + ": %w", cause)` with a non-nil cause
and `wrapNil` the same call with a nil cause. -/
inductive Err where
  | errAlreadySwapped
  | errEmptyURLs
  | errSignTimerTimeout
  | ErrGetSignStatusFailed
  | ErrGetSignStatusTimeout
  | new (text : String)
  | wrap (pfx : String) (cause : Err)
  | wrapNil (pfx : String)
  deriving DecidableEq, Repr

/-- Go `fmt.Errorf(pfx + ": %w", err)` where `err` may be nil. -/
def Err.wrapf (pfx : String) : Option Err → Err
  | some e => Err.wrap pfx e
  | none => Err.wrapNil pfx

/-- Value range of Go `uint64`. -/
def u64 (n : Nat) : Nat := n % 2 ^ 64

/-! ## worker/swap.go -/

/-- Swap statuses of package `mongodb` that the worker refers to; `other` stands for
every further status code. -/
inductive SwapStatus where
  | TxNotSwapped
  | MatchTxEmpty
  | TxProcessed
  | SwapInBlacklist
  | other (code : Nat)
  deriving DecidableEq, Repr

/-- Go `tokens.SwapType`; `other` stands for every value that is neither swapin nor swapout. -/
inductive SwapType where
  | SwapinType
  | SwapoutType
  | other (code : Nat)
  deriving DecidableEq, Repr

/-- The fields of `mongodb.MgoSwapResult` read by the worker. -/
structure MgoSwapResult where
  PairID : String
  TxID : String
  From : String
  Bind : String
  Value : String
  SwapTx : String
  OldSwapTxs : List String
  SwapHeight : Nat
  Status : SwapStatus
  deriving DecidableEq, Repr

/-- The fields of `tokens.BuildTxArgs` read or set by the worker. `TxNonce` is the nonce
pointer inside the extra args (nil before the build); `Identifier` and `TxType` are set by
`processSwap`. -/
structure BuildTxArgs where
  PairID : String
  SwapID : String
  SwapType : SwapType
  Bind : String
  From : String
  OriginValue : Int
  TxNonce : Option Nat
  Identifier : String := ""
  TxType : Nat := 0
  deriving DecidableEq, Repr

/-- Go `MatchTx`, the record written before the broadcast. -/
structure MatchTx where
  SwapTx : String
  SwapValue : String
  SwapType : SwapType
  SwapNonce : Nat
  deriving DecidableEq, Repr

/-- Raw (unsigned) transaction, an `interface{}` in the source. -/
abbrev RawTx := String

/-- Signed transaction, an `interface{}` in the source. -/
abbrev SignedTx := String

/-- The methods of `tokens.CrossChainBridge` that `doSwap` calls, as outcomes of the call.
`BuildRawTransaction` also returns the args as the build left them (it fills in the nonce).
`hasDcrmAddressPrivateKey pairID` is `GetTokenConfig(pairID).GetDcrmAddressPrivateKey() != nil`,
and `isNonceSetter` tells whether the bridge implements `tokens.NonceSetter`. -/
structure CrossChainBridge where
  BuildRawTransaction : BuildTxArgs → Except Err (RawTx × BuildTxArgs)
  hasDcrmAddressPrivateKey : String → Bool
  SignTransaction : RawTx → String → Except Err (SignedTx × String)
  DcrmSignTransaction : RawTx → BuildTxArgs → Except Err (SignedTx × String)
  isNonceSetter : Bool

/-- Everything outside `worker/swap.go` that `doSwap` calls. -/
structure SwapEnv where
  GetCrossChainBridge : Bool → CrossChainBridge
  FindSwapResult : Bool → String → String → String → Except Err MgoSwapResult
  UpdateSwapStatus : Bool → String → String → String → SwapStatus → String → Option Err
  GetTxNonce : BuildTxArgs → Nat
  CalcSwappedValue : String → Int → Bool → String
  updateSwapResult : String → String → String → MatchTx → Option Err
  sendSignedTransaction : Bool → SignedTx → String → String → String → Bool → Option Err

/-- Ghost trace: the calls `doSwap` and `processSwap` make, with their arguments (time stamps left out).
The `Bool` in `BuildRawTransaction` ... `SetNonce` is the `isSrc` argument that selected the bridge. -/
inductive Event where
  | FindSwapResult (isSwapin : Bool) (txid pairID bind : String)
  | UpdateSwapStatus (isSwapin : Bool) (txid pairID bind : String) (status : SwapStatus) (memo : String)
  | BuildRawTransaction (isSrc : Bool) (args : BuildTxArgs)
  | SignTransaction (isSrc : Bool) (rawTx : RawTx) (pairID : String)
  | DcrmSignTransaction (isSrc : Bool) (rawTx : RawTx) (args : BuildTxArgs)
  | updateSwapResult (txid pairID bind : String) (matchTx : MatchTx)
  | sendSignedTransaction (isSrc : Bool) (signedTx : SignedTx) (txid pairID bind : String) (isSwapin : Bool)
  | SetNonce (isSrc : Bool) (pairID : String) (nonce : Nat)
  | QueryBlacklist (address pairID : String)
  deriving DecidableEq, Repr

/-- The record shows a sign of prior processing (the condition of `preventDoubleSwap`). -/
def MgoSwapResult.processed (res : MgoSwapResult) : Bool :=
  res.SwapTx != "" || res.Status != SwapStatus.MatchTxEmpty || res.SwapHeight != 0
    || decide (res.OldSwapTxs.length > 0)

/-- Go `preventDoubleSwap`. The result of the status update is dropped (`_ =`). -/
def preventDoubleSwap (res : MgoSwapResult) (isSwapin : Bool) : Option Err × List Event :=
  if res.SwapTx != "" || res.Status != SwapStatus.MatchTxEmpty || res.SwapHeight != 0
      || decide (res.OldSwapTxs.length > 0) then
    (some Err.errAlreadySwapped,
      [Event.UpdateSwapStatus isSwapin res.TxID res.PairID res.Bind SwapStatus.TxProcessed ""])
  else
    (none, [])

/-- Go `doSwap`: returned error (`none` is nil) and the trace of calls made. -/
def doSwap (env : SwapEnv) (args : BuildTxArgs) : Option Err × List Event :=
  let pairID := args.PairID
  let txid := args.SwapID
  let bind := args.Bind
  let swapType := args.SwapType
  let originValue := args.OriginValue
  let isSwapin := decide (swapType = SwapType.SwapinType)
  let isSrc := !isSwapin
  let resBridge := env.GetCrossChainBridge isSrc
  let t0 := [Event.FindSwapResult isSwapin txid pairID bind]
  match env.FindSwapResult isSwapin txid pairID bind with
  | .error err => (some err, t0)
  | .ok res =>
    match preventDoubleSwap res isSwapin with
    | (some err, t1) => (some err, t0 ++ t1)
    | (none, t1) =>
      let t2 := t0 ++ t1 ++ [Event.BuildRawTransaction isSrc args]
      match resBridge.BuildRawTransaction args with
      | .error err => (some err, t2)
      | .ok (rawTx, args1) =>
        let swapNonce := env.GetTxNonce args1
        let signed :=
          if resBridge.hasDcrmAddressPrivateKey pairID then
            (resBridge.SignTransaction rawTx pairID, Event.SignTransaction isSrc rawTx pairID)
          else
            (resBridge.DcrmSignTransaction rawTx args1, Event.DcrmSignTransaction isSrc rawTx args1)
        let t3 := t2 ++ [signed.2]
        match signed.1 with
        | .error err => (some err, t3)
        | .ok (signedTx, txHash) =>
          let matchTx : MatchTx :=
            { SwapTx := txHash
              SwapValue := env.CalcSwappedValue pairID originValue isSwapin
              SwapType := swapType
              SwapNonce := swapNonce }
          let t4 := t3 ++ [Event.updateSwapResult txid pairID bind matchTx]
          match env.updateSwapResult txid pairID bind matchTx with
          | some err => (some err, t4)
          | none =>
            let t5 := t4 ++ [Event.UpdateSwapStatus isSwapin txid pairID bind SwapStatus.TxProcessed ""]
            match env.UpdateSwapStatus isSwapin txid pairID bind SwapStatus.TxProcessed "" with
            | some err => (some err, t5)
            | none =>
              let t6 := t5 ++ [Event.sendSignedTransaction isSrc signedTx txid pairID bind isSwapin]
              match env.sendSignedTransaction isSrc signedTx txid pairID bind isSwapin with
              | none =>
                if resBridge.isNonceSetter then
                  (none, t6 ++ [Event.SetNonce isSrc pairID (u64 (swapNonce + 1))])
                else
                  (none, t6)
              | some err => (some err, t6)

/-- The trace event is a broadcast (`sendSignedTransaction`). -/
def Event.isSend : Event → Bool
  | .sendSignedTransaction _ _ _ _ _ _ => true
  | _ => false

/-- The trace event is a call of `SetNonce`. -/
def Event.isSetNonce : Event → Bool
  | .SetNonce _ _ _ => true
  | _ => false

/-- The trace event is a build, a signing call, a match-record write or a broadcast. -/
def Event.isBuildSignPersistSend : Event → Bool
  | .BuildRawTransaction _ _ => true
  | .SignTransaction _ _ _ => true
  | .DcrmSignTransaction _ _ _ => true
  | .updateSwapResult _ _ _ _ => true
  | .sendSignedTransaction _ _ _ _ _ _ => true
  | _ => false

/-- The nonce state after the calls of a trace, for any implementation `setNonce` of
`NonceSetter.SetNonce` on a state `σ`: of the calls `doSwap` makes, `SetNonce` is the one
that writes the counter. -/
def nonceStateAfter {σ : Type} (setNonce : σ → Bool → String → Nat → σ) (st : σ) : List Event → σ
  | [] => st
  | Event.SetNonce isSrc pairID nonce :: rest =>
    nonceStateAfter setNonce (setNonce st isSrc pairID nonce) rest
  | _ :: rest => nonceStateAfter setNonce st rest

/-- The storage status update and the broadcast helper never hand back the worker's own
sentinel `errAlreadySwapped` (an unexported `errors.New` value of package `worker`). -/
def SwapEnv.keepsSentinel (env : SwapEnv) : Prop :=
  (∀ isSwapin txid pairID bind status memo,
    env.UpdateSwapStatus isSwapin txid pairID bind status memo ≠ some Err.errAlreadySwapped) ∧
  (∀ isSrc signedTx txid pairID bind isSwapin,
    env.sendSignedTransaction isSrc signedTx txid pairID bind isSwapin ≠ some Err.errAlreadySwapped)

/-- A sample bridge: the build sets nonce 7, a local key signs. -/
def sampleBridge : CrossChainBridge where
  BuildRawTransaction := fun args => .ok ("raw", { args with TxNonce := some 7 })
  hasDcrmAddressPrivateKey := fun _ => true
  SignTransaction := fun _ _ => .ok ("signed", "0xhash")
  DcrmSignTransaction := fun _ _ => .error (Err.new "dcrm sign is disabled")
  isNonceSetter := true

/-- A sample record that shows no sign of prior processing. -/
def sampleFresh : MgoSwapResult :=
  { PairID := "eth/btc", TxID := "0xaaa", From := "0xF", Bind := "0xB", Value := "1000000",
    SwapTx := "", OldSwapTxs := [], SwapHeight := 0, Status := SwapStatus.MatchTxEmpty }

/-- A sample environment in which every call succeeds on the record `res`. -/
def sampleEnv (res : MgoSwapResult) : SwapEnv where
  GetCrossChainBridge := fun _ => sampleBridge
  FindSwapResult := fun _ _ _ _ => .ok res
  UpdateSwapStatus := fun _ _ _ _ _ _ => none
  GetTxNonce := fun args => args.TxNonce.getD 0
  CalcSwappedValue := fun _ v _ => toString v
  updateSwapResult := fun _ _ _ _ => none
  sendSignedTransaction := fun _ _ _ _ _ _ => none

/-- The sample swap request of the happy path. -/
def sampleArgs : BuildTxArgs :=
  { PairID := "eth/btc", SwapID := "0xaaa", SwapType := SwapType.SwapinType, Bind := "0xB",
    From := "0xD", OriginValue := 1000000, TxNonce := none }

/-! ## tokens/eth/callapi.go -/

/-- One call `err = client.RPCPost(&result, url, method, params...)`: the error returned and the
value that the variable behind `&result` holds after the call. -/
structure Reply (ρ : Type) where
  err : Option Err
  result : ρ
  deriving DecidableEq, Repr

/-- Go `client.RPCPost` with the method and its parameters applied: from the url, the value
the result variable held before the call and the state of the network, the reply and the next
state of the network. -/
abbrev RPCPost (σ ρ : Type) := String → ρ → σ → Reply ρ × σ

/-- What a function that posts hands back: its Go results, the state of the network after it,
and (ghost) the urls it posted to, in order. -/
structure Ran (α σ : Type) where
  val : α
  state : σ
  calls : List String
  deriving DecidableEq, Repr

/-- Go `GatewayConfig`: the two url lists. -/
structure GatewayConfig where
  APIAddress : List String
  APIAddressExt : List String
  deriving DecidableEq, Repr

/-- The replies got by posting to the urls one after the other, from a result variable holding
`r` and a network in state `s`. -/
def replies {σ ρ : Type} (post : RPCPost σ ρ) : List String → ρ → σ → List (Reply ρ)
  | [], _, _ => []
  | url :: rest, r, s =>
    (post url r s).1 :: replies post rest (post url r s).1.result (post url r s).2

/-- The state of the network after posting to the urls one after the other. -/
def stateAfter {σ ρ : Type} (post : RPCPost σ ρ) : List String → ρ → σ → σ
  | [], _, s => s
  | url :: rest, r, s => stateAfter post rest (post url r s).1.result (post url r s).2

/-- The `for _, url := range urls` loop of `sendRawTransaction`, with the loop variables
`result`, `success`, `err`. -/
def sendRawTransaction.loop {σ ρ : Type} (post : RPCPost σ ρ) :
    List String → ρ → Bool → Option Err → σ → List String → Ran (Bool × Option Err) σ
  | [], _, success, err, s, calls => ⟨(success, err), s, calls⟩
  | url :: rest, result, success, _, s, calls =>
    match (post url result s).1.err with
    | none =>
      sendRawTransaction.loop post rest (post url result s).1.result true none
        (post url result s).2 (calls ++ [url])
    | some e =>
      sendRawTransaction.loop post rest (post url result s).1.result success (some e)
        (post url result s).2 (calls ++ [url])

/-- Go `sendRawTransaction`; `zero` is the zero value of the result variable. -/
def sendRawTransaction {σ ρ : Type} (post : RPCPost σ ρ) (zero : ρ) (urls : List String) (s : σ) :
    Ran (Bool × Option Err) σ :=
  if urls.length = 0 then
    ⟨(false, some Err.errEmptyURLs), s, []⟩
  else
    let r := sendRawTransaction.loop post urls zero false none s []
    if r.val.1 then ⟨(true, none), r.state, r.calls⟩ else ⟨(false, r.val.2), r.state, r.calls⟩

/-- Go `Bridge.SendSignedTransaction`; `encoded` is the outcome of `rlp.EncodeToBytes(tx)`,
and `post` posts `eth_sendRawTransaction` with the encoded data. -/
def SendSignedTransaction {σ ρ : Type} (encoded : Except Err String) (post : String → RPCPost σ ρ)
    (zero : ρ) (gateway : GatewayConfig) (s : σ) : Ran (Option Err) σ :=
  match encoded with
  | .error err => ⟨some err, s, []⟩
  | .ok hexData =>
    let r1 := sendRawTransaction (post hexData) zero gateway.APIAddressExt s
    let r2 := sendRawTransaction (post hexData) zero gateway.APIAddress r1.state
    if r1.val.1 || r2.val.1 then
      ⟨none, r2.state, r1.calls ++ r2.calls⟩
    else
      ⟨r2.val.2, r2.state, r1.calls ++ r2.calls⟩

/-- The loop of `getMaxPoolNonce`, with the loop variables `result`, `maxNonce`, `success`, `err`. -/
def getMaxPoolNonce.loop {σ : Type} (post : RPCPost σ Nat) :
    List String → Nat → Nat → Bool → Option Err → σ → List String → Ran (Nat × Bool × Option Err) σ
  | [], _, maxNonce, success, err, s, calls => ⟨(maxNonce, success, err), s, calls⟩
  | url :: rest, result, maxNonce, success, _, s, calls =>
    match (post url result s).1.err with
    | none =>
      getMaxPoolNonce.loop post rest (post url result s).1.result
        (if (post url result s).1.result > maxNonce then (post url result s).1.result else maxNonce)
        true none (post url result s).2 (calls ++ [url])
    | some e =>
      getMaxPoolNonce.loop post rest (post url result s).1.result maxNonce success (some e)
        (post url result s).2 (calls ++ [url])

/-- Go `getMaxPoolNonce`; `post` posts `eth_getTransactionCount` for the account and height. -/
def getMaxPoolNonce {σ : Type} (post : RPCPost σ Nat) (urls : List String) (s : σ) :
    Ran (Nat × Option Err) σ :=
  if urls.length = 0 then
    ⟨(0, some Err.errEmptyURLs), s, []⟩
  else
    let r := getMaxPoolNonce.loop post urls 0 0 false none s []
    if r.val.2.1 then ⟨(r.val.1, none), r.state, r.calls⟩ else ⟨(0, r.val.2.2), r.state, r.calls⟩

/-- The loop of `getMaxLatestBlockNumber`, with the loop variables `result`, `maxHeight`, `err`.
`GetUint64FromStr` is `common.GetUint64FromStr`, whose error the loop drops. -/
def getMaxLatestBlockNumber.loop {σ : Type} (GetUint64FromStr : String → Nat × Option Err)
    (post : RPCPost σ String) :
    List String → String → Nat → Option Err → σ → List String → Ran (Nat × Option Err) σ
  | [], _, maxHeight, err, s, calls => ⟨(maxHeight, err), s, calls⟩
  | url :: rest, result, maxHeight, _, s, calls =>
    match (post url result s).1.err with
    | none =>
      getMaxLatestBlockNumber.loop GetUint64FromStr post rest (post url result s).1.result
        (if (GetUint64FromStr (post url result s).1.result).1 > maxHeight
          then (GetUint64FromStr (post url result s).1.result).1 else maxHeight)
        none (post url result s).2 (calls ++ [url])
    | some e =>
      getMaxLatestBlockNumber.loop GetUint64FromStr post rest (post url result s).1.result maxHeight
        (some e) (post url result s).2 (calls ++ [url])

/-- Go `getMaxLatestBlockNumber`; `post` posts `eth_blockNumber`. -/
def getMaxLatestBlockNumber {σ : Type} (GetUint64FromStr : String → Nat × Option Err)
    (post : RPCPost σ String) (urls : List String) (s : σ) : Ran (Nat × Option Err) σ :=
  if urls.length = 0 then
    ⟨(0, some Err.errEmptyURLs), s, []⟩
  else
    let r := getMaxLatestBlockNumber.loop GetUint64FromStr post urls "" 0 none s []
    if r.val.1 > 0 then ⟨(r.val.1, none), r.state, r.calls⟩ else ⟨(0, r.val.2), r.state, r.calls⟩

/-- Go `Bridge.GetLatestBlockNumber`. The third result is the height handed to
`tokens.CmpAndSetLatestBlockHeight`, when that is called. -/
def GetLatestBlockNumber {σ : Type} (GetUint64FromStr : String → Nat × Option Err)
    (post : RPCPost σ String) (gateway : GatewayConfig) (s : σ) :
    Ran (Nat × Option Err × Option Nat) σ :=
  let r := getMaxLatestBlockNumber GetUint64FromStr post gateway.APIAddress s
  if r.val.1 > 0 then
    ⟨(r.val.1, none, some r.val.1), r.state, r.calls⟩
  else
    ⟨(0, r.val.2, none), r.state, r.calls⟩

/-- The loop shared by `getBlockByHash`, `getTransactionByHash` and `getTransactionReceipt`:
post to each url in turn and stop at the first reply with a nil error and a non-nil result.
The value is `some url` when the loop returned from inside (at `url`), and with it the loop
variables `result` and `err` as they are then. -/
def firstFound.loop {σ β : Type} (post : RPCPost σ (Option β)) :
    List String → Option β → Option Err → σ → List String → Ran (Option String × Option β × Option Err) σ
  | [], result, err, s, calls => ⟨(none, result, err), s, calls⟩
  | url :: rest, result, _, s, calls =>
    if (post url result s).1.err.isNone && (post url result s).1.result.isSome then
      ⟨(some url, (post url result s).1.result, none), (post url result s).2, calls ++ [url]⟩
    else
      firstFound.loop post rest (post url result s).1.result (post url result s).1.err
        (post url result s).2 (calls ++ [url])

/-- Go `getBlockByHash`; `post` posts `eth_getBlockByHash` for the block hash. -/
def getBlockByHash {σ β : Type} (post : RPCPost σ (Option β)) (urls : List String) (s : σ) :
    Ran (Option β × Option Err) σ :=
  if urls.length = 0 then
    ⟨(none, some Err.errEmptyURLs), s, []⟩
  else
    let r := firstFound.loop post urls none none s []
    match r.val.1 with
    | some _ => ⟨(r.val.2.1, none), r.state, r.calls⟩
    | none =>
      if r.val.2.1.isNone then ⟨(none, some (Err.new "block not found")), r.state, r.calls⟩
      else ⟨(none, r.val.2.2), r.state, r.calls⟩

/-- Go `getTransactionByHash`; `post` posts `eth_getTransactionByHash` for the tx hash. -/
def getTransactionByHash {σ β : Type} (post : RPCPost σ (Option β)) (urls : List String) (s : σ) :
    Ran (Option β × Option Err) σ :=
  if urls.length = 0 then
    ⟨(none, some Err.errEmptyURLs), s, []⟩
  else
    let r := firstFound.loop post urls none none s []
    match r.val.1 with
    | some _ => ⟨(r.val.2.1, none), r.state, r.calls⟩
    | none =>
      if r.val.2.1.isNone then ⟨(none, some (Err.new "tx not found")), r.state, r.calls⟩
      else ⟨(none, r.val.2.2), r.state, r.calls⟩

/-- Go `getTransactionReceipt`; `post` posts `eth_getTransactionReceipt` for the tx hash.
The results are the receipt, the url that gave it and the error. -/
def getTransactionReceipt {σ β : Type} (post : RPCPost σ (Option β)) (urls : List String) (s : σ) :
    Ran (Option β × String × Option Err) σ :=
  if urls.length = 0 then
    ⟨(none, "", some Err.errEmptyURLs), s, []⟩
  else
    let r := firstFound.loop post urls none none s []
    match r.val.1 with
    | some url => ⟨(r.val.2.1, url, none), r.state, r.calls⟩
    | none =>
      if r.val.2.1.isNone then ⟨(none, "", some (Err.new "tx receipt not found")), r.state, r.calls⟩
      else ⟨(none, "", r.val.2.2), r.state, r.calls⟩

/-- A sample network: `url1` accepts every call, every other url refuses the connection and
leaves the result variable as it was. -/
def onlyUrl1 {ρ : Type} : RPCPost Unit ρ :=
  fun url r s => (⟨if url = "url1" then none else some (Err.new "connection refused"), r⟩, s)

/-- A sample `common.GetUint64FromStr`: two heights it parses, every other string fails with 0. -/
def sampleGetUint64FromStr (str : String) : Nat × Option Err :=
  if str = "0x0" then (0, none)
  else if str = "0x10" then (16, none)
  else (0, some (Err.new "invalid unsigned 64 bit integer"))

/-- A sample network for `eth_blockNumber`: `url1` answers `answer`, every other url refuses the
connection and leaves the result variable as it was. -/
def url1Answers (answer : String) : RPCPost Unit String :=
  fun url r s =>
    if url = "url1" then (⟨none, answer⟩, s) else (⟨some (Err.new "connection refused"), r⟩, s)

/-! ## dcrm/sign.go -/

/-- Go `pingCount`. -/
def pingCount : Nat := 3

/-- The fields of `SignStatus` that `getSignResult` reads. -/
structure SignStatus where
  Status : String
  Rsv : List String
  deriving DecidableEq, Repr

/-- What one pass of the polling loop of `getSignResult` meets at its `select`: the sign timer
has fired, or it has not and `GetSignStatus(keyID, rpcAddr)` is called with the given outcome. -/
inductive Tick where
  | timerFired
  | polled (r : Except Err SignStatus)
  deriving Repr

/-- The labelled loop of `getSignResult` over the passes it meets, with the loop variables
`err` and `i`; it hands back `rsvs`, `err` and `i` as they are at the `break`. `none` means that
the passes listed ran out with the loop still polling (a transient error is followed by a sleep
of one second and the next pass). -/
def getSignResult.loop : List Tick → Option Err → Nat → Option (List String × Option Err × Nat)
  | [], _, _ => none
  | Tick.timerFired :: _, err, i =>
    some ([], (if err.isNone then some Err.errSignTimerTimeout else err), i + 1)
  | Tick.polled (.ok signStatus) :: _, _, i => some (signStatus.Rsv, none, i + 1)
  | Tick.polled (.error e) :: rest, _, i =>
    match e with
    | Err.ErrGetSignStatusFailed => some ([], some e, i + 1)
    | Err.ErrGetSignStatusTimeout => some ([], some e, i + 1)
    | _ => getSignResult.loop rest (some e) (i + 1)

/-- Go `getSignResult`, run against the passes its loop meets. `none`: still polling when the
listed passes ran out. -/
def getSignResult (passes : List Tick) : Option (Except Err (List String)) :=
  match getSignResult.loop passes none 0 with
  | none => none
  | some (rsvs, err, _) =>
    if rsvs.length = 0 || err.isSome then
      some (.error (Err.wrapf "sign failed" err))
    else
      some (.ok rsvs)

/-- The error is one of the two terminal kinds of `GetSignStatus`. -/
def Err.isTerminal : Err → Bool
  | Err.ErrGetSignStatusFailed => true
  | Err.ErrGetSignStatusTimeout => true
  | _ => false

/-- Passes in which `GetSignStatus` fails with the given errors, one after the other. -/
def failedPolls (errs : List Err) : List Tick :=
  errs.map (fun e => Tick.polled (.error e))

/-- The fields of `NodeInfo` that `DoSign` reads. -/
structure NodeInfo where
  dcrmRPCAddress : String
  dcrmUser : String
  signGroups : List String
  deriving DecidableEq, Repr

/-- The calls `DoSign` makes outside of itself, on a signer cluster in state `σ`.
`randInt n` is `rand.Int(rand.Reader, big.NewInt(n))` for `n > 0`; `doSignImpl` is taken with
its outcome `(keyID, rsvs)` or error. -/
structure DcrmEnv (σ : Type) where
  IsDcrmEnabled : Bool
  allInitiatorNodes : List NodeInfo
  GetEnode : String → σ → Option Err × σ
  randInt : Nat → σ → Nat × σ
  doSignImpl : NodeInfo → Nat → String → List String → List String → σ →
    Except Err (String × List String) × σ

/-- Ghost trace of `DoSign`: the calls of `GetEnode` and `doSignImpl`, with the sub-group index. -/
inductive DcrmCall where
  | GetEnode (rpcAddr : String)
  | doSignImpl (dcrmNode : NodeInfo) (signGroupIndex : Nat)
  deriving DecidableEq, Repr

/-- How a run of `DoSign` ends: it returns, it panics (`rand.Int` on a node without sub-groups),
or it is still running when the fuel of the model is used up. -/
inductive SignRun where
  | returned (keyID : String) (rsvs : List String) (err : Option Err)
  | panicked
  | running
  deriving DecidableEq, Repr

/-- The loop of `pingDcrmNode` with `n` probes left. -/
def pingDcrmNode.loop {σ : Type} (env : DcrmEnv σ) (rpcAddr : String) :
    Nat → Option Err → σ → List DcrmCall → Option Err × σ × List DcrmCall
  | 0, err, s, calls => (err, s, calls)
  | n + 1, _, s, calls =>
    match (env.GetEnode rpcAddr s).1 with
    | none => (none, (env.GetEnode rpcAddr s).2, calls ++ [DcrmCall.GetEnode rpcAddr])
    | some e =>
      pingDcrmNode.loop env rpcAddr n (some e) (env.GetEnode rpcAddr s).2
        (calls ++ [DcrmCall.GetEnode rpcAddr])

/-- Go `pingDcrmNode`. -/
def pingDcrmNode {σ : Type} (env : DcrmEnv σ) (nodeInfo : NodeInfo) (s : σ) (calls : List DcrmCall) :
    Option Err × σ × List DcrmCall :=
  pingDcrmNode.loop env nodeInfo.dcrmRPCAddress pingCount none s calls

/-- The inner `for` loop of `DoSign` over the sub-groups of one node, at index `i`, with at most
`fuel` passes. The first result is `none` when the fuel is used up with the loop still running,
the outcome of the successful call when one succeeded, and the last error at the `break`. -/
def DoSign.groupLoop {σ : Type} (env : DcrmEnv σ) (dcrmNode : NodeInfo) (signPubkey : String)
    (msgHash msgContext : List String) (signGroupsCount startIndex : Nat) :
    Nat → Nat → σ → List DcrmCall → Option (Except Err (String × List String)) × σ × List DcrmCall
  | 0, _, s, calls => (none, s, calls)
  | fuel + 1, i, s, calls =>
    match (env.doSignImpl dcrmNode i signPubkey msgHash msgContext s).1 with
    | .ok signed =>
      (some (.ok signed), (env.doSignImpl dcrmNode i signPubkey msgHash msgContext s).2,
        calls ++ [DcrmCall.doSignImpl dcrmNode i])
    | .error err =>
      if (i + 1) % signGroupsCount = startIndex then
        (some (.error err), (env.doSignImpl dcrmNode i signPubkey msgHash msgContext s).2,
          calls ++ [DcrmCall.doSignImpl dcrmNode i])
      else
        DoSign.groupLoop env dcrmNode signPubkey msgHash msgContext signGroupsCount startIndex fuel
          ((i + 1) % signGroupsCount) (env.doSignImpl dcrmNode i signPubkey msgHash msgContext s).2
          (calls ++ [DcrmCall.doSignImpl dcrmNode i])

/-- One pass of `for _, dcrmNode := range allInitiatorNodes` in `DoSign`, over the nodes still to
visit. The first result is `none` when the pass ends without `DoSign` returning. `fuel` bounds the
passes of each inner loop. -/
def DoSign.nodes {σ : Type} (env : DcrmEnv σ) (signPubkey : String) (msgHash msgContext : List String)
    (fuel : Nat) : List NodeInfo → σ → List DcrmCall → Option SignRun × σ × List DcrmCall
  | [], s, calls => (none, s, calls)
  | dcrmNode :: rest, s, calls =>
    match pingDcrmNode env dcrmNode s calls with
    | (some _, s1, calls1) => DoSign.nodes env signPubkey msgHash msgContext fuel rest s1 calls1
    | (none, s1, calls1) =>
      if dcrmNode.signGroups.length = 0 then
        (some SignRun.panicked, s1, calls1)
      else
        match DoSign.groupLoop env dcrmNode signPubkey msgHash msgContext dcrmNode.signGroups.length
            (env.randInt dcrmNode.signGroups.length s1).1 fuel
            (env.randInt dcrmNode.signGroups.length s1).1
            (env.randInt dcrmNode.signGroups.length s1).2 calls1 with
        | (none, s2, calls2) => (some SignRun.running, s2, calls2)
        | (some (.ok signed), s2, calls2) => (some (SignRun.returned signed.1 signed.2 none), s2, calls2)
        | (some (.error _), s2, calls2) =>
          DoSign.nodes env signPubkey msgHash msgContext fuel rest s2 calls2

/-- The outer `for` loop of `DoSign`, with at most `rounds` passes over the nodes (a sleep of two
seconds follows each pass). -/
def DoSign.rounds {σ : Type} (env : DcrmEnv σ) (signPubkey : String) (msgHash msgContext : List String)
    (fuel : Nat) : Nat → σ → List DcrmCall → SignRun × σ × List DcrmCall
  | 0, s, calls => (SignRun.running, s, calls)
  | rounds + 1, s, calls =>
    match DoSign.nodes env signPubkey msgHash msgContext fuel env.allInitiatorNodes s calls with
    | (some run, s1, calls1) => (run, s1, calls1)
    | (none, s1, calls1) => DoSign.rounds env signPubkey msgHash msgContext fuel rounds s1 calls1

/-- Go `DoSign`. -/
def DoSign {σ : Type} (env : DcrmEnv σ) (signPubkey : String) (msgHash msgContext : List String)
    (rounds fuel : Nat) (s : σ) : SignRun × σ × List DcrmCall :=
  if !env.IsDcrmEnabled then
    (SignRun.returned "" [] (some (Err.new "dcrm sign is disabled")), s, [])
  else if signPubkey = "" then
    (SignRun.returned "" [] (some (Err.new "dcrm sign with empty public key")), s, [])
  else
    DoSign.rounds env signPubkey msgHash msgContext fuel rounds s []

/-- The state of the cluster before attempt number `j` on a node, when the attempts so far were
made on the sub-groups `(startIndex + 0) % G`, `(startIndex + 1) % G`, ... in that order. -/
def attemptState {σ : Type} (env : DcrmEnv σ) (dcrmNode : NodeInfo) (signPubkey : String)
    (msgHash msgContext : List String) (signGroupsCount startIndex : Nat) : Nat → σ → σ
  | 0, s => s
  | j + 1, s =>
    (env.doSignImpl dcrmNode ((startIndex + j) % signGroupsCount) signPubkey msgHash msgContext
      (attemptState env dcrmNode signPubkey msgHash msgContext signGroupsCount startIndex j s)).2

/-- The outcome of attempt number `j` on a node, made on sub-group `(startIndex + j) % G`. -/
def attemptOutcome {σ : Type} (env : DcrmEnv σ) (dcrmNode : NodeInfo) (signPubkey : String)
    (msgHash msgContext : List String) (signGroupsCount startIndex : Nat) (j : Nat) (s : σ) :
    Except Err (String × List String) :=
  (env.doSignImpl dcrmNode ((startIndex + j) % signGroupsCount) signPubkey msgHash msgContext
    (attemptState env dcrmNode signPubkey msgHash msgContext signGroupsCount startIndex j s)).1

/-- The first `n` attempts on a node as trace entries: sub-groups `startIndex, startIndex + 1, ...`
taken modulo the number of sub-groups. -/
def attemptCalls (dcrmNode : NodeInfo) (signGroupsCount startIndex n : Nat) : List DcrmCall :=
  (List.range n).map (fun j => DcrmCall.doSignImpl dcrmNode ((startIndex + j) % signGroupsCount))

/-- A sample initiator node that does not answer the ping. -/
def sampleNode0 : NodeInfo := { dcrmRPCAddress := "node0", dcrmUser := "user0", signGroups := ["g0"] }

/-- A sample initiator node with three sub-groups. -/
def sampleNode1 : NodeInfo :=
  { dcrmRPCAddress := "node1", dcrmUser := "user1", signGroups := ["g0", "g1", "g2"] }

/-- A sample cluster: `node0` is down, `node1` answers, the random start index is 2, and only
sub-group 1 of `node1` signs. -/
def sampleDcrmEnv : DcrmEnv Unit where
  IsDcrmEnabled := true
  allInitiatorNodes := [sampleNode0, sampleNode1]
  GetEnode := fun rpcAddr s => (if rpcAddr = "node1" then none else some (Err.new "connection refused"), s)
  randInt := fun _ s => (2, s)
  doSignImpl := fun _ i _ _ _ s =>
    (if i = 1 then .ok ("key-1", ["rsv"]) else .error (Err.wrap "sign failed" Err.ErrGetSignStatusFailed), s)

/-! ## tokens/eth/callapi.go: gas price and the methods that range over APIAddress -/

/-- The `*big.Int` values that occur in `getMaxGasPrice`: nil, or `result.ToInt()`, which is
the address of the local variable `result` itself (`ToInt` converts the pointer, it does not
copy the number). -/
inductive BigPtr where
  | nil
  | result
  deriving DecidableEq, Repr

/-- Reading through a pointer of `getMaxGasPrice`, when the variable `result` holds `result`. -/
def BigPtr.get (p : BigPtr) (result : Int) : Option Int :=
  match p with
  | BigPtr.nil => none
  | BigPtr.result => some result

/-- The loop of `getMaxGasPrice`, with the loop variables `result`, `maxGasPrice`, `success`,
`err`. The test `result.ToInt().Cmp(maxGasPrice) > 0` reads `maxGasPrice` through its pointer,
at the time of the test. -/
def getMaxGasPrice.loop {σ : Type} (post : RPCPost σ Int) :
    List String → Int → BigPtr → Bool → Option Err → σ → List String →
      Ran (Int × BigPtr × Bool × Option Err) σ
  | [], result, maxGasPrice, success, err, s, calls => ⟨(result, maxGasPrice, success, err), s, calls⟩
  | url :: rest, result, maxGasPrice, success, _, s, calls =>
    match (post url result s).1.err with
    | none =>
      getMaxGasPrice.loop post rest (post url result s).1.result
        (if (match maxGasPrice.get (post url result s).1.result with
              | none => true
              | some held => decide ((post url result s).1.result > held))
          then BigPtr.result else maxGasPrice)
        true none (post url result s).2 (calls ++ [url])
    | some e =>
      getMaxGasPrice.loop post rest (post url result s).1.result maxGasPrice success (some e)
        (post url result s).2 (calls ++ [url])

/-- Go `getMaxGasPrice`; `post` posts `eth_gasPrice`. The price handed back is the number the
returned pointer leads to when the function returns (`none` for a nil pointer). -/
def getMaxGasPrice {σ : Type} (post : RPCPost σ Int) (urls : List String) (s : σ) :
    Ran (Option Int × Option Err) σ :=
  if urls.length = 0 then
    ⟨(none, some Err.errEmptyURLs), s, []⟩
  else
    let r := getMaxGasPrice.loop post urls 0 BigPtr.nil false none s []
    if r.val.2.2.1 then ⟨(r.val.2.1.get r.val.1, none), r.state, r.calls⟩
    else ⟨(none, r.val.2.2.2), r.state, r.calls⟩

/-- Go `Bridge.SuggestPrice`. Each call of `getMaxGasPrice` has a `result` variable of its own, so
the two prices are read as they were handed back. (A nil price with a nil error from the second
call would make Go dereference nil; `getMaxGasPrice` never hands that back, and the model keeps
the first price there.) -/
def SuggestPrice {σ : Type} (post : RPCPost σ Int) (gateway : GatewayConfig) (s : σ) :
    Ran (Option Int × Option Err) σ :=
  let r1 : Ran (Option Int × Option Err) σ :=
    if gateway.APIAddressExt.length > 0 then getMaxGasPrice post gateway.APIAddressExt s
    else ⟨(none, none), s, []⟩
  let r2 := getMaxGasPrice post gateway.APIAddress r1.state
  let chosen : Option Int × Option Err :=
    match r2.val.2 with
    | none =>
      match r1.val.1, r2.val.1 with
      | none, maxGasPrice2 => (maxGasPrice2, r1.val.2)
      | some maxGasPrice, some maxGasPrice2 =>
        (if maxGasPrice2 > maxGasPrice then some maxGasPrice2 else some maxGasPrice, r1.val.2)
      | some maxGasPrice, none => (some maxGasPrice, r1.val.2)
    | some err2 => (r1.val.1, some err2)
  match chosen.1 with
  | some maxGasPrice => ⟨(some maxGasPrice, none), r2.state, r1.calls ++ r2.calls⟩
  | none => ⟨(none, chosen.2), r2.state, r1.calls ++ r2.calls⟩

/-- Go `Bridge.GetBlockByNumber`; `post` posts `eth_getBlockByNumber` for the number. The loop
is the one of `getBlockByHash`, over `APIAddress`, with no test of the length before it. -/
def GetBlockByNumber {σ β : Type} (post : RPCPost σ (Option β)) (gateway : GatewayConfig) (s : σ) :
    Ran (Option β × Option Err) σ :=
  let r := firstFound.loop post gateway.APIAddress none none s []
  match r.val.1 with
  | some _ => ⟨(r.val.2.1, none), r.state, r.calls⟩
  | none =>
    if r.val.2.1.isNone then ⟨(none, some (Err.new "block not found")), r.state, r.calls⟩
    else ⟨(none, r.val.2.2), r.state, r.calls⟩

/-- The loop shared by `GetPendingTransactions`, `GetLogs`, `ChainID`, `NetworkID`, `GetCode`,
`CallContract` and `GetBalance`: post to each url in turn and stop at the first reply with a
nil error. The value tells whether the loop returned from inside, and gives the loop variables
`result` and `err` as they are then. -/
def firstOk.loop {σ ρ : Type} (post : RPCPost σ ρ) :
    List String → ρ → Option Err → σ → List String → Ran (Bool × ρ × Option Err) σ
  | [], result, err, s, calls => ⟨(false, result, err), s, calls⟩
  | url :: rest, result, _, s, calls =>
    match (post url result s).1.err with
    | none => ⟨(true, (post url result s).1.result, none), (post url result s).2, calls ++ [url]⟩
    | some e =>
      firstOk.loop post rest (post url result s).1.result (some e) (post url result s).2
        (calls ++ [url])

/-- Go `Bridge.GetPendingTransactions`; `post` posts `eth_pendingTransactions`, `zero` is the nil
slice. -/
def GetPendingTransactions {σ ρ : Type} (post : RPCPost σ ρ) (zero : ρ) (gateway : GatewayConfig)
    (s : σ) : Ran (Option ρ × Option Err) σ :=
  let r := firstOk.loop post gateway.APIAddress zero none s []
  if r.val.1 then ⟨(some r.val.2.1, none), r.state, r.calls⟩ else ⟨(none, r.val.2.2), r.state, r.calls⟩

/-- Go `Bridge.GetLogs`; `filterArg` is the outcome of `types.ToFilterArg(filterQuery)` and `post`
posts `eth_getLogs` with the argument. -/
def GetLogs {σ ρ α : Type} (filterArg : Except Err α) (post : α → RPCPost σ ρ) (zero : ρ)
    (gateway : GatewayConfig) (s : σ) : Ran (Option ρ × Option Err) σ :=
  match filterArg with
  | .error err => ⟨(none, some err), s, []⟩
  | .ok args =>
    let r := firstOk.loop (post args) gateway.APIAddress zero none s []
    if r.val.1 then ⟨(some r.val.2.1, none), r.state, r.calls⟩
    else ⟨(none, r.val.2.2), r.state, r.calls⟩

/-- Go `Bridge.ChainID`; `post` posts `eth_chainId`. -/
def ChainID {σ : Type} (post : RPCPost σ Int) (gateway : GatewayConfig) (s : σ) :
    Ran (Option Int × Option Err) σ :=
  let r := firstOk.loop post gateway.APIAddress 0 none s []
  if r.val.1 then ⟨(some r.val.2.1, none), r.state, r.calls⟩ else ⟨(none, r.val.2.2), r.state, r.calls⟩

/-- Go `Bridge.NetworkID`; `post` posts `net_version` and `SetString` is
`new(big.Int).SetString(result, 10)`, `none` when it reports `!ok`. -/
def NetworkID {σ : Type} (SetString : String → Option Int) (post : RPCPost σ String)
    (gateway : GatewayConfig) (s : σ) : Ran (Option Int × Option Err) σ :=
  let r := firstOk.loop post gateway.APIAddress "" none s []
  if r.val.1 then
    match SetString r.val.2.1 with
    | none => ⟨(none, some (Err.new ("invalid net_version result " ++ r.val.2.1.quote))), r.state, r.calls⟩
    | some version => ⟨(some version, none), r.state, r.calls⟩
  else ⟨(none, r.val.2.2), r.state, r.calls⟩

/-- Go `Bridge.GetCode`; `post` posts `eth_getCode` for the contract, `zero` is the nil byte
slice. -/
def GetCode {σ ρ : Type} (post : RPCPost σ ρ) (zero : ρ) (gateway : GatewayConfig) (s : σ) :
    Ran (Option ρ × Option Err) σ :=
  let r := firstOk.loop post gateway.APIAddress zero none s []
  if r.val.1 then ⟨(some r.val.2.1, none), r.state, r.calls⟩ else ⟨(none, r.val.2.2), r.state, r.calls⟩

/-- Go `Bridge.CallContract`; `post` posts `eth_call` with the request. -/
def CallContract {σ : Type} (post : RPCPost σ String) (gateway : GatewayConfig) (s : σ) :
    Ran (String × Option Err) σ :=
  let r := firstOk.loop post gateway.APIAddress "" none s []
  if r.val.1 then ⟨(r.val.2.1, none), r.state, r.calls⟩ else ⟨("", r.val.2.2), r.state, r.calls⟩

/-- Go `Bridge.GetBalance`; `post` posts `eth_getBalance` for the account. -/
def GetBalance {σ : Type} (post : RPCPost σ Int) (gateway : GatewayConfig) (s : σ) :
    Ran (Option Int × Option Err) σ :=
  let r := firstOk.loop post gateway.APIAddress 0 none s []
  if r.val.1 then ⟨(some r.val.2.1, none), r.state, r.calls⟩ else ⟨(none, r.val.2.2), r.state, r.calls⟩

/-- A sample network for `eth_gasPrice`, prices in wei: `url80` answers 80 gwei, `url50` answers
50 gwei, every other url refuses the connection and leaves the result variable as it was. -/
def gasPriceNet : RPCPost Unit Int :=
  fun url r s =>
    if url = "url80" then (⟨none, 80000000000⟩, s)
    else if url = "url50" then (⟨none, 50000000000⟩, s)
    else (⟨some (Err.new "connection refused"), r⟩, s)

/-! ## tokens/eth/bridge.go -/

/-- Go `netMainnet`. -/
def netMainnet : String := "mainnet"

/-- Go `netRinkeby`. -/
def netRinkeby : String := "rinkeby"

/-- Go `netCustom`. -/
def netCustom : String := "custom"

/-- Go `(*big.Int).Uint64`: the low 64 bits of the absolute value. -/
def bigUint64 (x : Int) : Nat := x.natAbs % 2 ^ 64

/-- How a call ends that may dereference a nil pointer: it returns, or it panics. -/
inductive Call (α : Type) where
  | returned (a : α)
  | panicked
  deriving DecidableEq, Repr

/-- How `VerifyChainID` ends: `log.Fatal` ends the process with a message, a nil chain id is
dereferenced, or the method completes and has set `SignerChainID`. -/
inductive Verified where
  | fatal (msg : String)
  | panicked
  | succeed (SignerChainID : Option Int)
  deriving DecidableEq, Repr

/-- Go `Bridge.GetSignerChainID`: the chain id when it is not zero, else the network id.
`chainID.Sign()` on the nil pointer that `ChainID` hands back with a nil error panics. -/
def GetSignerChainID {σ : Type} (SetString : String → Option Int) (postChainId : RPCPost σ Int)
    (postNetVersion : RPCPost σ String) (gateway : GatewayConfig) (s : σ) :
    Ran (Call (Option Int × Option Err)) σ :=
  let r := ChainID postChainId gateway s
  match r.val.2 with
  | some err => ⟨Call.returned (none, some err), r.state, r.calls⟩
  | none =>
    match r.val.1 with
    | none => ⟨Call.panicked, r.state, r.calls⟩
    | some chainID =>
      if chainID ≠ 0 then ⟨Call.returned (some chainID, none), r.state, r.calls⟩
      else
        let n := NetworkID SetString postNetVersion gateway r.state
        ⟨Call.returned n.val, n.state, r.calls ++ n.calls⟩

/-- The retry loop of `VerifyChainID` with `n` tries left (a sleep of one second follows a
failed try); `getSignerChainID` is `b.GetSignerChainID`. -/
def VerifyChainID.retry {σ : Type} (getSignerChainID : σ → Ran (Call (Option Int × Option Err)) σ) :
    Nat → Option Int → Option Err → σ → List String → Ran (Call (Option Int × Option Err)) σ
  | 0, chainID, err, s, calls => ⟨Call.returned (chainID, err), s, calls⟩
  | n + 1, _, _, s, calls =>
    match (getSignerChainID s).val with
    | Call.panicked => ⟨Call.panicked, (getSignerChainID s).state, calls ++ (getSignerChainID s).calls⟩
    | Call.returned (chainID, none) =>
      ⟨Call.returned (chainID, none), (getSignerChainID s).state, calls ++ (getSignerChainID s).calls⟩
    | Call.returned (chainID, some err) =>
      VerifyChainID.retry getSignerChainID n chainID (some err) (getSignerChainID s).state
        (calls ++ (getSignerChainID s).calls)

/-- Go `Bridge.VerifyChainID`; `ToLower` is `strings.ToLower` and `NetID` is
`b.ChainConfig.NetID`. -/
def VerifyChainID {σ : Type} (ToLower : String → String) (NetID : String)
    (getSignerChainID : σ → Ran (Call (Option Int × Option Err)) σ) (s : σ) : Ran Verified σ :=
  let networkID := ToLower NetID
  if networkID ≠ netMainnet ∧ networkID ≠ netRinkeby ∧ networkID ≠ netCustom then
    ⟨Verified.fatal ("unsupported ethereum network: " ++ NetID), s, []⟩
  else
    let r := VerifyChainID.retry getSignerChainID 5 none none s []
    match r.val with
    | Call.panicked => ⟨Verified.panicked, r.state, r.calls⟩
    | Call.returned (_, some _) => ⟨Verified.fatal "get chain ID failed", r.state, r.calls⟩
    | Call.returned (chainID, none) =>
      if networkID = netMainnet then
        match chainID with
        | none => ⟨Verified.panicked, r.state, r.calls⟩
        | some c =>
          if bigUint64 c ≠ 1 then
            ⟨Verified.fatal ("gateway chainID " ++ toString c ++ " is not " ++ NetID), r.state, r.calls⟩
          else ⟨Verified.succeed chainID, r.state, r.calls⟩
      else if networkID = netRinkeby then
        match chainID with
        | none => ⟨Verified.panicked, r.state, r.calls⟩
        | some c =>
          if bigUint64 c ≠ 4 then
            ⟨Verified.fatal ("gateway chainID " ++ toString c ++ " is not " ++ NetID), r.state, r.calls⟩
          else ⟨Verified.succeed chainID, r.state, r.calls⟩
      else if networkID = netCustom then
        ⟨Verified.succeed chainID, r.state, r.calls⟩
      else
        ⟨Verified.fatal ("unsupported ethereum network " ++ networkID), r.state, r.calls⟩

/-- Lower-casing of the letters A to Z, which is how `strings.ToLower` acts on net names and on
hex addresses. -/
def asciiToLower (str : String) : String :=
  String.mk (str.data.map (fun c => if 65 ≤ c.toNat ∧ c.toNat ≤ 90 then Char.ofNat (c.toNat + 32) else c))

/-- A sample gateway for `eth_chainId`: `url1` answers `chainID`. -/
def chainIdNet (chainID : Int) : RPCPost Unit Int :=
  fun url r s =>
    if url = "url1" then (⟨none, chainID⟩, s) else (⟨some (Err.new "connection refused"), r⟩, s)

/-- A sample `SetString` for base 10: the three strings it reads. -/
def sampleSetString (str : String) : Option Int :=
  if str = "1" then some 1 else if str = "4" then some 4 else if str = "-1" then some (-1) else none

/-! ## worker/swap.go: queues and dispatch -/

/-- The fields of `mongodb.MgoSwap` read by `processSwap`. -/
structure MgoSwap where
  PairID : String
  TxID : String
  Bind : String
  TxType : Nat
  Status : SwapStatus
  deriving DecidableEq, Repr

/-- The fields of `tokens.TokenConfig` read by the worker. -/
structure TokenConfig where
  DcrmAddress : String
  DisableSwap : Bool
  deriving DecidableEq, Repr

/-- The fields of `tokens.TokenPairConfig` read by the worker. -/
structure TokenPairConfig where
  PairID : String
  SrcToken : TokenConfig
  DestToken : TokenConfig
  deriving DecidableEq, Repr

/-- Go `swapChanSize`. -/
def swapChanSize : Nat := 10

/-- A buffered channel of `*tokens.BuildTxArgs`: `id` tells the channels made by `make` apart,
`cap` is its capacity and `buf` the values sent and not yet received, oldest first. -/
structure Chan where
  id : Nat
  cap : Nat
  buf : List BuildTxArgs
  deriving DecidableEq, Repr

/-- The goroutines started by `AddSwapJob` (ghost): the consumer of a channel and the two
producers of a pair. -/
inductive Task where
  | processSwapTask (chanId : Nat)
  | startSwapinSwapJob (pairID : String)
  | startSwapoutSwapJob (pairID : String)
  deriving DecidableEq, Repr

/-- The package-level state of `worker`: the two maps from address to channel, and (ghost) the
number of channels made so far and the goroutines started so far. -/
structure Worker where
  swapinTaskChanMap : String → Option Chan
  swapoutTaskChanMap : String → Option Chan
  chansMade : Nat
  spawned : List Task

/-- The state at start: both maps empty. -/
def Worker.empty : Worker := ⟨fun _ => none, fun _ => none, 0, []⟩

/-- The map of a direction. -/
def Worker.chanMap (w : Worker) (isSwapin : Bool) : String → Option Chan :=
  if isSwapin then w.swapinTaskChanMap else w.swapoutTaskChanMap

/-- Storing a channel under a key in the map of a direction. -/
def Worker.setChan (w : Worker) (isSwapin : Bool) (key : String) (ch : Chan) : Worker :=
  if isSwapin then
    { w with swapinTaskChanMap := fun k => if k = key then some ch else w.swapinTaskChanMap k }
  else
    { w with swapoutTaskChanMap := fun k => if k = key then some ch else w.swapoutTaskChanMap k }

/-- The block `if _, exist := m[addr]; !exist { m[addr] = make(chan, swapChanSize); go
processSwapTask(m[addr]) }` of `AddSwapJob`, for the map of either direction. -/
def AddSwapJob.ensureChan (isSwapin : Bool) (addr : String) (w : Worker) : Worker :=
  match w.chanMap isSwapin addr with
  | some _ => w
  | none =>
    { w.setChan isSwapin addr ⟨w.chansMade, swapChanSize, []⟩ with
      chansMade := w.chansMade + 1
      spawned := w.spawned ++ [Task.processSwapTask w.chansMade] }

/-- Go `AddSwapJob`; `ToLower` is `strings.ToLower`. -/
def AddSwapJob (ToLower : String → String) (w : Worker) (pairCfg : TokenPairConfig) : Worker :=
  let pairID := ToLower pairCfg.PairID
  let swapinDcrmAddr := ToLower pairCfg.DestToken.DcrmAddress
  let w1 := AddSwapJob.ensureChan true swapinDcrmAddr w
  let swapoutDcrmAddr := ToLower pairCfg.SrcToken.DcrmAddress
  let w2 := AddSwapJob.ensureChan false swapoutDcrmAddr w1
  { w2 with
    spawned := w2.spawned ++ [Task.startSwapinSwapJob pairID, Task.startSwapoutSwapJob pairID] }

/-- How a call that sends on a channel ends: it returns, or it waits at the send because the
buffer is full (it goes on when a consumer has received). -/
inductive Sent where
  | returned (err : Option Err)
  | blocked
  deriving DecidableEq, Repr

/-- Go `getSwapType`. -/
def getSwapType (isSwapin : Bool) : SwapType :=
  if isSwapin then SwapType.SwapinType else SwapType.SwapoutType

/-- The text of `args.SwapType.String()` for a swap type that is neither swapin nor swapout. -/
def otherSwapTypeText (code : Nat) : String := "unknown swap type " ++ toString code

/-- Go `dispatchSwapTask`; `ToLower` is `strings.ToLower`. -/
def dispatchSwapTask (ToLower : String → String) (w : Worker) (args : BuildTxArgs) : Sent × Worker :=
  let addr := ToLower args.From
  match args.SwapType with
  | SwapType.SwapinType =>
    match w.swapinTaskChanMap addr with
    | none =>
      (Sent.returned (some (Err.new ("no swapin task channel for dcrm address '" ++ args.From ++ "'"))), w)
    | some swapChan =>
      if swapChan.buf.length < swapChan.cap then
        (Sent.returned none, w.setChan true addr { swapChan with buf := swapChan.buf ++ [args] })
      else (Sent.blocked, w)
  | SwapType.SwapoutType =>
    match w.swapoutTaskChanMap addr with
    | none =>
      (Sent.returned (some (Err.new ("no swapout task channel for dcrm address '" ++ args.From ++ "'"))), w)
    | some swapChan =>
      if swapChan.buf.length < swapChan.cap then
        (Sent.returned none, w.setChan false addr { swapChan with buf := swapChan.buf ++ [args] })
      else (Sent.blocked, w)
  | SwapType.other code =>
    (Sent.returned (some (Err.new ("wrong swap type '" ++ otherSwapTypeText code ++ "'"))), w)

/-- Go `isSwapInBlacklist`, with the trace of its queries; `QueryBlacklist` is
`mongodb.QueryBlacklist`. -/
def isSwapInBlacklist (QueryBlacklist : String → String → Bool × Option Err) (swap : MgoSwapResult) :
    (Bool × Option Err) × List Event :=
  match (QueryBlacklist swap.From swap.PairID).2 with
  | some err => (((QueryBlacklist swap.From swap.PairID).1, some err),
      [Event.QueryBlacklist swap.From swap.PairID])
  | none =>
    if !(QueryBlacklist swap.From swap.PairID).1 && swap.Bind != swap.From then
      match (QueryBlacklist swap.Bind swap.PairID).2 with
      | some err => (((QueryBlacklist swap.Bind swap.PairID).1, some err),
          [Event.QueryBlacklist swap.From swap.PairID, Event.QueryBlacklist swap.Bind swap.PairID])
      | none => (((QueryBlacklist swap.Bind swap.PairID).1, none),
          [Event.QueryBlacklist swap.From swap.PairID, Event.QueryBlacklist swap.Bind swap.PairID])
    else
      (((QueryBlacklist swap.From swap.PairID).1, none), [Event.QueryBlacklist swap.From swap.PairID])

/-- Everything outside `worker/swap.go` that `processSwap` calls. `blacklistMemo` is the text of
`tokens.ErrAddressIsInBlacklist`. -/
structure ProcessEnv where
  FindSwapResult : Bool → String → String → String → Except Err MgoSwapResult
  GetTokenConfigsByDirection : String → Bool → Option TokenConfig × Option TokenConfig
  QueryBlacklist : String → String → Bool × Option Err
  GetBigIntFromStr : String → Except Err Int
  GetIdentifier : String
  blacklistMemo : String
  ToLower : String → String

/-- Go `processSwap`: how the call ends, the trace of its storage calls, and the state of the
queues after it. -/
def processSwap (env : ProcessEnv) (w : Worker) (swap : MgoSwap) (isSwapin : Bool) :
    (Sent × List Event) × Worker :=
  let pairID := swap.PairID
  let txid := swap.TxID
  let bind := swap.Bind
  let t0 := [Event.FindSwapResult isSwapin txid pairID bind]
  match env.FindSwapResult isSwapin txid pairID bind with
  | .error err => ((Sent.returned (some err), t0), w)
  | .ok res =>
    match preventDoubleSwap res isSwapin with
    | (some err, t1) => ((Sent.returned (some err), t0 ++ t1), w)
    | (none, t1) =>
      match env.GetTokenConfigsByDirection pairID isSwapin with
      | (none, _) => ((Sent.returned none, t0 ++ t1), w)
      | (some _, none) => ((Sent.returned none, t0 ++ t1), w)
      | (some fromTokenCfg, some toTokenCfg) =>
        if fromTokenCfg.DisableSwap then ((Sent.returned none, t0 ++ t1), w)
        else
          match isSwapInBlacklist env.QueryBlacklist res with
          | ((_, some err), t2) => ((Sent.returned (some err), t0 ++ t1 ++ t2), w)
          | ((true, none), t2) =>
            ((Sent.returned none, t0 ++ t1 ++ t2 ++
              [Event.UpdateSwapStatus isSwapin txid pairID bind SwapStatus.SwapInBlacklist
                env.blacklistMemo]), w)
          | ((false, none), t2) =>
            match env.GetBigIntFromStr res.Value with
            | .error _ =>
              ((Sent.returned (some (Err.new ("wrong value " ++ res.Value))), t0 ++ t1 ++ t2), w)
            | .ok value =>
              let args : BuildTxArgs :=
                { PairID := pairID
                  SwapID := txid
                  SwapType := getSwapType isSwapin
                  Bind := bind
                  From := toTokenCfg.DcrmAddress
                  OriginValue := value
                  TxNonce := none
                  Identifier := env.GetIdentifier
                  TxType := swap.TxType }
              let sent := dispatchSwapTask env.ToLower w args
              ((sent.1, t0 ++ t1 ++ t2), sent.2)

/-- A sample pair: destination signer address `0xDD`, source signer address `0xSS`. -/
def samplePair : TokenPairConfig :=
  { PairID := "ETH/BTC", SrcToken := ⟨"0xSS", false⟩, DestToken := ⟨"0xDD", false⟩ }

/-- A sample swap record to process. -/
def sampleSwap : MgoSwap :=
  { PairID := "eth/btc", TxID := "0xaaa", Bind := "0xB", TxType := 0, Status := SwapStatus.TxNotSwapped }

/-- A sample environment of `processSwap`: the record is `res`, both token configs exist with
swapping enabled, and exactly the address `0xBAD` is on the blacklist. -/
def sampleProcessEnv (res : MgoSwapResult) : ProcessEnv where
  FindSwapResult := fun _ _ _ _ => .ok res
  GetTokenConfigsByDirection := fun _ _ => (some ⟨"0xSS", false⟩, some ⟨"0xDD", false⟩)
  QueryBlacklist := fun address _ => (address == "0xBAD", none)
  GetBigIntFromStr := fun str => if str = "1000000" then .ok 1000000 else .error (Err.new "invalid number")
  GetIdentifier := "bridge"
  blacklistMemo := "address is in blacklist"
  ToLower := asciiToLower

/-- The signer address of a pair for a direction: the destination token for swapin, the source
token for swapout. -/
def TokenPairConfig.dcrmAddress (pairCfg : TokenPairConfig) (isSwapin : Bool) : String :=
  if isSwapin then pairCfg.DestToken.DcrmAddress else pairCfg.SrcToken.DcrmAddress

/-- The goroutine is a consumer of a channel. -/
def Task.isConsumer : Task → Bool
  | Task.processSwapTask _ => true
  | _ => false

/-- The state after `AddSwapJob` was called for each pair of the list in turn, from empty maps. -/
def addSwapJobs (ToLower : String → String) (pairs : List TokenPairConfig) : Worker :=
  pairs.foldl (AddSwapJob ToLower) Worker.empty

/-- The queues are well formed: every channel in a map has capacity `swapChanSize`, an empty
buffer, an id below the number of channels made and exactly one consumer started for it; no two
entries of the maps hold the same channel; and every consumer started belongs to a channel that
is in a map. -/
def Worker.wellFormed (w : Worker) : Prop :=
  (∀ d k ch, w.chanMap d k = some ch →
    ch.cap = swapChanSize ∧ ch.buf = [] ∧ ch.id < w.chansMade ∧
      w.spawned.count (Task.processSwapTask ch.id) = 1) ∧
  (∀ d1 d2 k1 k2 c1 c2, w.chanMap d1 k1 = some c1 → w.chanMap d2 k2 = some c2 → c1.id = c2.id →
    d1 = d2 ∧ k1 = k2) ∧
  (∀ id, Task.processSwapTask id ∈ w.spawned →
    id < w.chansMade ∧ ∃ d k ch, w.chanMap d k = some ch ∧ ch.id = id)

/-! ## Theorems -/

/-- The trace of a dedup hit is the lookup followed by one status update. -/
theorem doSwap_processed (env : SwapEnv) (args : BuildTxArgs) (res : MgoSwapResult)
    (hfind : env.FindSwapResult (decide (args.SwapType = SwapType.SwapinType))
      args.SwapID args.PairID args.Bind = .ok res)
    (hp : res.processed = true) :
    doSwap env args = (some Err.errAlreadySwapped,
      [Event.FindSwapResult (decide (args.SwapType = SwapType.SwapinType)) args.SwapID args.PairID args.Bind,
       Event.UpdateSwapStatus (decide (args.SwapType = SwapType.SwapinType)) res.TxID res.PairID res.Bind
         SwapStatus.TxProcessed ""]) := by
  unfold MgoSwapResult.processed at hp
  simp only [doSwap, hfind, preventDoubleSwap, hp, if_true]
  rfl

/-- The dedup check written with the record predicate `processed`. -/
theorem preventDoubleSwap_eq (res : MgoSwapResult) (isSwapin : Bool) :
    preventDoubleSwap res isSwapin =
      if res.processed = true then
        (some Err.errAlreadySwapped,
          [Event.UpdateSwapStatus isSwapin res.TxID res.PairID res.Bind SwapStatus.TxProcessed ""])
      else (none, []) := by
  unfold preventDoubleSwap MgoSwapResult.processed
  rfl

/-- A list with a single broadcast splits around a broadcast in one way only. -/
theorem split_at_send {l1 l2 pre post : List Event} {s ev : Event}
    (h1 : ∀ e ∈ l1, e.isSend = false) (h2 : ∀ e ∈ l2, e.isSend = false)
    (hev : ev.isSend = true) (h : l1 ++ s :: l2 = pre ++ ev :: post) :
    pre = l1 ∧ ev = s ∧ post = l2 := by
  induction l1 generalizing pre with
  | nil =>
    cases pre with
    | nil =>
      simp only [List.nil_append, List.cons.injEq] at h
      exact ⟨rfl, h.1.symm, h.2.symm⟩
    | cons p pre1 =>
      simp only [List.nil_append, List.cons_append, List.cons.injEq] at h
      have hmem : ev ∈ l2 := by rw [h.2]; simp
      rw [h2 ev hmem] at hev
      cases hev
  | cons a l ih =>
    cases pre with
    | nil =>
      simp only [List.nil_append, List.cons_append, List.cons.injEq] at h
      have ha := h1 a (by simp)
      rw [h.1, hev] at ha
      cases ha
    | cons p pre1 =>
      simp only [List.cons_append, List.cons.injEq] at h
      obtain ⟨r1, r2, r3⟩ := ih (fun e he => h1 e (by simp [he])) h.2
      exact ⟨by rw [h.1, r1], r2, r3⟩

/-- A list with one broadcast between two broadcast-free parts holds at most one broadcast. -/
theorem filter_send_length {l1 l2 : List Event} {s : Event}
    (h1 : ∀ e ∈ l1, e.isSend = false) (h2 : ∀ e ∈ l2, e.isSend = false) :
    ((l1 ++ s :: l2).filter Event.isSend).length ≤ 1 := by
  rw [List.filter_append, List.filter_cons,
    List.filter_eq_nil_iff.mpr (fun e he => by simp [h1 e he]),
    List.filter_eq_nil_iff.mpr (fun e he => by simp [h2 e he])]
  split <;> simp

/-- Either the trace of doSwap holds no broadcast, or every step up to the broadcast succeeded
and the trace is the six calls up to the broadcast, followed by SetNonce when the broadcast
succeeded on a nonce-setting bridge. -/
theorem doSwap_shape (env : SwapEnv) (args : BuildTxArgs) :
    ((∀ e ∈ (doSwap env args).2, e.isSend = false) ∧ (∀ e ∈ (doSwap env args).2, e.isSetNonce = false) ∧
      (doSwap env args).1 ≠ none ∧
      (∀ m, Event.updateSwapResult args.SwapID args.PairID args.Bind m ∈ (doSwap env args).2 →
        (doSwap env args).1 =
          match env.updateSwapResult args.SwapID args.PairID args.Bind m with
          | some err => some err
          | none => env.UpdateSwapStatus (decide (args.SwapType = SwapType.SwapinType))
              args.SwapID args.PairID args.Bind SwapStatus.TxProcessed "") ∧
      (∀ isSwapin txid pairID bind memo,
        Event.UpdateSwapStatus isSwapin txid pairID bind SwapStatus.TxProcessed memo ∈ (doSwap env args).2 →
        (∃ res, env.FindSwapResult (decide (args.SwapType = SwapType.SwapinType))
            args.SwapID args.PairID args.Bind = .ok res ∧ res.processed = true) ∨
          (doSwap env args).1 = env.UpdateSwapStatus (decide (args.SwapType = SwapType.SwapinType))
            args.SwapID args.PairID args.Bind SwapStatus.TxProcessed "")) ∨
    ∃ res rawTx args1 signedTx txHash signEv,
      env.FindSwapResult (decide (args.SwapType = SwapType.SwapinType)) args.SwapID args.PairID args.Bind
        = .ok res ∧
      res.processed = false ∧
      (env.GetCrossChainBridge (!decide (args.SwapType = SwapType.SwapinType))).BuildRawTransaction args
        = .ok (rawTx, args1) ∧
      ((signEv = Event.SignTransaction (!decide (args.SwapType = SwapType.SwapinType)) rawTx args.PairID ∧
          (env.GetCrossChainBridge (!decide (args.SwapType = SwapType.SwapinType))).SignTransaction
            rawTx args.PairID = .ok (signedTx, txHash)) ∨
        (signEv = Event.DcrmSignTransaction (!decide (args.SwapType = SwapType.SwapinType)) rawTx args1 ∧
          (env.GetCrossChainBridge (!decide (args.SwapType = SwapType.SwapinType))).DcrmSignTransaction
            rawTx args1 = .ok (signedTx, txHash))) ∧
      env.updateSwapResult args.SwapID args.PairID args.Bind
        { SwapTx := txHash
          SwapValue := env.CalcSwappedValue args.PairID args.OriginValue
            (decide (args.SwapType = SwapType.SwapinType))
          SwapType := args.SwapType
          SwapNonce := env.GetTxNonce args1 } = none ∧
      env.UpdateSwapStatus (decide (args.SwapType = SwapType.SwapinType))
        args.SwapID args.PairID args.Bind SwapStatus.TxProcessed "" = none ∧
      (doSwap env args).1 = env.sendSignedTransaction (!decide (args.SwapType = SwapType.SwapinType))
        signedTx args.SwapID args.PairID args.Bind (decide (args.SwapType = SwapType.SwapinType)) ∧
      (doSwap env args).2 =
        [Event.FindSwapResult (decide (args.SwapType = SwapType.SwapinType)) args.SwapID args.PairID args.Bind,
         Event.BuildRawTransaction (!decide (args.SwapType = SwapType.SwapinType)) args,
         signEv,
         Event.updateSwapResult args.SwapID args.PairID args.Bind
          { SwapTx := txHash
            SwapValue := env.CalcSwappedValue args.PairID args.OriginValue
              (decide (args.SwapType = SwapType.SwapinType))
            SwapType := args.SwapType
            SwapNonce := env.GetTxNonce args1 },
         Event.UpdateSwapStatus (decide (args.SwapType = SwapType.SwapinType))
          args.SwapID args.PairID args.Bind SwapStatus.TxProcessed ""] ++
        Event.sendSignedTransaction (!decide (args.SwapType = SwapType.SwapinType)) signedTx
          args.SwapID args.PairID args.Bind (decide (args.SwapType = SwapType.SwapinType)) ::
        (if (doSwap env args).1 = none ∧
            (env.GetCrossChainBridge (!decide (args.SwapType = SwapType.SwapinType))).isNonceSetter = true
          then [Event.SetNonce (!decide (args.SwapType = SwapType.SwapinType)) args.PairID
            (u64 (env.GetTxNonce args1 + 1))]
          else []) := by
  cases hfind : env.FindSwapResult (decide (args.SwapType = SwapType.SwapinType))
      args.SwapID args.PairID args.Bind with
  | error e => left; simp [doSwap, hfind, Event.isSend, Event.isSetNonce]
  | ok res =>
    cases hp : res.processed with
    | true => left; simp [doSwap_processed env args res hfind hp, hp, Event.isSend, Event.isSetNonce]
    | false =>
      cases hb : (env.GetCrossChainBridge
          (!decide (args.SwapType = SwapType.SwapinType))).BuildRawTransaction args with
      | error e =>
        left; simp [doSwap, hfind, preventDoubleSwap_eq, hp, hb, Event.isSend, Event.isSetNonce]
      | ok built =>
        obtain ⟨rawTx, args1⟩ := built
        by_cases hk : (env.GetCrossChainBridge
            (!decide (args.SwapType = SwapType.SwapinType))).hasDcrmAddressPrivateKey args.PairID = true
        · cases hs : (env.GetCrossChainBridge
              (!decide (args.SwapType = SwapType.SwapinType))).SignTransaction rawTx args.PairID with
          | error e =>
            left
            simp [doSwap, hfind, preventDoubleSwap_eq, hp, hb, hk, hs, Event.isSend, Event.isSetNonce]
          | ok sig =>
            obtain ⟨signedTx, txHash⟩ := sig
            cases hu : env.updateSwapResult args.SwapID args.PairID args.Bind
                { SwapTx := txHash
                  SwapValue := env.CalcSwappedValue args.PairID args.OriginValue
                    (decide (args.SwapType = SwapType.SwapinType))
                  SwapType := args.SwapType
                  SwapNonce := env.GetTxNonce args1 } with
            | some e =>
              left
              simp [doSwap, hfind, preventDoubleSwap_eq, hp, hb, hk, hs, hu, Event.isSend,
                Event.isSetNonce]
            | none =>
              cases hst : env.UpdateSwapStatus (decide (args.SwapType = SwapType.SwapinType))
                  args.SwapID args.PairID args.Bind SwapStatus.TxProcessed "" with
              | some e =>
                left
                simp [doSwap, hfind, preventDoubleSwap_eq, hp, hb, hk, hs, hu, hst, Event.isSend,
                  Event.isSetNonce]
              | none =>
                right
                refine ⟨res, rawTx, args1, signedTx, txHash, _, rfl, hp, rfl, Or.inl ⟨rfl, hs⟩,
                  hu, rfl, ?_⟩
                cases hsend : env.sendSignedTransaction (!decide (args.SwapType = SwapType.SwapinType))
                    signedTx args.SwapID args.PairID args.Bind
                    (decide (args.SwapType = SwapType.SwapinType)) with
                | some e =>
                  simp [doSwap, hfind, preventDoubleSwap_eq, hp, hb, hk, hs, hu, hst, hsend]
                | none =>
                  by_cases hn : (env.GetCrossChainBridge
                      (!decide (args.SwapType = SwapType.SwapinType))).isNonceSetter = true
                  · simp [doSwap, hfind, preventDoubleSwap_eq, hp, hb, hk, hs, hu, hst, hsend, hn]
                  · simp [doSwap, hfind, preventDoubleSwap_eq, hp, hb, hk, hs, hu, hst, hsend, hn]
        · cases hs : (env.GetCrossChainBridge
              (!decide (args.SwapType = SwapType.SwapinType))).DcrmSignTransaction rawTx args1 with
          | error e =>
            left
            simp [doSwap, hfind, preventDoubleSwap_eq, hp, hb, hk, hs, Event.isSend, Event.isSetNonce]
          | ok sig =>
            obtain ⟨signedTx, txHash⟩ := sig
            cases hu : env.updateSwapResult args.SwapID args.PairID args.Bind
                { SwapTx := txHash
                  SwapValue := env.CalcSwappedValue args.PairID args.OriginValue
                    (decide (args.SwapType = SwapType.SwapinType))
                  SwapType := args.SwapType
                  SwapNonce := env.GetTxNonce args1 } with
            | some e =>
              left
              simp [doSwap, hfind, preventDoubleSwap_eq, hp, hb, hk, hs, hu, Event.isSend,
                Event.isSetNonce]
            | none =>
              cases hst : env.UpdateSwapStatus (decide (args.SwapType = SwapType.SwapinType))
                  args.SwapID args.PairID args.Bind SwapStatus.TxProcessed "" with
              | some e =>
                left
                simp [doSwap, hfind, preventDoubleSwap_eq, hp, hb, hk, hs, hu, hst, Event.isSend,
                  Event.isSetNonce]
              | none =>
                right
                refine ⟨res, rawTx, args1, signedTx, txHash, _, rfl, hp, rfl, Or.inr ⟨rfl, hs⟩,
                  hu, rfl, ?_⟩
                cases hsend : env.sendSignedTransaction (!decide (args.SwapType = SwapType.SwapinType))
                    signedTx args.SwapID args.PairID args.Bind
                    (decide (args.SwapType = SwapType.SwapinType)) with
                | some e =>
                  simp [doSwap, hfind, preventDoubleSwap_eq, hp, hb, hk, hs, hu, hst, hsend]
                | none =>
                  by_cases hn : (env.GetCrossChainBridge
                      (!decide (args.SwapType = SwapType.SwapinType))).isNonceSetter = true
                  · simp [doSwap, hfind, preventDoubleSwap_eq, hp, hb, hk, hs, hu, hst, hsend, hn]
                  · simp [doSwap, hfind, preventDoubleSwap_eq, hp, hb, hk, hs, hu, hst, hsend, hn]

/-- C1: in every run of doSwap the broadcast (sendSignedTransaction) happens at most once; when it
happens, the two calls right before it are updateSwapResult with the match record (SwapTx = the
hash returned by the signing call, SwapValue, SwapType, SwapNonce) and UpdateSwapStatus(TxProcessed),
both of which returned nil; and when a persist step that was reached fails, doSwap returns that
error and the trace holds no broadcast. -/
theorem doSwap_persist_before_broadcast (env : SwapEnv) (args : BuildTxArgs) :
    ((doSwap env args).2.filter Event.isSend).length ≤ 1 ∧
    (∀ pre ev post, (doSwap env args).2 = pre ++ ev :: post → ev.isSend = true →
      ∃ pre0 m rawTx args1 signedTx,
        pre = pre0 ++ [Event.updateSwapResult args.SwapID args.PairID args.Bind m,
          Event.UpdateSwapStatus (decide (args.SwapType = SwapType.SwapinType))
            args.SwapID args.PairID args.Bind SwapStatus.TxProcessed ""] ∧
        (∀ e ∈ pre0, e.isSend = false) ∧ (∀ e ∈ post, e.isSend = false) ∧
        env.updateSwapResult args.SwapID args.PairID args.Bind m = none ∧
        env.UpdateSwapStatus (decide (args.SwapType = SwapType.SwapinType))
          args.SwapID args.PairID args.Bind SwapStatus.TxProcessed "" = none ∧
        (env.GetCrossChainBridge (!decide (args.SwapType = SwapType.SwapinType))).BuildRawTransaction args
          = .ok (rawTx, args1) ∧
        ((Event.SignTransaction (!decide (args.SwapType = SwapType.SwapinType)) rawTx args.PairID ∈ pre0 ∧
            (env.GetCrossChainBridge (!decide (args.SwapType = SwapType.SwapinType))).SignTransaction
              rawTx args.PairID = .ok (signedTx, m.SwapTx)) ∨
          (Event.DcrmSignTransaction (!decide (args.SwapType = SwapType.SwapinType)) rawTx args1 ∈ pre0 ∧
            (env.GetCrossChainBridge (!decide (args.SwapType = SwapType.SwapinType))).DcrmSignTransaction
              rawTx args1 = .ok (signedTx, m.SwapTx))) ∧
        m.SwapValue = env.CalcSwappedValue args.PairID args.OriginValue
          (decide (args.SwapType = SwapType.SwapinType)) ∧
        m.SwapType = args.SwapType ∧ m.SwapNonce = env.GetTxNonce args1 ∧
        ev = Event.sendSignedTransaction (!decide (args.SwapType = SwapType.SwapinType)) signedTx
          args.SwapID args.PairID args.Bind (decide (args.SwapType = SwapType.SwapinType))) ∧
    (∀ m err, Event.updateSwapResult args.SwapID args.PairID args.Bind m ∈ (doSwap env args).2 →
      env.updateSwapResult args.SwapID args.PairID args.Bind m = some err →
      (doSwap env args).1 = some err ∧ ∀ e ∈ (doSwap env args).2, e.isSend = false) ∧
    (∀ m err, Event.updateSwapResult args.SwapID args.PairID args.Bind m ∈ (doSwap env args).2 →
      env.updateSwapResult args.SwapID args.PairID args.Bind m = none →
      env.UpdateSwapStatus (decide (args.SwapType = SwapType.SwapinType))
        args.SwapID args.PairID args.Bind SwapStatus.TxProcessed "" = some err →
      (doSwap env args).1 = some err ∧ ∀ e ∈ (doSwap env args).2, e.isSend = false) := by
  rcases doSwap_shape env args with ⟨hsend, -, -, hpersist, -⟩ |
    ⟨res, rawTx, args1, signedTx, txHash, signEv, hfind, hp, hb, hsign, hu, hst, hres, htr⟩
  · refine ⟨?_, ?_, ?_, ?_⟩
    · rw [List.filter_eq_nil_iff.mpr (fun e he => by simp [hsend e he])]
      simp
    · intro pre ev post h hev
      have hmem : ev ∈ (doSwap env args).2 := by rw [h]; simp
      rw [hsend ev hmem] at hev
      cases hev
    · intro m err hm hfail
      have := hpersist m hm
      rw [hfail] at this
      exact ⟨this, hsend⟩
    · intro m err hm hok hfail
      have := hpersist m hm
      rw [hok] at this
      exact ⟨this.trans hfail, hsend⟩
  · have hnotail : ∀ e ∈ (if (doSwap env args).1 = none ∧
          (env.GetCrossChainBridge (!decide (args.SwapType = SwapType.SwapinType))).isNonceSetter = true
        then [Event.SetNonce (!decide (args.SwapType = SwapType.SwapinType)) args.PairID
          (u64 (env.GetTxNonce args1 + 1))]
        else []), e.isSend = false := by
      intro e he
      split at he
      · simp only [List.mem_singleton] at he
        rw [he]; rfl
      · cases he
    have hnopre : ∀ e ∈ [Event.FindSwapResult (decide (args.SwapType = SwapType.SwapinType))
          args.SwapID args.PairID args.Bind,
        Event.BuildRawTransaction (!decide (args.SwapType = SwapType.SwapinType)) args,
        signEv,
        Event.updateSwapResult args.SwapID args.PairID args.Bind
          { SwapTx := txHash
            SwapValue := env.CalcSwappedValue args.PairID args.OriginValue
              (decide (args.SwapType = SwapType.SwapinType))
            SwapType := args.SwapType
            SwapNonce := env.GetTxNonce args1 },
        Event.UpdateSwapStatus (decide (args.SwapType = SwapType.SwapinType))
          args.SwapID args.PairID args.Bind SwapStatus.TxProcessed ""], e.isSend = false := by
      intro e he
      simp only [List.mem_cons, List.mem_singleton, List.not_mem_nil, or_false] at he
      rcases hsign with ⟨hse, -⟩ | ⟨hse, -⟩ <;>
        rcases he with he | he | he | he | he <;> simp [he, hse, Event.isSend]
    refine ⟨?_, ?_, ?_, ?_⟩
    · rw [htr]
      exact filter_send_length hnopre hnotail
    · intro pre ev post h hev
      rw [htr] at h
      obtain ⟨hpre, hev2, hpost⟩ := split_at_send hnopre hnotail hev h
      refine ⟨[Event.FindSwapResult (decide (args.SwapType = SwapType.SwapinType))
          args.SwapID args.PairID args.Bind,
        Event.BuildRawTransaction (!decide (args.SwapType = SwapType.SwapinType)) args, signEv],
        _, rawTx, args1, signedTx, ?_, ?_, ?_, hu, hst, hb, ?_, rfl, rfl, rfl, hev2⟩
      · rw [hpre]; rfl
      · intro e he
        exact hnopre e (List.mem_append_left _ he)
      · rw [hpost]; exact hnotail
      · rcases hsign with ⟨hse, hs⟩ | ⟨hse, hs⟩
        · exact Or.inl ⟨by simp [hse], hs⟩
        · exact Or.inr ⟨by simp [hse], hs⟩
    · intro m err hm hfail
      rw [htr] at hm
      have hm2 : m = MatchTx.mk txHash (env.CalcSwappedValue args.PairID args.OriginValue
          (decide (args.SwapType = SwapType.SwapinType))) args.SwapType (env.GetTxNonce args1) := by
        rcases hsign with ⟨hse, -⟩ | ⟨hse, -⟩ <;>
          · simp only [hse, List.mem_append, List.mem_cons, List.mem_singleton, List.not_mem_nil] at hm
            split at hm <;> simp_all
      rw [hm2, hu] at hfail
      cases hfail
    · intro m err hm hok hfail
      rw [hst] at hfail
      cases hfail

/-- A trace without SetNonce calls leaves the nonce state as it was. -/
theorem nonceStateAfter_of_no_setNonce {σ : Type} (setNonce : σ → Bool → String → Nat → σ) (st : σ)
    (tr : List Event) (h : ∀ e ∈ tr, e.isSetNonce = false) : nonceStateAfter setNonce st tr = st := by
  induction tr with
  | nil => rfl
  | cons e rest ih =>
    have he := h e (by simp)
    have hrest := ih (fun x hx => h x (by simp [hx]))
    cases e <;> first | exact hrest | (simp [Event.isSetNonce] at he)

/-- C2: for a loaded record, and given that the status update and the broadcast helper never
return the worker's own sentinel, doSwap returns errAlreadySwapped and requests a status update to
TxProcessed exactly when the record shows prior processing (SwapTx non-empty, or Status not
MatchTxEmpty, or SwapHeight not 0, or OldSwapTxs non-empty); in that case the run is the lookup
followed by that one status update, so it holds no build, signing, match-record write or broadcast;
for a record with none of the four signs preventDoubleSwap returns nil and makes no call. -/
theorem doSwap_dedup (env : SwapEnv) (args : BuildTxArgs) (res : MgoSwapResult)
    (hfind : env.FindSwapResult (decide (args.SwapType = SwapType.SwapinType))
      args.SwapID args.PairID args.Bind = .ok res)
    (hext : env.keepsSentinel) :
    (((doSwap env args).1 = some Err.errAlreadySwapped ∧
        ∃ isSwapin txid pairID bind memo,
          Event.UpdateSwapStatus isSwapin txid pairID bind SwapStatus.TxProcessed memo ∈ (doSwap env args).2) ↔
      (res.SwapTx ≠ "" ∨ res.Status ≠ SwapStatus.MatchTxEmpty ∨ res.SwapHeight ≠ 0 ∨ res.OldSwapTxs ≠ [])) ∧
    ((res.SwapTx ≠ "" ∨ res.Status ≠ SwapStatus.MatchTxEmpty ∨ res.SwapHeight ≠ 0 ∨ res.OldSwapTxs ≠ []) →
      doSwap env args = (some Err.errAlreadySwapped,
        [Event.FindSwapResult (decide (args.SwapType = SwapType.SwapinType)) args.SwapID args.PairID args.Bind,
         Event.UpdateSwapStatus (decide (args.SwapType = SwapType.SwapinType)) res.TxID res.PairID res.Bind
           SwapStatus.TxProcessed ""]) ∧
      ∀ e ∈ (doSwap env args).2, e.isBuildSignPersistSend = false) ∧
    (¬ (res.SwapTx ≠ "" ∨ res.Status ≠ SwapStatus.MatchTxEmpty ∨ res.SwapHeight ≠ 0 ∨ res.OldSwapTxs ≠ []) →
      ∀ isSwapin, preventDoubleSwap res isSwapin = (none, [])) := by
  have hproc : res.processed = true ↔
      (res.SwapTx ≠ "" ∨ res.Status ≠ SwapStatus.MatchTxEmpty ∨ res.SwapHeight ≠ 0 ∨ res.OldSwapTxs ≠ []) := by
    unfold MgoSwapResult.processed
    simp [List.length_pos, or_assoc]
  have hhit : res.processed = true → doSwap env args = (some Err.errAlreadySwapped,
        [Event.FindSwapResult (decide (args.SwapType = SwapType.SwapinType)) args.SwapID args.PairID args.Bind,
         Event.UpdateSwapStatus (decide (args.SwapType = SwapType.SwapinType)) res.TxID res.PairID res.Bind
           SwapStatus.TxProcessed ""]) := doSwap_processed env args res hfind
  refine ⟨⟨?_, ?_⟩, ?_, ?_⟩
  · rintro ⟨hres, isSwapin, txid, pairID, bind, memo, hmem⟩
    rw [← hproc]
    rcases doSwap_shape env args with ⟨-, -, -, -, hupd⟩ | ⟨res1, _, _, signedTx, _, _, -, -, -, -, -, -, hr, -⟩
    · rcases hupd isSwapin txid pairID bind memo hmem with ⟨res1, hf1, hp1⟩ | hst
      · rw [hfind] at hf1
        cases hf1
        exact hp1
      · rw [hres] at hst
        exact absurd hst.symm (hext.1 _ _ _ _ _ _)
    · rw [hres] at hr
      exact absurd hr.symm (hext.2 _ _ _ _ _ _)
  · intro h
    rw [hhit (hproc.mpr h)]
    exact ⟨rfl, decide (args.SwapType = SwapType.SwapinType), res.TxID, res.PairID, res.Bind, "", by simp⟩
  · intro h
    rw [hhit (hproc.mpr h)]
    refine ⟨rfl, ?_⟩
    intro e he
    simp only [List.mem_cons, List.mem_singleton, List.not_mem_nil, or_false] at he
    rcases he with he | he <;> rw [he] <;> rfl
  · intro h isSwapin
    rw [preventDoubleSwap_eq]
    have : res.processed = false := by
      cases hb : res.processed with
      | true => exact absurd (hproc.mp hb) h
      | false => rfl
    simp [this]

/-- C2 witness: the sample request on a record whose SwapTx is already set. -/
theorem doSwap_dedup_witness :
    (((doSwap (sampleEnv { sampleFresh with SwapTx := "0xprev" }) sampleArgs).1
          = some Err.errAlreadySwapped ∧
        ∃ isSwapin txid pairID bind memo,
          Event.UpdateSwapStatus isSwapin txid pairID bind SwapStatus.TxProcessed memo ∈
            (doSwap (sampleEnv { sampleFresh with SwapTx := "0xprev" }) sampleArgs).2) ↔
      (({ sampleFresh with SwapTx := "0xprev" } : MgoSwapResult).SwapTx ≠ "" ∨
        ({ sampleFresh with SwapTx := "0xprev" } : MgoSwapResult).Status ≠ SwapStatus.MatchTxEmpty ∨
        ({ sampleFresh with SwapTx := "0xprev" } : MgoSwapResult).SwapHeight ≠ 0 ∨
        ({ sampleFresh with SwapTx := "0xprev" } : MgoSwapResult).OldSwapTxs ≠ [])) ∧
    (doSwap (sampleEnv { sampleFresh with SwapTx := "0xprev" }) sampleArgs =
      (some Err.errAlreadySwapped,
        [Event.FindSwapResult true "0xaaa" "eth/btc" "0xB",
         Event.UpdateSwapStatus true "0xaaa" "eth/btc" "0xB" SwapStatus.TxProcessed ""])) :=
  ⟨(doSwap_dedup (sampleEnv { sampleFresh with SwapTx := "0xprev" }) sampleArgs
      { sampleFresh with SwapTx := "0xprev" } rfl
      ⟨fun _ _ _ _ _ _ h => (nomatch h), fun _ _ _ _ _ _ h => (nomatch h)⟩).1,
   ((doSwap_dedup (sampleEnv { sampleFresh with SwapTx := "0xprev" }) sampleArgs
      { sampleFresh with SwapTx := "0xprev" } rfl
      ⟨fun _ _ _ _ _ _ h => (nomatch h), fun _ _ _ _ _ _ h => (nomatch h)⟩).2.1
      (Or.inl (by decide))).1⟩

/-- C3: doSwap calls SetNonce exactly when it returns nil on a bridge that implements NonceSetter,
and doSwap returns nil exactly when the broadcast was made and returned nil. The call is then the
last one of the run, made once, with the pair id and the uint64 sum swapNonce + 1, where swapNonce
is GetTxNonce of the args as the build left them (the plain sum when it fits in 64 bits). In every
run that returns an error (broadcast failed, or dedup, build, sign or persist failed) SetNonce is
not called and the nonce state, for any implementation of SetNonce, is as before. -/
theorem doSwap_nonce_advance (env : SwapEnv) (args : BuildTxArgs) :
    (match (env.GetCrossChainBridge (!decide (args.SwapType = SwapType.SwapinType))).BuildRawTransaction
        args with
      | .ok (_, args1) =>
        (doSwap env args).2.filter Event.isSetNonce =
          (if (doSwap env args).1 = none ∧
              (env.GetCrossChainBridge (!decide (args.SwapType = SwapType.SwapinType))).isNonceSetter = true
            then [Event.SetNonce (!decide (args.SwapType = SwapType.SwapinType)) args.PairID
              (u64 (env.GetTxNonce args1 + 1))]
            else []) ∧
        ((doSwap env args).1 = none →
          (env.GetCrossChainBridge (!decide (args.SwapType = SwapType.SwapinType))).isNonceSetter = true →
          (doSwap env args).2.getLast? = some (Event.SetNonce
            (!decide (args.SwapType = SwapType.SwapinType)) args.PairID (u64 (env.GetTxNonce args1 + 1))) ∧
          ∀ (σ : Type) (setNonce : σ → Bool → String → Nat → σ) (st : σ),
            nonceStateAfter setNonce st (doSwap env args).2 =
              setNonce st (!decide (args.SwapType = SwapType.SwapinType)) args.PairID
                (u64 (env.GetTxNonce args1 + 1))) ∧
        (env.GetTxNonce args1 + 1 < 2 ^ 64 → u64 (env.GetTxNonce args1 + 1) = env.GetTxNonce args1 + 1)
      | .error _ => (doSwap env args).1 ≠ none) ∧
    ((doSwap env args).1 = none ↔
      ∃ signedTx,
        Event.sendSignedTransaction (!decide (args.SwapType = SwapType.SwapinType)) signedTx
          args.SwapID args.PairID args.Bind (decide (args.SwapType = SwapType.SwapinType))
            ∈ (doSwap env args).2 ∧
        env.sendSignedTransaction (!decide (args.SwapType = SwapType.SwapinType)) signedTx
          args.SwapID args.PairID args.Bind (decide (args.SwapType = SwapType.SwapinType)) = none) ∧
    ((doSwap env args).1 ≠ none →
      (∀ e ∈ (doSwap env args).2, e.isSetNonce = false) ∧
      ∀ (σ : Type) (setNonce : σ → Bool → String → Nat → σ) (st : σ),
        nonceStateAfter setNonce st (doSwap env args).2 = st) := by
  rcases doSwap_shape env args with ⟨hsend, hset, hne, -, -⟩ |
    ⟨res, rawTx, args1, signedTx, txHash, signEv, hfind, hp, hb, hsign, hu, hst, hres, htr⟩
  · refine ⟨?_, ⟨fun h => absurd h hne, ?_⟩, fun _ => ⟨hset, fun σ setNonce st =>
      nonceStateAfter_of_no_setNonce setNonce st _ hset⟩⟩
    · split
      · refine ⟨?_, fun h => absurd h hne, ?_⟩
        · rw [List.filter_eq_nil_iff.mpr (fun e he => by simp [hset e he]), if_neg (fun h => hne h.1)]
        · intro h
          exact Nat.mod_eq_of_lt h
      · exact hne
    · rintro ⟨stx, hmem, -⟩
      have := hsend _ hmem
      simp [Event.isSend] at this
  · have hsig : signEv.isSetNonce = false ∧ signEv.isSend = false := by
      rcases hsign with ⟨hse, -⟩ | ⟨hse, -⟩ <;> rw [hse] <;> exact ⟨rfl, rfl⟩
    refine ⟨?_, ⟨?_, ?_⟩, ?_⟩
    · rw [hb]
      refine ⟨?_, ?_, fun h => Nat.mod_eq_of_lt h⟩
      · rw [htr]
        rcases hsign with ⟨hse, -⟩ | ⟨hse, -⟩ <;> rw [hse] <;> split <;>
          simp [List.filter, Event.isSetNonce]
      · intro h1 h2
        have hc : (doSwap env args).1 = none ∧ (env.GetCrossChainBridge
            (!decide (args.SwapType = SwapType.SwapinType))).isNonceSetter = true := ⟨h1, h2⟩
        rw [htr, if_pos hc]
        refine ⟨by simp, ?_⟩
        intro σ setNonce st
        rcases hsign with ⟨hse, -⟩ | ⟨hse, -⟩ <;> rw [hse] <;> rfl
    · intro h
      refine ⟨signedTx, ?_, ?_⟩
      · rw [htr]; simp
      · rw [← hres]; exact h
    · rintro ⟨stx, hmem, hok⟩
      rw [htr] at hmem
      have hstx : stx = signedTx := by
        simp only [List.mem_append, List.mem_cons, List.mem_singleton, List.not_mem_nil] at hmem
        rcases hsign with ⟨hse, -⟩ | ⟨hse, -⟩ <;>
          · rw [hse] at hmem
            split at hmem <;> simp_all
      rw [hres, ← hstx]
      exact hok
    · intro hne
      have hnil : (if (doSwap env args).1 = none ∧
          (env.GetCrossChainBridge (!decide (args.SwapType = SwapType.SwapinType))).isNonceSetter = true
        then [Event.SetNonce (!decide (args.SwapType = SwapType.SwapinType)) args.PairID
          (u64 (env.GetTxNonce args1 + 1))]
        else []) = [] := if_neg (fun h => hne h.1)
      have hno : ∀ e ∈ (doSwap env args).2, e.isSetNonce = false := by
        rw [htr, hnil]
        intro e he
        simp only [List.mem_append, List.mem_cons, List.mem_singleton, List.not_mem_nil, or_false] at he
        rcases he with (he | he | he | he | he) | he <;> first | (rw [he]; rfl) | (rw [he]; exact hsig.1)
      exact ⟨hno, fun σ setNonce st => nonceStateAfter_of_no_setNonce setNonce st _ hno⟩

/-- C3 witness: on the happy path of the sample request (nonce 7 after the build) the run ends
with SetNonce("eth/btc", 8); when the broadcast fails there is no SetNonce call. -/
theorem doSwap_nonce_advance_witness :
    doSwap (sampleEnv sampleFresh) sampleArgs =
      (none,
        [Event.FindSwapResult true "0xaaa" "eth/btc" "0xB",
         Event.BuildRawTransaction false sampleArgs,
         Event.SignTransaction false "raw" "eth/btc",
         Event.updateSwapResult "0xaaa" "eth/btc" "0xB"
           { SwapTx := "0xhash", SwapValue := "1000000", SwapType := SwapType.SwapinType, SwapNonce := 7 },
         Event.UpdateSwapStatus true "0xaaa" "eth/btc" "0xB" SwapStatus.TxProcessed "",
         Event.sendSignedTransaction false "signed" "0xaaa" "eth/btc" "0xB" true,
         Event.SetNonce false "eth/btc" 8]) ∧
    (∀ e ∈ (doSwap { sampleEnv sampleFresh with
        sendSignedTransaction := fun _ _ _ _ _ _ => some (Err.new "send failed") } sampleArgs).2,
      e.isSetNonce = false) :=
  ⟨by decide,
   ((doSwap_nonce_advance { sampleEnv sampleFresh with
        sendSignedTransaction := fun _ _ _ _ _ _ => some (Err.new "send failed") } sampleArgs).2.2
      (by decide)).1⟩

/-! ### RPC fan-out -/

/-- The loop of sendRawTransaction posts to every url, and ends with `success` set when it was set
before or some reply had a nil error, and with `err` the error of the last reply. -/
theorem sendRawTransaction_loop_spec {σ ρ : Type} (post : RPCPost σ ρ) (urls : List String) (r : ρ)
    (success : Bool) (err : Option Err) (s : σ) (calls : List String) :
    (sendRawTransaction.loop post urls r success err s calls).calls = calls ++ urls ∧
    (sendRawTransaction.loop post urls r success err s calls).state = stateAfter post urls r s ∧
    (sendRawTransaction.loop post urls r success err s calls).val.1 =
      (success || (replies post urls r s).any (fun rep => rep.err.isNone)) ∧
    (sendRawTransaction.loop post urls r success err s calls).val.2 =
      (((replies post urls r s).getLast?).map (fun rep => rep.err)).getD err := by
  induction urls generalizing r success err s calls with
  | nil => simp [sendRawTransaction.loop, replies, stateAfter]
  | cons url rest ih =>
    cases h : (post url r s).1.err with
    | none =>
      have := ih (post url r s).1.result true none (post url r s).2 (calls ++ [url])
      simp only [sendRawTransaction.loop, h, replies, stateAfter]
      refine ⟨by simp [this.1], this.2.1, by simp [this.2.2.1, h], ?_⟩
      rw [this.2.2.2]
      cases hr : replies post rest (post url r s).1.result (post url r s).2 with
      | nil => simp [h]
      | cons a l =>
        rw [List.getLast?_cons_cons]
        cases hl : (a :: l).getLast? with
        | none => simp at hl
        | some x => rfl
    | some e =>
      have := ih (post url r s).1.result success (some e) (post url r s).2 (calls ++ [url])
      simp only [sendRawTransaction.loop, h, replies, stateAfter]
      refine ⟨by simp [this.1], this.2.1, by simp [this.2.2.1, h], ?_⟩
      rw [this.2.2.2]
      cases hr : replies post rest (post url r s).1.result (post url r s).2 with
      | nil => simp [h]
      | cons a l =>
        rw [List.getLast?_cons_cons]
        cases hl : (a :: l).getLast? with
        | none => simp at hl
        | some x => rfl

/-- What sendRawTransaction does on any url list, the empty one included. -/
theorem sendRawTransaction_spec {σ ρ : Type} (post : RPCPost σ ρ) (zero : ρ) (urls : List String) (s : σ) :
    (sendRawTransaction post zero urls s).calls = urls ∧
    (sendRawTransaction post zero urls s).state = stateAfter post urls zero s ∧
    ((sendRawTransaction post zero urls s).val.1 = true ↔
      ∃ rep ∈ replies post urls zero s, rep.err = none) ∧
    ((sendRawTransaction post zero urls s).val.1 = true →
      (sendRawTransaction post zero urls s).val.2 = none) ∧
    ((sendRawTransaction post zero urls s).val.1 = false →
      (sendRawTransaction post zero urls s).val.2 ≠ none ∧
      (urls ≠ [] → ((replies post urls zero s).getLast?).map (fun rep => rep.err)
        = some (sendRawTransaction post zero urls s).val.2)) := by
  cases urls with
  | nil => simp [sendRawTransaction, replies, stateAfter]
  | cons url rest =>
    obtain ⟨h1, h2, h3, h4⟩ := sendRawTransaction_loop_spec post (url :: rest) zero false none s []
    have hany : (replies post (url :: rest) zero s).any (fun rep => rep.err.isNone) = true ↔
        ∃ rep ∈ replies post (url :: rest) zero s, rep.err = none := by
      simp [List.any_eq_true, Option.isNone_iff_eq_none]
    simp only [Bool.false_or] at h3
    cases hs : (sendRawTransaction.loop post (url :: rest) zero false none s []).val.1 with
    | true =>
      have hex := hany.mp (h3 ▸ hs)
      have hv : sendRawTransaction post zero (url :: rest) s =
          ⟨(true, none), (sendRawTransaction.loop post (url :: rest) zero false none s []).state,
            (sendRawTransaction.loop post (url :: rest) zero false none s []).calls⟩ := by
        simp [sendRawTransaction, hs]
      rw [hv]
      exact ⟨by simpa using h1, h2, ⟨fun _ => hex, fun _ => rfl⟩, fun _ => rfl,
        fun h => by simp at h⟩
    | false =>
      have hnone : ¬ ∃ rep ∈ replies post (url :: rest) zero s, rep.err = none := by
        rw [← hany, ← h3, hs]; simp
      have hv : sendRawTransaction post zero (url :: rest) s =
          ⟨(false, (sendRawTransaction.loop post (url :: rest) zero false none s []).val.2),
            (sendRawTransaction.loop post (url :: rest) zero false none s []).state,
            (sendRawTransaction.loop post (url :: rest) zero false none s []).calls⟩ := by
        simp [sendRawTransaction, hs]
      rw [hv]
      refine ⟨by simpa using h1, h2, ⟨fun h => by simp at h, fun h => absurd h hnone⟩,
        fun h => by simp at h, fun _ => ?_⟩
      have hlast : ∃ last, (replies post (url :: rest) zero s).getLast? = some last ∧
          last ∈ replies post (url :: rest) zero s := by
        cases hl : (replies post (url :: rest) zero s).getLast? with
        | none => simp [replies] at hl
        | some last => exact ⟨last, rfl, List.mem_of_getLast?_eq_some hl⟩
      obtain ⟨last, hl, hmem⟩ := hlast
      have hval : (sendRawTransaction.loop post (url :: rest) zero false none s []).val.2 = last.err := by
        rw [h4, hl]; rfl
      refine ⟨?_, fun _ => ?_⟩
      · show (sendRawTransaction.loop post (url :: rest) zero false none s []).val.2 ≠ none
        rw [hval]
        exact fun h => hnone ⟨last, hmem, h⟩
      · show _ = some (sendRawTransaction.loop post (url :: rest) zero false none s []).val.2
        rw [hval, hl]; rfl

/-- C4: on a non-empty list sendRawTransaction posts to every url, in order, and returns success
exactly when some url accepted (nil error), then with a nil error, otherwise with the error of the
last url; SendSignedTransaction, for an encodable transaction, posts to every url of
APIAddressExt and then of APIAddress, returns nil exactly when some url of either list accepted,
and otherwise returns the error of the APIAddress attempt. -/
theorem sendRawTransaction_any_success {σ ρ : Type} (post : RPCPost σ ρ)
    (postData : String → RPCPost σ ρ) (zero : ρ) (urls : List String) (gateway : GatewayConfig)
    (hexData : String) (s : σ) (hne : urls ≠ []) :
    ((sendRawTransaction post zero urls s).calls = urls ∧
      ((sendRawTransaction post zero urls s).val.1 = true ↔
        ∃ rep ∈ replies post urls zero s, rep.err = none) ∧
      ((sendRawTransaction post zero urls s).val.1 = true →
        (sendRawTransaction post zero urls s).val.2 = none) ∧
      ((sendRawTransaction post zero urls s).val.1 = false →
        (sendRawTransaction post zero urls s).val.2 ≠ none ∧
        ((replies post urls zero s).getLast?).map (fun rep => rep.err)
          = some (sendRawTransaction post zero urls s).val.2)) ∧
    ((SendSignedTransaction (.ok hexData) postData zero gateway s).calls
        = gateway.APIAddressExt ++ gateway.APIAddress ∧
      ((SendSignedTransaction (.ok hexData) postData zero gateway s).val = none ↔
        (∃ rep ∈ replies (postData hexData) gateway.APIAddress zero
            (stateAfter (postData hexData) gateway.APIAddressExt zero s), rep.err = none) ∨
        (∃ rep ∈ replies (postData hexData) gateway.APIAddressExt zero s, rep.err = none)) ∧
      ((SendSignedTransaction (.ok hexData) postData zero gateway s).val ≠ none →
        (SendSignedTransaction (.ok hexData) postData zero gateway s).val =
          (sendRawTransaction (postData hexData) zero gateway.APIAddress
            (stateAfter (postData hexData) gateway.APIAddressExt zero s)).val.2)) := by
  obtain ⟨a1, -, a3, a4, a5⟩ := sendRawTransaction_spec post zero urls s
  refine ⟨⟨a1, a3, a4, fun h => ⟨(a5 h).1, (a5 h).2 hne⟩⟩, ?_⟩
  obtain ⟨e1, e2, e3, -, -⟩ := sendRawTransaction_spec (postData hexData) zero gateway.APIAddressExt s
  obtain ⟨p1, -, p3, p4, p5⟩ := sendRawTransaction_spec (postData hexData) zero gateway.APIAddress
    (stateAfter (postData hexData) gateway.APIAddressExt zero s)
  simp only [SendSignedTransaction, e2]
  rw [← p3, ← e3]
  cases h1 : (sendRawTransaction (postData hexData) zero gateway.APIAddressExt s).val.1 with
  | true => simp [e1, p1]
  | false =>
    cases h2 : (sendRawTransaction (postData hexData) zero gateway.APIAddress
        (stateAfter (postData hexData) gateway.APIAddressExt zero s)).val.1 with
    | true => simp [e1, p1]
    | false => simpa [e1, p1] using (p5 h2).1

/-- C4 witness: three urls of which only the second accepts; the broadcast succeeds and all
three were posted to. -/
theorem sendRawTransaction_any_success_witness :
    (sendRawTransaction (onlyUrl1 : RPCPost Unit Unit) () ["url0", "url1", "url2"] ()).calls
      = ["url0", "url1", "url2"] ∧
    (sendRawTransaction (onlyUrl1 : RPCPost Unit Unit) () ["url0", "url1", "url2"] ()).val
      = (true, none) ∧
    (SendSignedTransaction (.ok "0xf86b") (fun _ => (onlyUrl1 : RPCPost Unit Unit)) ()
      ⟨["url0", "url1", "url2"], []⟩ ()).val = none :=
  ⟨(sendRawTransaction_any_success onlyUrl1 (fun _ => onlyUrl1) () ["url0", "url1", "url2"]
      ⟨["url0", "url1", "url2"], []⟩ "0xf86b" () (by decide)).1.1,
   by decide, by decide⟩

/-- The last element of a non-empty list of replies. -/
theorem replies_getLast {σ ρ : Type} (post : RPCPost σ ρ) (url : String) (rest : List String) (r : ρ)
    (s : σ) : ∃ last, (replies post (url :: rest) r s).getLast? = some last ∧
      last ∈ replies post (url :: rest) r s := by
  cases hl : (replies post (url :: rest) r s).getLast? with
  | none => simp [replies] at hl
  | some last => exact ⟨last, rfl, List.mem_of_getLast?_eq_some hl⟩

/-- The loop of getMaxPoolNonce posts to every url; at its end `success` tells whether it was set
before or some reply had a nil error, `maxNonce` bounds the old value and every accepted reply and
is one of them, and `err` is the error of the last reply. -/
theorem getMaxPoolNonce_loop_spec {σ : Type} (post : RPCPost σ Nat) (urls : List String) (r maxNonce : Nat)
    (success : Bool) (err : Option Err) (s : σ) (calls : List String) :
    (getMaxPoolNonce.loop post urls r maxNonce success err s calls).calls = calls ++ urls ∧
    (getMaxPoolNonce.loop post urls r maxNonce success err s calls).val.2.1 =
      (success || (replies post urls r s).any (fun rep => rep.err.isNone)) ∧
    maxNonce ≤ (getMaxPoolNonce.loop post urls r maxNonce success err s calls).val.1 ∧
    (∀ rep ∈ replies post urls r s, rep.err = none →
      rep.result ≤ (getMaxPoolNonce.loop post urls r maxNonce success err s calls).val.1) ∧
    ((getMaxPoolNonce.loop post urls r maxNonce success err s calls).val.1 = maxNonce ∨
      ∃ rep ∈ replies post urls r s, rep.err = none ∧
        rep.result = (getMaxPoolNonce.loop post urls r maxNonce success err s calls).val.1) ∧
    (getMaxPoolNonce.loop post urls r maxNonce success err s calls).val.2.2 =
      (((replies post urls r s).getLast?).map (fun rep => rep.err)).getD err := by
  induction urls generalizing r maxNonce success err s calls with
  | nil => simp [getMaxPoolNonce.loop, replies]
  | cons url rest ih =>
    cases h : (post url r s).1.err with
    | none =>
      obtain ⟨i1, i2, i3, i4, i5, i6⟩ := ih (post url r s).1.result
        (if (post url r s).1.result > maxNonce then (post url r s).1.result else maxNonce)
        true none (post url r s).2 (calls ++ [url])
      simp only [getMaxPoolNonce.loop, h, replies]
      have hge : maxNonce ≤ (if (post url r s).1.result > maxNonce then (post url r s).1.result
          else maxNonce) ∧ (post url r s).1.result ≤ (if (post url r s).1.result > maxNonce
          then (post url r s).1.result else maxNonce) := by
        split <;> omega
      refine ⟨by simp [i1], by simp [i2, h], le_trans hge.1 i3, ?_, ?_, ?_⟩
      · intro rep hrep hok
        rcases List.mem_cons.mp hrep with hr | hr
        · rw [hr]; exact le_trans hge.2 i3
        · exact i4 rep hr hok
      · rcases i5 with h5 | ⟨rep, hrep, hok, hval⟩
        · by_cases hgt : (post url r s).1.result > maxNonce
          · right
            refine ⟨(post url r s).1, List.mem_cons_self _ _, h, ?_⟩
            rw [h5, if_pos hgt]
          · left
            rw [h5, if_neg hgt]
        · exact Or.inr ⟨rep, List.mem_cons_of_mem _ hrep, hok, hval⟩
      · rw [i6]
        cases hr : replies post rest (post url r s).1.result (post url r s).2 with
        | nil => simp [h]
        | cons a l =>
          rw [List.getLast?_cons_cons]
          cases hl : (a :: l).getLast? with
          | none => simp at hl
          | some x => rfl
    | some e =>
      obtain ⟨i1, i2, i3, i4, i5, i6⟩ := ih (post url r s).1.result maxNonce success (some e)
        (post url r s).2 (calls ++ [url])
      simp only [getMaxPoolNonce.loop, h, replies]
      refine ⟨by simp [i1], by simp [i2, h], i3, ?_, ?_, ?_⟩
      · intro rep hrep hok
        rcases List.mem_cons.mp hrep with hr | hr
        · rw [hr, h] at hok
          cases hok
        · exact i4 rep hr hok
      · rcases i5 with h5 | ⟨rep, hrep, hok, hval⟩
        · exact Or.inl h5
        · exact Or.inr ⟨rep, List.mem_cons_of_mem _ hrep, hok, hval⟩
      · rw [i6]
        cases hr : replies post rest (post url r s).1.result (post url r s).2 with
        | nil => simp [h]
        | cons a l =>
          rw [List.getLast?_cons_cons]
          cases hl : (a :: l).getLast? with
          | none => simp at hl
          | some x => rfl

/-- C5: on a non-empty list getMaxPoolNonce posts to every url, in order; when some call
succeeds it returns a nil error and a nonce that is the nonce of a successful reply and is not
below the nonce of any successful reply (also when that nonce is 0 or the last url failed); it
returns an error exactly when every call failed, and then the error of the last url with nonce 0. -/
theorem getMaxPoolNonce_max {σ : Type} (post : RPCPost σ Nat) (urls : List String) (s : σ)
    (hne : urls ≠ []) :
    (getMaxPoolNonce post urls s).calls = urls ∧
    ((∃ rep ∈ replies post urls 0 s, rep.err = none) →
      (getMaxPoolNonce post urls s).val.2 = none ∧
      (∃ rep ∈ replies post urls 0 s, rep.err = none ∧ rep.result = (getMaxPoolNonce post urls s).val.1) ∧
      (∀ rep ∈ replies post urls 0 s, rep.err = none →
        rep.result ≤ (getMaxPoolNonce post urls s).val.1)) ∧
    ((getMaxPoolNonce post urls s).val.2 ≠ none ↔ ∀ rep ∈ replies post urls 0 s, rep.err ≠ none) ∧
    ((∀ rep ∈ replies post urls 0 s, rep.err ≠ none) →
      (getMaxPoolNonce post urls s).val.1 = 0 ∧
      ((replies post urls 0 s).getLast?).map (fun rep => rep.err)
        = some (getMaxPoolNonce post urls s).val.2) := by
  cases urls with
  | nil => exact absurd rfl hne
  | cons url rest =>
    obtain ⟨i1, i2, -, i4, i5, i6⟩ := getMaxPoolNonce_loop_spec post (url :: rest) 0 0 false none s []
    have hany : (replies post (url :: rest) 0 s).any (fun rep => rep.err.isNone) = true ↔
        ∃ rep ∈ replies post (url :: rest) 0 s, rep.err = none := by
      simp [List.any_eq_true, Option.isNone_iff_eq_none]
    simp only [Bool.false_or] at i2
    cases hs : (getMaxPoolNonce.loop post (url :: rest) 0 0 false none s []).val.2.1 with
    | true =>
      have hex := hany.mp (i2 ▸ hs)
      have hv : getMaxPoolNonce post (url :: rest) s =
          ⟨((getMaxPoolNonce.loop post (url :: rest) 0 0 false none s []).val.1, none),
            (getMaxPoolNonce.loop post (url :: rest) 0 0 false none s []).state,
            (getMaxPoolNonce.loop post (url :: rest) 0 0 false none s []).calls⟩ := by
        simp [getMaxPoolNonce, hs]
      rw [hv]
      refine ⟨by simpa using i1, fun _ => ⟨rfl, ?_, i4⟩, ⟨fun h => absurd rfl h, fun h => ?_⟩, fun h => ?_⟩
      · rcases i5 with h5 | h5
        · obtain ⟨rep, hrep, hok⟩ := hex
          have := i4 rep hrep hok
          refine ⟨rep, hrep, hok, ?_⟩
          show rep.result = (getMaxPoolNonce.loop post (url :: rest) 0 0 false none s []).val.1
          omega
        · exact h5
      · obtain ⟨rep, hrep, hok⟩ := hex
        exact absurd hok (h rep hrep)
      · obtain ⟨rep, hrep, hok⟩ := hex
        exact absurd hok (h rep hrep)
    | false =>
      have hnone : ∀ rep ∈ replies post (url :: rest) 0 s, rep.err ≠ none := by
        intro rep hrep hok
        have : (replies post (url :: rest) 0 s).any (fun rep => rep.err.isNone) = true :=
          hany.mpr ⟨rep, hrep, hok⟩
        rw [← i2, hs] at this
        cases this
      have hv : getMaxPoolNonce post (url :: rest) s =
          ⟨(0, (getMaxPoolNonce.loop post (url :: rest) 0 0 false none s []).val.2.2),
            (getMaxPoolNonce.loop post (url :: rest) 0 0 false none s []).state,
            (getMaxPoolNonce.loop post (url :: rest) 0 0 false none s []).calls⟩ := by
        simp [getMaxPoolNonce, hs]
      obtain ⟨last, hl, hmem⟩ := replies_getLast post url rest 0 s
      have hval : (getMaxPoolNonce.loop post (url :: rest) 0 0 false none s []).val.2.2 = last.err := by
        rw [i6, hl]; rfl
      rw [hv]
      refine ⟨by simpa using i1, fun ⟨rep, hrep, hok⟩ => absurd hok (hnone rep hrep),
        ⟨fun _ => hnone, fun _ => ?_⟩, fun _ => ⟨rfl, ?_⟩⟩
      · show (getMaxPoolNonce.loop post (url :: rest) 0 0 false none s []).val.2.2 ≠ none
        rw [hval]
        exact hnone last hmem
      · show _ = some (getMaxPoolNonce.loop post (url :: rest) 0 0 false none s []).val.2.2
        rw [hval, hl]; rfl

/-- C5 witness: the first url answers nonce 0 and the second fails; the result is nonce 0 with
a nil error, after both urls were queried. -/
theorem getMaxPoolNonce_max_witness :
    (getMaxPoolNonce (onlyUrl1 : RPCPost Unit Nat) ["url1", "url2"] ()).calls = ["url1", "url2"] ∧
    (getMaxPoolNonce (onlyUrl1 : RPCPost Unit Nat) ["url1", "url2"] ()).val = (0, none) :=
  ⟨(getMaxPoolNonce_max onlyUrl1 ["url1", "url2"] () (by decide)).1, by decide⟩

/-- The loop of getMaxLatestBlockNumber posts to every url; at its end `maxHeight` bounds the old
value and the parsed height of every successful reply and is one of them, and `err` is the error
of the last reply. -/
theorem getMaxLatestBlockNumber_loop_spec {σ : Type} (GetUint64FromStr : String → Nat × Option Err)
    (post : RPCPost σ String) (urls : List String) (r : String) (maxHeight : Nat) (err : Option Err)
    (s : σ) (calls : List String) :
    (getMaxLatestBlockNumber.loop GetUint64FromStr post urls r maxHeight err s calls).calls
      = calls ++ urls ∧
    maxHeight ≤ (getMaxLatestBlockNumber.loop GetUint64FromStr post urls r maxHeight err s calls).val.1 ∧
    (∀ rep ∈ replies post urls r s, rep.err = none → (GetUint64FromStr rep.result).1 ≤
      (getMaxLatestBlockNumber.loop GetUint64FromStr post urls r maxHeight err s calls).val.1) ∧
    ((getMaxLatestBlockNumber.loop GetUint64FromStr post urls r maxHeight err s calls).val.1 = maxHeight ∨
      ∃ rep ∈ replies post urls r s, rep.err = none ∧ (GetUint64FromStr rep.result).1 =
        (getMaxLatestBlockNumber.loop GetUint64FromStr post urls r maxHeight err s calls).val.1) ∧
    (getMaxLatestBlockNumber.loop GetUint64FromStr post urls r maxHeight err s calls).val.2 =
      (((replies post urls r s).getLast?).map (fun rep => rep.err)).getD err := by
  induction urls generalizing r maxHeight err s calls with
  | nil => simp [getMaxLatestBlockNumber.loop, replies]
  | cons url rest ih =>
    cases h : (post url r s).1.err with
    | none =>
      obtain ⟨i1, i3, i4, i5, i6⟩ := ih (post url r s).1.result
        (if (GetUint64FromStr (post url r s).1.result).1 > maxHeight
          then (GetUint64FromStr (post url r s).1.result).1 else maxHeight)
        none (post url r s).2 (calls ++ [url])
      simp only [getMaxLatestBlockNumber.loop, h, replies]
      have hge : maxHeight ≤ (if (GetUint64FromStr (post url r s).1.result).1 > maxHeight
          then (GetUint64FromStr (post url r s).1.result).1 else maxHeight) ∧
          (GetUint64FromStr (post url r s).1.result).1 ≤
            (if (GetUint64FromStr (post url r s).1.result).1 > maxHeight
              then (GetUint64FromStr (post url r s).1.result).1 else maxHeight) := by
        split <;> omega
      refine ⟨by simp [i1], le_trans hge.1 i3, ?_, ?_, ?_⟩
      · intro rep hrep hok
        rcases List.mem_cons.mp hrep with hr | hr
        · rw [hr]; exact le_trans hge.2 i3
        · exact i4 rep hr hok
      · rcases i5 with h5 | ⟨rep, hrep, hok, hval⟩
        · by_cases hgt : (GetUint64FromStr (post url r s).1.result).1 > maxHeight
          · right
            refine ⟨(post url r s).1, List.mem_cons_self _ _, h, ?_⟩
            rw [h5, if_pos hgt]
          · left
            rw [h5, if_neg hgt]
        · exact Or.inr ⟨rep, List.mem_cons_of_mem _ hrep, hok, hval⟩
      · rw [i6]
        cases hr : replies post rest (post url r s).1.result (post url r s).2 with
        | nil => simp [h]
        | cons a l =>
          rw [List.getLast?_cons_cons]
          cases hl : (a :: l).getLast? with
          | none => simp at hl
          | some x => rfl
    | some e =>
      obtain ⟨i1, i3, i4, i5, i6⟩ := ih (post url r s).1.result maxHeight (some e)
        (post url r s).2 (calls ++ [url])
      simp only [getMaxLatestBlockNumber.loop, h, replies]
      refine ⟨by simp [i1], i3, ?_, ?_, ?_⟩
      · intro rep hrep hok
        rcases List.mem_cons.mp hrep with hr | hr
        · rw [hr, h] at hok
          cases hok
        · exact i4 rep hr hok
      · rcases i5 with h5 | ⟨rep, hrep, hok, hval⟩
        · exact Or.inl h5
        · exact Or.inr ⟨rep, List.mem_cons_of_mem _ hrep, hok, hval⟩
      · rw [i6]
        cases hr : replies post rest (post url r s).1.result (post url r s).2 with
        | nil => simp [h]
        | cons a l =>
          rw [List.getLast?_cons_cons]
          cases hl : (a :: l).getLast? with
          | none => simp at hl
          | some x => rfl

/-- What getMaxLatestBlockNumber returns on a non-empty list: when some successful reply parses
to a height above 0, the greatest such height with a nil error; when every successful reply
parses to height 0 (or none succeeded), height 0 with the error of the last url, nil or not. -/
theorem getMaxLatestBlockNumber_spec {σ : Type} (GetUint64FromStr : String → Nat × Option Err)
    (post : RPCPost σ String) (urls : List String) (s : σ) (hne : urls ≠ []) :
    (getMaxLatestBlockNumber GetUint64FromStr post urls s).calls = urls ∧
    ((∃ rep ∈ replies post urls "" s, rep.err = none ∧ 0 < (GetUint64FromStr rep.result).1) →
      (getMaxLatestBlockNumber GetUint64FromStr post urls s).val.2 = none ∧
      (∃ rep ∈ replies post urls "" s, rep.err = none ∧ (GetUint64FromStr rep.result).1 =
        (getMaxLatestBlockNumber GetUint64FromStr post urls s).val.1) ∧
      (∀ rep ∈ replies post urls "" s, rep.err = none → (GetUint64FromStr rep.result).1 ≤
        (getMaxLatestBlockNumber GetUint64FromStr post urls s).val.1)) ∧
    ((∀ rep ∈ replies post urls "" s, rep.err = none → (GetUint64FromStr rep.result).1 = 0) →
      (getMaxLatestBlockNumber GetUint64FromStr post urls s).val.1 = 0 ∧
      ((replies post urls "" s).getLast?).map (fun rep => rep.err)
        = some (getMaxLatestBlockNumber GetUint64FromStr post urls s).val.2) := by
  cases urls with
  | nil => exact absurd rfl hne
  | cons url rest =>
    obtain ⟨i1, -, i4, i5, i6⟩ :=
      getMaxLatestBlockNumber_loop_spec GetUint64FromStr post (url :: rest) "" 0 none s []
    obtain ⟨last, hl, -⟩ := replies_getLast post url rest "" s
    by_cases hpos : (getMaxLatestBlockNumber.loop GetUint64FromStr post (url :: rest) "" 0 none s []).val.1 > 0
    · have hv : getMaxLatestBlockNumber GetUint64FromStr post (url :: rest) s =
          ⟨((getMaxLatestBlockNumber.loop GetUint64FromStr post (url :: rest) "" 0 none s []).val.1, none),
            (getMaxLatestBlockNumber.loop GetUint64FromStr post (url :: rest) "" 0 none s []).state,
            (getMaxLatestBlockNumber.loop GetUint64FromStr post (url :: rest) "" 0 none s []).calls⟩ := by
        simp [getMaxLatestBlockNumber, hpos]
      rw [hv]
      refine ⟨by simpa using i1, fun _ => ⟨rfl, ?_, i4⟩, fun hzero => ?_⟩
      · rcases i5 with h5 | h5
        · omega
        · exact h5
      · rcases i5 with h5 | ⟨rep, hrep, hok, hval⟩
        · omega
        · have := hzero rep hrep hok
          omega
    · have hv : getMaxLatestBlockNumber GetUint64FromStr post (url :: rest) s =
          ⟨(0, (getMaxLatestBlockNumber.loop GetUint64FromStr post (url :: rest) "" 0 none s []).val.2),
            (getMaxLatestBlockNumber.loop GetUint64FromStr post (url :: rest) "" 0 none s []).state,
            (getMaxLatestBlockNumber.loop GetUint64FromStr post (url :: rest) "" 0 none s []).calls⟩ := by
        simp [getMaxLatestBlockNumber, hpos]
      rw [hv]
      refine ⟨by simpa using i1, fun ⟨rep, hrep, hok, hgt⟩ => ?_, fun _ => ⟨rfl, ?_⟩⟩
      · have := i4 rep hrep hok
        omega
      · show _ = some (getMaxLatestBlockNumber.loop GetUint64FromStr post (url :: rest) "" 0 none s []).val.2
        rw [i6, hl]; rfl

/-- C6 (failing input): the first url answers height 0 (or a height that does not parse) and the
second url fails. One call succeeded, yet getMaxLatestBlockNumber and GetLatestBlockNumber return
the error of the second url; with the two urls in the other order they return a nil error. -/
theorem getMaxLatestBlockNumber_zero_then_fail :
    (∃ rep ∈ replies (url1Answers "0x0") ["url1", "url2"] "" (), rep.err = none) ∧
    (getMaxLatestBlockNumber sampleGetUint64FromStr (url1Answers "0x0") ["url1", "url2"] ()).val
      = (0, some (Err.new "connection refused")) ∧
    (GetLatestBlockNumber sampleGetUint64FromStr (url1Answers "0x0") ⟨["url1", "url2"], []⟩ ()).val
      = (0, some (Err.new "connection refused"), none) ∧
    (getMaxLatestBlockNumber sampleGetUint64FromStr (url1Answers "latest") ["url1", "url2"] ()).val
      = (0, some (Err.new "connection refused")) ∧
    (getMaxLatestBlockNumber sampleGetUint64FromStr (url1Answers "0x0") ["url2", "url1"] ()).val
      = (0, none) ∧
    (getMaxLatestBlockNumber sampleGetUint64FromStr (url1Answers "0x10") ["url1", "url2"] ()).val
      = (16, none) := by
  refine ⟨⟨⟨none, "0x0"⟩, by decide, rfl⟩, by decide, by decide, by decide, by decide, by decide⟩

/-- When every reply leaves the result variable nil (a failed call that does not touch it, or
a successful call with a null result), the shared loop runs through all urls and ends with a nil
result and the error of the last reply. -/
theorem firstFound_loop_nil {σ β : Type} (post : RPCPost σ (Option β)) (urls : List String)
    (r : Option β) (err : Option Err) (s : σ) (calls : List String)
    (hnil : ∀ rep ∈ replies post urls r s, rep.result = none) (hr : r = none) :
    (firstFound.loop post urls r err s calls).calls = calls ++ urls ∧
    (firstFound.loop post urls r err s calls).val =
      (none, none, (((replies post urls r s).getLast?).map (fun rep => rep.err)).getD err) := by
  induction urls generalizing r err s calls with
  | nil => simp [firstFound.loop, replies, hr]
  | cons url rest ih =>
    have h0 : (post url r s).1.result = none := hnil _ (by simp [replies])
    obtain ⟨i1, i2⟩ := ih (post url r s).1.result (post url r s).1.err (post url r s).2 (calls ++ [url])
      (fun rep hrep => hnil rep (by simp [replies, hrep])) h0
    simp only [firstFound.loop, h0, Option.isSome_none, Bool.and_false, Bool.false_eq_true, if_false,
      replies]
    rw [h0] at i1 i2
    refine ⟨by simp [i1], ?_⟩
    rw [i2]
    cases hrep : replies post rest none (post url r s).2 with
    | nil => simp
    | cons a l =>
      rw [List.getLast?_cons_cons]
      cases hl : (a :: l).getLast? with
      | none => simp at hl
      | some x => rfl

/-- On a non-empty list whose replies all leave the result nil, whether the calls failed or
succeeded with a null result, the three operations post to every url and return their "not
found" error. -/
theorem firstFound_nil_results {σ β : Type} (post : RPCPost σ (Option β)) (urls : List String) (s : σ)
    (hne : urls ≠ []) (hnil : ∀ rep ∈ replies post urls none s, rep.result = none) :
    (getBlockByHash post urls s).val = (none, some (Err.new "block not found")) ∧
    (getTransactionByHash post urls s).val = (none, some (Err.new "tx not found")) ∧
    (getTransactionReceipt post urls s).val = (none, "", some (Err.new "tx receipt not found")) ∧
    (getBlockByHash post urls s).calls = urls ∧
    (getTransactionByHash post urls s).calls = urls ∧
    (getTransactionReceipt post urls s).calls = urls := by
  obtain ⟨h1, h2⟩ := firstFound_loop_nil post urls none none s [] hnil rfl
  have hlen : urls.length ≠ 0 := fun h => hne (List.length_eq_zero.mp h)
  simp only [getBlockByHash, getTransactionByHash, getTransactionReceipt, hlen, if_false, h2,
    Option.isNone_none, if_true, h1, List.nil_append, and_self]

/-- C10 (failing input): every url refuses the connection and leaves the result variable nil.
The three operations return their "not found" error, not the error of the last url. -/
theorem firstFound_all_fail_not_found :
    (∀ rep ∈ replies (onlyUrl1 : RPCPost Unit (Option String)) ["url0", "url2"] none (),
      rep.err = some (Err.new "connection refused")) ∧
    (getBlockByHash (onlyUrl1 : RPCPost Unit (Option String)) ["url0", "url2"] ()).val
      = (none, some (Err.new "block not found")) ∧
    (getTransactionByHash (onlyUrl1 : RPCPost Unit (Option String)) ["url0", "url2"] ()).val
      = (none, some (Err.new "tx not found")) ∧
    (getTransactionReceipt (onlyUrl1 : RPCPost Unit (Option String)) ["url0", "url2"] ()).val
      = (none, "", some (Err.new "tx receipt not found")) ∧
    (getBlockByHash (onlyUrl1 : RPCPost Unit (Option String)) ["url0", "url2"] ()).calls
      = ["url0", "url2"] := by
  refine ⟨by decide, by decide, by decide, by decide, by decide⟩

/-! ### DCRM sign polling -/

/-- Transient poll failures are skipped by the polling loop; `err` then holds the last of them. -/
theorem getSignResult_loop_failedPolls (errs : List Err) (tail : List Tick) (err : Option Err) (i : Nat)
    (htrans : ∀ e ∈ errs, e.isTerminal = false) :
    getSignResult.loop (failedPolls errs ++ tail) err i =
      getSignResult.loop tail (errs.foldl (fun _ e => some e) err) (i + errs.length) := by
  induction errs generalizing err i with
  | nil => simp [failedPolls]
  | cons e es ih =>
    have he := htrans e (by simp)
    have hrest := ih (some e) (i + 1) (fun x hx => htrans x (by simp [hx]))
    simp only [failedPolls, List.map_cons, List.cons_append, List.foldl_cons, List.length_cons] at hrest ⊢
    rw [show i + (es.length + 1) = i + 1 + es.length by omega, ← hrest]
    cases e <;> first | rfl | (simp [Err.isTerminal] at he)

/-- The error variable after a run of failed polls is the last error, if there was one. -/
theorem foldl_some_eq_getLast? (errs : List Err) (err : Option Err) :
    errs.foldl (fun _ e => some e) err =
      match errs.getLast? with
      | some e => some e
      | none => err := by
  induction errs generalizing err with
  | nil => rfl
  | cons e es ih =>
    rw [List.foldl_cons, ih]
    cases es with
    | nil => rfl
    | cons a l =>
      rw [List.getLast?_cons_cons]
      cases hl : (a :: l).getLast? with
      | none => simp at hl
      | some x => rfl

/-- When the polling loop breaks with a non-empty rsv list, that list came from a successful poll
and the error variable is nil. -/
theorem getSignResult_loop_rsvs (passes : List Tick) (err : Option Err) (i : Nat)
    (rsvs : List String) (err1 : Option Err) (j : Nat)
    (h : getSignResult.loop passes err i = some (rsvs, err1, j)) (hne : rsvs ≠ []) :
    err1 = none ∧ ∃ st, Tick.polled (.ok st) ∈ passes ∧ st.Rsv = rsvs := by
  induction passes generalizing err i with
  | nil => simp [getSignResult.loop] at h
  | cons t rest ih =>
    cases t with
    | timerFired =>
      simp only [getSignResult.loop, Option.some.injEq, Prod.mk.injEq] at h
      exact absurd h.1.symm hne
    | polled r =>
      cases r with
      | ok st =>
        simp only [getSignResult.loop, Option.some.injEq, Prod.mk.injEq] at h
        exact ⟨h.2.1.symm, st, by simp, h.1⟩
      | error e =>
        have hstep : getSignResult.loop (Tick.polled (.error e) :: rest) err i = some ([], some e, i + 1) ∨
            getSignResult.loop (Tick.polled (.error e) :: rest) err i =
              getSignResult.loop rest (some e) (i + 1) := by
          cases e <;> simp [getSignResult.loop]
        rcases hstep with hs | hs
        · rw [hs] at h
          simp only [Option.some.injEq, Prod.mk.injEq] at h
          exact absurd h.1.symm hne
        · rw [hs] at h
          obtain ⟨h1, st, hst, hr⟩ := ih (some e) (i + 1) h
          exact ⟨h1, st, List.mem_cons_of_mem _ hst, hr⟩

/-- C8 (as stated, refuted): one transient GetSignStatus failure, then the sign timer fires. The
error returned wraps the error of the earlier poll, not errSignTimerTimeout. -/
theorem getSignResult_timer_keeps_poll_error :
    Err.isTerminal (Err.new "get sign status has no result") = false ∧
    getSignResult [Tick.polled (.error (Err.new "get sign status has no result")), Tick.timerFired]
      = some (.error (Err.wrap "sign failed" (Err.new "get sign status has no result"))) ∧
    getSignResult [Tick.polled (.error (Err.new "get sign status has no result")), Tick.timerFired]
      ≠ some (.error (Err.wrap "sign failed" Err.errSignTimerTimeout)) := by
  refine ⟨rfl, rfl, ?_⟩
  intro h
  simp [getSignResult, getSignResult.loop, Err.wrapf] at h

/-- C8 (amended): when the sign timer fires after a run of transient GetSignStatus failures and
before any poll returned success or a terminal error, getSignResult returns an error with the
'sign failed' prefix: it wraps errSignTimerTimeout when no poll was made before the timer fired,
and the error of the last poll otherwise. -/
theorem getSignResult_timer (errs : List Err) (rest : List Tick)
    (htrans : ∀ e ∈ errs, e.isTerminal = false) :
    (errs = [] → getSignResult (failedPolls errs ++ Tick.timerFired :: rest)
      = some (.error (Err.wrap "sign failed" Err.errSignTimerTimeout))) ∧
    (∀ e, errs.getLast? = some e → getSignResult (failedPolls errs ++ Tick.timerFired :: rest)
      = some (.error (Err.wrap "sign failed" e))) := by
  have hloop := getSignResult_loop_failedPolls errs (Tick.timerFired :: rest) none 0 htrans
  rw [foldl_some_eq_getLast?] at hloop
  constructor
  · intro hnil
    subst hnil
    rfl
  · intro e he
    rw [he] at hloop
    simp [getSignResult, hloop, getSignResult.loop, Err.wrapf]

/-- C8 witness: the timer fires at the first pass, and after two transient failures. -/
theorem getSignResult_timer_witness :
    getSignResult [Tick.timerFired] = some (.error (Err.wrap "sign failed" Err.errSignTimerTimeout)) ∧
    getSignResult [Tick.polled (.error (Err.new "no result")), Tick.polled (.error (Err.new "busy")),
        Tick.timerFired]
      = some (.error (Err.wrap "sign failed" (Err.new "busy"))) :=
  ⟨(getSignResult_timer [] [] (fun _ h => nomatch h)).1 rfl,
   (getSignResult_timer [Err.new "no result", Err.new "busy"] [] (by decide)).2 (Err.new "busy") rfl⟩

/-- C9 (as stated, refuted): GetSignStatus returns success with an empty rsv list. getSignResult
returns at that poll, with a 'sign failed' error, also when the next poll would have given a
non-empty rsv list. -/
theorem getSignResult_empty_rsv_returns :
    getSignResult [Tick.polled (.ok ⟨"Success", []⟩)] = some (.error (Err.wrapNil "sign failed")) ∧
    getSignResult [Tick.polled (.ok ⟨"Success", []⟩), Tick.polled (.ok ⟨"Success", ["rsv"]⟩)]
      = some (.error (Err.wrapNil "sign failed")) ∧
    getSignResult.loop [Tick.polled (.ok ⟨"Success", []⟩), Tick.polled (.ok ⟨"Success", ["rsv"]⟩)] none 0
      = some ([], none, 1) :=
  ⟨rfl, rfl, rfl⟩

/-- C9 (amended): the first time GetSignStatus returns success, after any run of transient
failures and before the timer fires, getSignResult stops polling and returns: the rsv list with
a nil error when the list is non-empty, and a 'sign failed' error with a nil cause when it is
empty. Whenever getSignResult returns a nil error, the rsv list it returns is the non-empty list
of a successful poll. -/
theorem getSignResult_on_success (errs : List Err) (st : SignStatus) (rest : List Tick)
    (htrans : ∀ e ∈ errs, e.isTerminal = false) :
    (st.Rsv ≠ [] → getSignResult (failedPolls errs ++ Tick.polled (.ok st) :: rest) = some (.ok st.Rsv)) ∧
    (st.Rsv = [] → getSignResult (failedPolls errs ++ Tick.polled (.ok st) :: rest)
      = some (.error (Err.wrapNil "sign failed"))) ∧
    (∀ passes rsvs, getSignResult passes = some (.ok rsvs) →
      rsvs ≠ [] ∧ ∃ st1, Tick.polled (.ok st1) ∈ passes ∧ st1.Rsv = rsvs) := by
  have hloop := getSignResult_loop_failedPolls errs (Tick.polled (.ok st) :: rest) none 0 htrans
  refine ⟨?_, ?_, ?_⟩
  · intro hne
    have : st.Rsv.length ≠ 0 := fun h => hne (List.length_eq_zero.mp h)
    simp [getSignResult, hloop, getSignResult.loop, this]
  · intro hnil
    simp [getSignResult, hloop, getSignResult.loop, hnil, Err.wrapf]
  · intro passes rsvs h
    unfold getSignResult at h
    cases hl : getSignResult.loop passes none 0 with
    | none => rw [hl] at h; simp at h
    | some out =>
      obtain ⟨rsvs1, err1, j⟩ := out
      rw [hl] at h
      simp only [] at h
      split at h
      · cases h
      · rename_i hc
        simp only [Option.some.injEq, Except.ok.injEq] at h
        subst h
        have hne : rsvs1 ≠ [] := by
          intro h0
          apply hc
          simp [h0]
        exact ⟨hne, (getSignResult_loop_rsvs passes none 0 rsvs1 err1 j hl hne).2⟩

/-- C9 witness: after one transient failure a successful poll with two rsv strings returns them,
and one with none returns the 'sign failed' error. -/
theorem getSignResult_on_success_witness :
    getSignResult [Tick.polled (.error (Err.new "no result")), Tick.polled (.ok ⟨"Success", ["r1", "r2"]⟩)]
      = some (.ok ["r1", "r2"]) ∧
    getSignResult [Tick.polled (.error (Err.new "no result")), Tick.polled (.ok ⟨"Success", []⟩)]
      = some (.error (Err.wrapNil "sign failed")) :=
  ⟨(getSignResult_on_success [Err.new "no result"] ⟨"Success", ["r1", "r2"]⟩ [] (by decide)).1 (by decide),
   (getSignResult_on_success [Err.new "no result"] ⟨"Success", []⟩ [] (by decide)).2.1 rfl⟩

/-! ### DCRM sub-group rotation -/

/-- Stepping the index by one modulo the number of sub-groups. -/
theorem succ_index_mod (G start j : Nat) : ((start + j) % G + 1) % G = (start + (j + 1)) % G := by
  rw [Nat.mod_add_mod, Nat.add_assoc]

/-- The index comes back to the start only after a full round. -/
theorem index_ne_start (G start m : Nat) (hstart : start < G) (hm0 : 0 < m) (hm : m < G) :
    (start + m) % G ≠ start := by
  by_cases h : start + m < G
  · rw [Nat.mod_eq_of_lt h]; omega
  · have h1 : (start + m) % G = (start + m - G) % G := Nat.mod_eq_sub_mod (by omega)
    rw [h1, Nat.mod_eq_of_lt (by omega)]
    omega

/-- After a full round the index is the start again. -/
theorem index_full_round (G start : Nat) (hstart : start < G) : (start + G) % G = start := by
  rw [Nat.add_mod_right, Nat.mod_eq_of_lt hstart]

/-- Before the first attempt the state is the one the loop starts in. -/
theorem attemptState_zero {σ : Type} (env : DcrmEnv σ) (dcrmNode : NodeInfo) (signPubkey : String)
    (msgHash msgContext : List String) (G start : Nat) (s : σ) :
    attemptState env dcrmNode signPubkey msgHash msgContext G start 0 s = s := rfl

/-- No attempt, no trace entry. -/
theorem attemptCalls_zero (dcrmNode : NodeInfo) (G start : Nat) :
    attemptCalls dcrmNode G start 0 = [] := rfl

/-- One more attempt appends one trace entry. -/
theorem attemptCalls_succ (dcrmNode : NodeInfo) (G start n : Nat) :
    attemptCalls dcrmNode G start (n + 1) =
      attemptCalls dcrmNode G start n ++ [DcrmCall.doSignImpl dcrmNode ((start + n) % G)] := by
  simp [attemptCalls, List.range_succ]

/-- The inner loop from attempt `j` on, when attempt `k` is the first to succeed. -/
theorem groupLoop_first_success {σ : Type} (env : DcrmEnv σ) (dcrmNode : NodeInfo) (signPubkey : String)
    (msgHash msgContext : List String) (G start : Nat) (s : σ) (calls : List DcrmCall)
    (hstart : start < G) (k : Nat) (hk : k < G) (signed : String × List String)
    (hok : attemptOutcome env dcrmNode signPubkey msgHash msgContext G start k s = .ok signed) :
    ∀ (d j fuel : Nat), j + d = k → G ≤ fuel + j →
      (∀ i, j ≤ i → i < k → ∃ e, attemptOutcome env dcrmNode signPubkey msgHash msgContext G start i s
        = .error e) →
      DoSign.groupLoop env dcrmNode signPubkey msgHash msgContext G start fuel ((start + j) % G)
        (attemptState env dcrmNode signPubkey msgHash msgContext G start j s)
        (calls ++ attemptCalls dcrmNode G start j) =
      (some (.ok signed), attemptState env dcrmNode signPubkey msgHash msgContext G start (k + 1) s,
        calls ++ attemptCalls dcrmNode G start (k + 1)) := by
  intro d
  induction d with
  | zero =>
    intro j fuel hj hfuel _
    have hjk : j = k := by omega
    subst hjk
    obtain ⟨f, rfl⟩ : ∃ f, fuel = f + 1 := ⟨fuel - 1, by omega⟩
    unfold attemptOutcome at hok
    simp only [DoSign.groupLoop, hok, attemptState, attemptCalls_succ, List.append_assoc]
  | succ d ih =>
    intro j fuel hj hfuel hfail
    obtain ⟨f, rfl⟩ : ∃ f, fuel = f + 1 := ⟨fuel - 1, by omega⟩
    obtain ⟨e, he⟩ := hfail j (le_refl j) (by omega)
    unfold attemptOutcome at he
    have hne : ((start + j) % G + 1) % G ≠ start := by
      rw [succ_index_mod]
      exact index_ne_start G start (j + 1) hstart (by omega) (by omega)
    have hrec := ih (j + 1) f (by omega) (by omega) (fun i hi hik => hfail i (by omega) hik)
    simp only [DoSign.groupLoop, he, hne, if_false]
    rw [succ_index_mod]
    simp only [attemptState, attemptCalls_succ, List.append_assoc] at hrec ⊢
    exact hrec

/-- The inner loop from attempt `j` on, when every attempt up to the end of the round fails. -/
theorem groupLoop_all_fail {σ : Type} (env : DcrmEnv σ) (dcrmNode : NodeInfo) (signPubkey : String)
    (msgHash msgContext : List String) (G start : Nat) (s : σ) (calls : List DcrmCall)
    (hstart : start < G) :
    ∀ (d j fuel : Nat), j + d + 1 = G → G ≤ fuel + j →
      (∀ i, j ≤ i → i < G → ∃ e, attemptOutcome env dcrmNode signPubkey msgHash msgContext G start i s
        = .error e) →
      ∃ e, attemptOutcome env dcrmNode signPubkey msgHash msgContext G start (G - 1) s = .error e ∧
        DoSign.groupLoop env dcrmNode signPubkey msgHash msgContext G start fuel ((start + j) % G)
          (attemptState env dcrmNode signPubkey msgHash msgContext G start j s)
          (calls ++ attemptCalls dcrmNode G start j) =
        (some (.error e), attemptState env dcrmNode signPubkey msgHash msgContext G start G s,
          calls ++ attemptCalls dcrmNode G start G) := by
  intro d
  induction d with
  | zero =>
    intro j fuel hj hfuel hfail
    obtain ⟨f, rfl⟩ : ∃ f, fuel = f + 1 := ⟨fuel - 1, by omega⟩
    obtain ⟨e, he⟩ := hfail j (le_refl j) (by omega)
    have hjG : G - 1 = j := by omega
    have hG : G = j + 1 := by omega
    refine ⟨e, by rw [hjG]; exact he, ?_⟩
    unfold attemptOutcome at he
    have hback : ((start + j) % G + 1) % G = start := by
      rw [succ_index_mod, ← hG]
      exact index_full_round G start hstart
    simp only [DoSign.groupLoop, he, hback, if_true]
    conv_rhs => rw [hG]
    simp only [attemptState, attemptCalls_succ, List.append_assoc]
    rw [← hG]
  | succ d ih =>
    intro j fuel hj hfuel hfail
    obtain ⟨f, rfl⟩ : ∃ f, fuel = f + 1 := ⟨fuel - 1, by omega⟩
    obtain ⟨e, he⟩ := hfail j (le_refl j) (by omega)
    unfold attemptOutcome at he
    have hne : ((start + j) % G + 1) % G ≠ start := by
      rw [succ_index_mod]
      exact index_ne_start G start (j + 1) hstart (by omega) (by omega)
    obtain ⟨e1, he1, hrec⟩ := ih (j + 1) f (by omega) (by omega) (fun i hi hik => hfail i (by omega) hik)
    refine ⟨e1, he1, ?_⟩
    simp only [DoSign.groupLoop, he, hne, if_false]
    rw [succ_index_mod]
    simp only [attemptState, attemptCalls_succ, List.append_assoc] at hrec
    simp only [List.append_assoc]
    exact hrec

/-- In a full round from any start every sub-group index comes up exactly once. -/
theorem full_round_count (G start : Nat) (g : Nat) (hg : g < G) :
    ((List.range G).map (fun j => (start + j) % G)).count g = 1 := by
  apply List.count_eq_one_of_mem
  · apply List.Nodup.map_on _ (List.nodup_range G)
    intro a ha b hb hab
    rw [List.mem_range] at ha hb
    have h1 : a ≡ b [MOD G] := Nat.ModEq.add_left_cancel' start hab
    exact Nat.ModEq.eq_of_lt_of_lt h1 ha hb
  · rw [List.mem_map]
    refine ⟨(g + (G - start % G)) % G, List.mem_range.mpr (Nat.mod_lt _ (by omega)), ?_⟩
    rw [Nat.add_mod_mod]
    have hs : start % G < G := Nat.mod_lt _ (by omega)
    have hsplit : start + (g + (G - start % G)) = g + G * (start / G + 1) := by
      have := Nat.div_add_mod start G
      have h2 : G * (start / G + 1) = G * (start / G) + G := by ring
      omega
    rw [hsplit, Nat.add_mul_mod_self_left, Nat.mod_eq_of_lt hg]

/-- A pass over `pre ++ l` is the pass over `pre` followed, when that one ends without a return,
by the pass over `l`. -/
theorem DoSign_nodes_append {σ : Type} (env : DcrmEnv σ) (signPubkey : String)
    (msgHash msgContext : List String) (fuel : Nat) (pre l : List NodeInfo) (s : σ)
    (calls : List DcrmCall) :
    DoSign.nodes env signPubkey msgHash msgContext fuel (pre ++ l) s calls =
      match DoSign.nodes env signPubkey msgHash msgContext fuel pre s calls with
      | (some run, s1, calls1) => (some run, s1, calls1)
      | (none, s1, calls1) => DoSign.nodes env signPubkey msgHash msgContext fuel l s1 calls1 := by
  induction pre generalizing s calls with
  | nil => simp [DoSign.nodes]
  | cons node pre ih =>
    simp only [List.cons_append, DoSign.nodes]
    split
    · exact ih _ _
    · split
      · rfl
      · split
        · rfl
        · rfl
        · exact ih _ _

/-- C7: for a node of the list that answered the ping, with G >= 1 sub-groups and a start index
s < G, the inner loop of DoSign (given fuel for G passes) calls doSignImpl on the sub-groups
s, s+1, ... taken modulo G, in that order. When attempt k < G is the first to succeed, the loop
stops after k+1 calls and DoSign returns the keyID and rsvs of that call with a nil error. When
all G attempts fail, the loop stops after exactly G calls, in which every sub-group index came up
exactly once, and the pass goes on with the nodes after this one. -/
theorem DoSign_subgroup_rotation {σ : Type} (env : DcrmEnv σ) (signPubkey : String)
    (msgHash msgContext : List String) (fuel rounds : Nat) (pre : List NodeInfo) (dcrmNode : NodeInfo)
    (rest : List NodeInfo) (sInit s0 s1 s : σ) (callsInit calls0 calls1 : List DcrmCall) (start : Nat)
    (hnodes : env.allInitiatorNodes = pre ++ dcrmNode :: rest)
    (hpre : DoSign.nodes env signPubkey msgHash msgContext fuel pre sInit callsInit = (none, s0, calls0))
    (hping : pingDcrmNode env dcrmNode s0 calls0 = (none, s1, calls1))
    (hG : 1 ≤ dcrmNode.signGroups.length)
    (hrand : env.randInt dcrmNode.signGroups.length s1 = (start, s))
    (hstart : start < dcrmNode.signGroups.length)
    (hfuel : dcrmNode.signGroups.length ≤ fuel) :
    (∀ k signed, k < dcrmNode.signGroups.length →
      (∀ j, j < k → ∃ e, attemptOutcome env dcrmNode signPubkey msgHash msgContext
        dcrmNode.signGroups.length start j s = .error e) →
      attemptOutcome env dcrmNode signPubkey msgHash msgContext dcrmNode.signGroups.length start k s
        = .ok signed →
      DoSign.groupLoop env dcrmNode signPubkey msgHash msgContext dcrmNode.signGroups.length start
          fuel start s calls1 =
        (some (.ok signed),
          attemptState env dcrmNode signPubkey msgHash msgContext dcrmNode.signGroups.length start (k + 1) s,
          calls1 ++ attemptCalls dcrmNode dcrmNode.signGroups.length start (k + 1)) ∧
      DoSign.rounds env signPubkey msgHash msgContext fuel (rounds + 1) sInit callsInit =
        (SignRun.returned signed.1 signed.2 none,
          attemptState env dcrmNode signPubkey msgHash msgContext dcrmNode.signGroups.length start (k + 1) s,
          calls1 ++ attemptCalls dcrmNode dcrmNode.signGroups.length start (k + 1))) ∧
    ((∀ j, j < dcrmNode.signGroups.length → ∃ e, attemptOutcome env dcrmNode signPubkey msgHash msgContext
        dcrmNode.signGroups.length start j s = .error e) →
      (∃ e, DoSign.groupLoop env dcrmNode signPubkey msgHash msgContext dcrmNode.signGroups.length start
          fuel start s calls1 =
        (some (.error e),
          attemptState env dcrmNode signPubkey msgHash msgContext dcrmNode.signGroups.length start
            dcrmNode.signGroups.length s,
          calls1 ++ attemptCalls dcrmNode dcrmNode.signGroups.length start dcrmNode.signGroups.length)) ∧
      DoSign.nodes env signPubkey msgHash msgContext fuel env.allInitiatorNodes sInit callsInit =
        DoSign.nodes env signPubkey msgHash msgContext fuel rest
          (attemptState env dcrmNode signPubkey msgHash msgContext dcrmNode.signGroups.length start
            dcrmNode.signGroups.length s)
          (calls1 ++ attemptCalls dcrmNode dcrmNode.signGroups.length start dcrmNode.signGroups.length)) ∧
    (∀ g, g < dcrmNode.signGroups.length →
      ((List.range dcrmNode.signGroups.length).map
        (fun j => (start + j) % dcrmNode.signGroups.length)).count g = 1) := by
  have hG0 : dcrmNode.signGroups.length ≠ 0 := by omega
  have hmod : (start + 0) % dcrmNode.signGroups.length = start := by
    rw [Nat.add_zero, Nat.mod_eq_of_lt hstart]
  have hhead : ∀ out s2 calls2,
      DoSign.groupLoop env dcrmNode signPubkey msgHash msgContext dcrmNode.signGroups.length start
        fuel start s calls1 = (out, s2, calls2) →
      DoSign.nodes env signPubkey msgHash msgContext fuel env.allInitiatorNodes sInit callsInit =
        match out with
        | none => (some SignRun.running, s2, calls2)
        | some (.ok signed) => (some (SignRun.returned signed.1 signed.2 none), s2, calls2)
        | some (.error _) => DoSign.nodes env signPubkey msgHash msgContext fuel rest s2 calls2 := by
    intro out s2 calls2 hloop
    rw [hnodes, DoSign_nodes_append, hpre]
    simp only [DoSign.nodes, hping, hG0, if_false, hrand, hloop]
    cases out with
    | none => rfl
    | some r => cases r <;> rfl
  refine ⟨?_, ?_, fun g hg => full_round_count _ start g hg⟩
  · intro k signed hk hfail hok
    have hloop := groupLoop_first_success env dcrmNode signPubkey msgHash msgContext
      dcrmNode.signGroups.length start s calls1 hstart k hk signed hok k 0 fuel (by omega) (by omega)
      (fun i _ hik => hfail i hik)
    rw [hmod, attemptState_zero, attemptCalls_zero, List.append_nil] at hloop
    refine ⟨hloop, ?_⟩
    simp only [DoSign.rounds, hhead _ _ _ hloop]
  · intro hfail
    obtain ⟨e, -, hloop⟩ := groupLoop_all_fail env dcrmNode signPubkey msgHash msgContext
      dcrmNode.signGroups.length start s calls1 hstart (dcrmNode.signGroups.length - 1) 0 fuel
      (by omega) (by omega) (fun i _ hiG => hfail i hiG)
    rw [hmod, attemptState_zero, attemptCalls_zero, List.append_nil] at hloop
    exact ⟨⟨e, hloop⟩, hhead _ _ _ hloop⟩

/-- C7 witness: node0 is down; node1 has three sub-groups and the start index is 2; the attempts
on sub-groups 2 and 0 fail and the one on sub-group 1 succeeds, so DoSign returns its keyID. -/
theorem DoSign_subgroup_rotation_witness :
    DoSign.rounds sampleDcrmEnv "pubkey" ["hash"] ["ctx"] 3 1 () [] =
      (SignRun.returned "key-1" ["rsv"] none, (),
        [DcrmCall.GetEnode "node0", DcrmCall.GetEnode "node0", DcrmCall.GetEnode "node0",
         DcrmCall.GetEnode "node1", DcrmCall.doSignImpl sampleNode1 2,
         DcrmCall.doSignImpl sampleNode1 0, DcrmCall.doSignImpl sampleNode1 1]) ∧
    DoSign sampleDcrmEnv "pubkey" ["hash"] ["ctx"] 1 3 () =
      DoSign.rounds sampleDcrmEnv "pubkey" ["hash"] ["ctx"] 3 1 () [] :=
  ⟨((DoSign_subgroup_rotation sampleDcrmEnv "pubkey" ["hash"] ["ctx"] 3 0 [sampleNode0] sampleNode1 []
      () () () ()
      [] [DcrmCall.GetEnode "node0", DcrmCall.GetEnode "node0", DcrmCall.GetEnode "node0"]
      [DcrmCall.GetEnode "node0", DcrmCall.GetEnode "node0", DcrmCall.GetEnode "node0",
        DcrmCall.GetEnode "node1"] 2
      rfl (by decide) (by decide) (by decide) rfl (by decide) (by decide)).1
      2 ("key-1", ["rsv"]) (by decide) (fun j hj => by interval_cases j <;> exact ⟨_, rfl⟩) rfl).2,
   by decide⟩

/-! ### Gas price -/

/-- C17 (failing input): two urls answer 80 gwei and then 50 gwei. Every call decodes into the
one variable `result` and `maxGasPrice` points at it, so getMaxGasPrice hands back 50 gwei, the
price decoded last; with the urls in the other order it hands back 80 gwei. -/
theorem getMaxGasPrice_returns_last_price :
    (replies gasPriceNet ["url80", "url50"] 0 ()).map (fun rep => (rep.err, rep.result))
      = [(none, 80000000000), (none, 50000000000)] ∧
    (getMaxGasPrice gasPriceNet ["url80", "url50"] ()).val = (some 50000000000, none) ∧
    (getMaxGasPrice gasPriceNet ["url50", "url80"] ()).val = (some 80000000000, none) ∧
    (getMaxGasPrice gasPriceNet ["url80", "url50", "url0"] ()).val = (some 50000000000, none) := by
  refine ⟨by decide, by decide, by decide, by decide⟩

/-- The loop of getMaxGasPrice posts to every url; at its end `result` holds what the last reply
left in it, `maxGasPrice` points at `result` as soon as some reply had a nil error, `success`
tells whether it was set before or some reply had a nil error, and `err` is the error of the last
reply. -/
theorem getMaxGasPrice_loop_spec {σ : Type} (post : RPCPost σ Int) (urls : List String) (r : Int)
    (ptr : BigPtr) (success : Bool) (err : Option Err) (s : σ) (calls : List String) :
    (getMaxGasPrice.loop post urls r ptr success err s calls).calls = calls ++ urls ∧
    (getMaxGasPrice.loop post urls r ptr success err s calls).state = stateAfter post urls r s ∧
    (getMaxGasPrice.loop post urls r ptr success err s calls).val.1 =
      (((replies post urls r s).getLast?).map (fun rep => rep.result)).getD r ∧
    (getMaxGasPrice.loop post urls r ptr success err s calls).val.2.1 =
      (if (replies post urls r s).any (fun rep => rep.err.isNone) then BigPtr.result else ptr) ∧
    (getMaxGasPrice.loop post urls r ptr success err s calls).val.2.2.1 =
      (success || (replies post urls r s).any (fun rep => rep.err.isNone)) ∧
    (getMaxGasPrice.loop post urls r ptr success err s calls).val.2.2.2 =
      (((replies post urls r s).getLast?).map (fun rep => rep.err)).getD err := by
  induction urls generalizing r ptr success err s calls with
  | nil => simp [getMaxGasPrice.loop, replies, stateAfter]
  | cons url rest ih =>
    have hlast : ∀ {α : Type} (f : Reply Int → α) (d1 d2 : α),
        (((replies post rest (post url r s).1.result (post url r s).2).getLast?).map f).getD (f (post url r s).1)
          = ((((post url r s).1 :: replies post rest (post url r s).1.result (post url r s).2).getLast?).map
              f).getD d2 := by
      intro α f d1 d2
      cases hr : replies post rest (post url r s).1.result (post url r s).2 with
      | nil => rfl
      | cons a l =>
        rw [List.getLast?_cons_cons]
        cases hl : (a :: l).getLast? with
        | none => simp at hl
        | some x => rfl
    cases h : (post url r s).1.err with
    | none =>
      obtain ⟨i1, i2, i3, i4, i5, i6⟩ := ih (post url r s).1.result
        (if (match ptr.get (post url r s).1.result with
              | none => true
              | some held => decide ((post url r s).1.result > held))
          then BigPtr.result else ptr)
        true none (post url r s).2 (calls ++ [url])
      simp only [getMaxGasPrice.loop, h, replies, stateAfter]
      refine ⟨by simp [i1], i2, ?_, ?_, by simp [i5, h], ?_⟩
      · rw [i3]; exact hlast (fun rep => rep.result) r r
      · rw [i4]
        simp only [List.any_cons, h, Option.isNone_none, Bool.true_or, if_true]
        split
        · rfl
        · cases ptr <;> simp [BigPtr.get]
      · rw [i6, ← h]; exact hlast (fun rep => rep.err) err err
    | some e =>
      obtain ⟨i1, i2, i3, i4, i5, i6⟩ := ih (post url r s).1.result ptr success (some e)
        (post url r s).2 (calls ++ [url])
      simp only [getMaxGasPrice.loop, h, replies, stateAfter]
      refine ⟨by simp [i1], i2, ?_, by simp [i4, h], by simp [i5, h], ?_⟩
      · rw [i3]; exact hlast (fun rep => rep.result) r r
      · rw [i6, ← h]; exact hlast (fun rep => rep.err) err err

/-- What getMaxGasPrice hands back on any url list: it posts to every url; when some reply had a
nil error, the price is what the last reply left in `result`, with a nil error; otherwise no
price and a non-nil error. -/
theorem getMaxGasPrice_spec {σ : Type} (post : RPCPost σ Int) (urls : List String) (s : σ) :
    (getMaxGasPrice post urls s).calls = urls ∧
    (getMaxGasPrice post urls s).state = stateAfter post urls 0 s ∧
    ((∃ rep ∈ replies post urls 0 s, rep.err = none) →
      (getMaxGasPrice post urls s).val =
        (some ((((replies post urls 0 s).getLast?).map (fun rep => rep.result)).getD 0), none)) ∧
    ((∀ rep ∈ replies post urls 0 s, rep.err ≠ none) →
      (getMaxGasPrice post urls s).val.1 = none ∧ (getMaxGasPrice post urls s).val.2 ≠ none) := by
  cases urls with
  | nil => simp [getMaxGasPrice, replies, stateAfter]
  | cons url rest =>
    obtain ⟨i1, i2, i3, i4, i5, i6⟩ :=
      getMaxGasPrice_loop_spec post (url :: rest) 0 BigPtr.nil false none s []
    have hany : (replies post (url :: rest) 0 s).any (fun rep => rep.err.isNone) = true ↔
        ∃ rep ∈ replies post (url :: rest) 0 s, rep.err = none := by
      simp [List.any_eq_true, Option.isNone_iff_eq_none]
    simp only [Bool.false_or] at i5
    cases hs : (replies post (url :: rest) 0 s).any (fun rep => rep.err.isNone) with
    | true =>
      rw [hs] at i4 i5
      have hv : getMaxGasPrice post (url :: rest) s =
          ⟨(some (getMaxGasPrice.loop post (url :: rest) 0 BigPtr.nil false none s []).val.1, none),
            (getMaxGasPrice.loop post (url :: rest) 0 BigPtr.nil false none s []).state,
            (getMaxGasPrice.loop post (url :: rest) 0 BigPtr.nil false none s []).calls⟩ := by
        simp [getMaxGasPrice, i5, i4, BigPtr.get]
      rw [hv]
      refine ⟨by simpa using i1, i2, fun _ => by rw [i3], fun h => ?_⟩
      obtain ⟨rep, hrep, hok⟩ := hany.mp hs
      exact absurd hok (h rep hrep)
    | false =>
      rw [hs] at i5
      have hnone : ∀ rep ∈ replies post (url :: rest) 0 s, rep.err ≠ none := by
        intro rep hrep hok
        have := hany.mpr ⟨rep, hrep, hok⟩
        rw [hs] at this
        cases this
      have hv : getMaxGasPrice post (url :: rest) s =
          ⟨(none, (getMaxGasPrice.loop post (url :: rest) 0 BigPtr.nil false none s []).val.2.2.2),
            (getMaxGasPrice.loop post (url :: rest) 0 BigPtr.nil false none s []).state,
            (getMaxGasPrice.loop post (url :: rest) 0 BigPtr.nil false none s []).calls⟩ := by
        simp [getMaxGasPrice, i5]
      obtain ⟨last, hl, hmem⟩ := replies_getLast post url rest 0 s
      rw [hv]
      refine ⟨by simpa using i1, i2, fun ⟨rep, hrep, hok⟩ => absurd hok (hnone rep hrep),
        fun _ => ⟨rfl, ?_⟩⟩
      show (getMaxGasPrice.loop post (url :: rest) 0 BigPtr.nil false none s []).val.2.2.2 ≠ none
      rw [i6, hl]
      exact hnone last hmem

/-- The two shapes of what getMaxGasPrice hands back: a price with a nil error, or no price
with an error. -/
theorem getMaxGasPrice_shape {σ : Type} (post : RPCPost σ Int) (urls : List String) (s : σ) :
    (∃ price, (getMaxGasPrice post urls s).val = (some price, none)) ∨
    (∃ err, (getMaxGasPrice post urls s).val = (none, some err)) := by
  obtain ⟨-, -, h3, h4⟩ := getMaxGasPrice_spec post urls s
  by_cases hex : ∃ rep ∈ replies post urls 0 s, rep.err = none
  · exact Or.inl ⟨_, h3 hex⟩
  · have hall : ∀ rep ∈ replies post urls 0 s, rep.err ≠ none :=
      fun rep hrep hok => hex ⟨rep, hrep, hok⟩
    obtain ⟨h5, h6⟩ := h4 hall
    cases hv : (getMaxGasPrice post urls s).val.2 with
    | none => exact absurd hv h6
    | some e => exact Or.inr ⟨e, Prod.ext h5 hv⟩

/-- C12: SuggestPrice asks APIAddressExt (when it is not empty) and then APIAddress for a gas
price. When both lists yield a price it returns the greater one; when exactly one list yields a
price, also when APIAddressExt is empty, it returns that price; it returns an error, the one of
the APIAddress attempt, exactly when neither list yields a price. -/
theorem SuggestPrice_greater {σ : Type} (post : RPCPost σ Int) (gateway : GatewayConfig) (s : σ) :
    (∀ p1 p2, (getMaxGasPrice post gateway.APIAddressExt s).val.1 = some p1 →
      (getMaxGasPrice post gateway.APIAddress
        (getMaxGasPrice post gateway.APIAddressExt s).state).val.1 = some p2 →
      (SuggestPrice post gateway s).val = (some (max p1 p2), none)) ∧
    (∀ p1, (getMaxGasPrice post gateway.APIAddressExt s).val.1 = some p1 →
      (getMaxGasPrice post gateway.APIAddress
        (getMaxGasPrice post gateway.APIAddressExt s).state).val.1 = none →
      (SuggestPrice post gateway s).val = (some p1, none)) ∧
    (∀ p2, (getMaxGasPrice post gateway.APIAddressExt s).val.1 = none →
      (getMaxGasPrice post gateway.APIAddress
        (getMaxGasPrice post gateway.APIAddressExt s).state).val.1 = some p2 →
      (SuggestPrice post gateway s).val = (some p2, none)) ∧
    ((getMaxGasPrice post gateway.APIAddressExt s).val.1 = none →
      (getMaxGasPrice post gateway.APIAddress
        (getMaxGasPrice post gateway.APIAddressExt s).state).val.1 = none →
      (SuggestPrice post gateway s).val.1 = none ∧
      (SuggestPrice post gateway s).val.2 = (getMaxGasPrice post gateway.APIAddress
        (getMaxGasPrice post gateway.APIAddressExt s).state).val.2) ∧
    ((SuggestPrice post gateway s).val.2 ≠ none ↔
      (getMaxGasPrice post gateway.APIAddressExt s).val.1 = none ∧
      (getMaxGasPrice post gateway.APIAddress
        (getMaxGasPrice post gateway.APIAddressExt s).state).val.1 = none) ∧
    (SuggestPrice post gateway s).calls = gateway.APIAddressExt ++ gateway.APIAddress := by
  have hr1 : ∀ q, (getMaxGasPrice post gateway.APIAddressExt s).val.1 = q →
      ((if gateway.APIAddressExt.length > 0 then getMaxGasPrice post gateway.APIAddressExt s
          else (⟨(none, none), s, []⟩ : Ran (Option Int × Option Err) σ)).val.1 = q ∧
        (if gateway.APIAddressExt.length > 0 then getMaxGasPrice post gateway.APIAddressExt s
          else (⟨(none, none), s, []⟩ : Ran (Option Int × Option Err) σ)).state =
            (getMaxGasPrice post gateway.APIAddressExt s).state ∧
        (if gateway.APIAddressExt.length > 0 then getMaxGasPrice post gateway.APIAddressExt s
          else (⟨(none, none), s, []⟩ : Ran (Option Int × Option Err) σ)).calls =
            gateway.APIAddressExt) := by
    intro q hq
    by_cases hlen : gateway.APIAddressExt.length > 0
    · rw [if_pos hlen]
      exact ⟨hq, rfl, (getMaxGasPrice_spec post _ s).1⟩
    · have hnil : gateway.APIAddressExt = [] := List.length_eq_zero.mp (by omega)
      rw [if_neg hlen]
      rw [hnil] at hq ⊢
      refine ⟨?_, ?_, ?_⟩
      · rw [← hq]; rfl
      · rfl
      · rfl
  have hcalls2 := (getMaxGasPrice_spec post gateway.APIAddress
    (getMaxGasPrice post gateway.APIAddressExt s).state).1
  obtain ⟨q1, h1⟩ : ∃ q, (getMaxGasPrice post gateway.APIAddressExt s).val.1 = q := ⟨_, rfl⟩
  obtain ⟨a1, a2, a3⟩ := hr1 q1 h1
  have hcalls : (SuggestPrice post gateway s).calls = gateway.APIAddressExt ++ gateway.APIAddress := by
    simp only [SuggestPrice, a2, a3, hcalls2]
    split <;> rfl
  rcases getMaxGasPrice_shape post gateway.APIAddress (getMaxGasPrice post gateway.APIAddressExt s).state
    with ⟨p2, h2⟩ | ⟨e2, h2⟩
  · have h21 : (getMaxGasPrice post gateway.APIAddress
        (getMaxGasPrice post gateway.APIAddressExt s).state).val.1 = some p2 := by rw [h2]
    cases q1 with
    | none =>
      have hv : (SuggestPrice post gateway s).val = (some p2, none) := by
        simp only [SuggestPrice, a2, h2, a1]
      refine ⟨?_, ?_, ?_, ?_, ?_, hcalls⟩ <;> simp [h1, h21, hv]
    | some p1 =>
      have hv : (SuggestPrice post gateway s).val = (some (max p1 p2), none) := by
        simp only [SuggestPrice, a2, h2, a1]
        by_cases hgt : p2 > p1
        · simp only [hgt, if_true]
          rw [max_eq_right (le_of_lt hgt)]
        · simp only [hgt, if_false]
          rw [max_eq_left (not_lt.mp hgt)]
      refine ⟨?_, ?_, ?_, ?_, ?_, hcalls⟩ <;> simp [h1, h21, hv]
  · have h21 : (getMaxGasPrice post gateway.APIAddress
        (getMaxGasPrice post gateway.APIAddressExt s).state).val.1 = none := by rw [h2]
    have h22 : (getMaxGasPrice post gateway.APIAddress
        (getMaxGasPrice post gateway.APIAddressExt s).state).val.2 = some e2 := by rw [h2]
    cases q1 with
    | none =>
      have hv : (SuggestPrice post gateway s).val = (none, some e2) := by
        simp only [SuggestPrice, a2, h2, a1]
      refine ⟨?_, ?_, ?_, ?_, ?_, hcalls⟩ <;> simp [h1, h21, h22, hv]
    | some p1 =>
      have hv : (SuggestPrice post gateway s).val = (some p1, none) := by
        simp only [SuggestPrice, a2, h2, a1]
      refine ⟨?_, ?_, ?_, ?_, ?_, hcalls⟩ <;> simp [h1, h21, h22, hv]

/-- C12 witness: APIAddress gives 50 gwei and APIAddressExt gives 80 gwei, the result is 80 gwei;
with an empty APIAddressExt the result is the 50 gwei of APIAddress. -/
theorem SuggestPrice_greater_witness :
    (SuggestPrice gasPriceNet ⟨["url50"], ["url80"]⟩ ()).val = (some 80000000000, none) ∧
    (SuggestPrice gasPriceNet ⟨["url50"], []⟩ ()).val = (some 50000000000, none) :=
  ⟨(SuggestPrice_greater gasPriceNet ⟨["url50"], ["url80"]⟩ ()).1 80000000000 50000000000
      (by decide) (by decide),
   (SuggestPrice_greater gasPriceNet ⟨["url50"], []⟩ ()).2.2.1 50000000000 (by decide) (by decide)⟩

/-! ### Empty url lists -/

/-- C11 (failing input): an empty url list. The seven list helpers return errEmptyURLs and post
nothing. Of the Bridge methods that range over APIAddress themselves, which post nothing either,
GetBlockByNumber returns the error "block not found" and GetPendingTransactions, GetLogs, ChainID,
NetworkID, GetCode, CallContract and GetBalance return a nil error with a nil (or empty) result. -/
theorem empty_urls_results {σ ρ β α : Type} (postBlock : RPCPost σ (Option β)) (postString : RPCPost σ String)
    (postBig : RPCPost σ Int) (postCount : RPCPost σ Nat) (postAny : RPCPost σ ρ)
    (postLogs : α → RPCPost σ ρ) (filterArg : α) (zero : ρ)
    (GetUint64FromStr : String → Nat × Option Err) (SetString : String → Option Int)
    (ext : List String) (s : σ) :
    (getMaxLatestBlockNumber GetUint64FromStr postString [] s = ⟨(0, some Err.errEmptyURLs), s, []⟩ ∧
      getBlockByHash postBlock [] s = ⟨(none, some Err.errEmptyURLs), s, []⟩ ∧
      getTransactionByHash postBlock [] s = ⟨(none, some Err.errEmptyURLs), s, []⟩ ∧
      getTransactionReceipt postBlock [] s = ⟨(none, "", some Err.errEmptyURLs), s, []⟩ ∧
      getMaxPoolNonce postCount [] s = ⟨(0, some Err.errEmptyURLs), s, []⟩ ∧
      getMaxGasPrice postBig [] s = ⟨(none, some Err.errEmptyURLs), s, []⟩ ∧
      sendRawTransaction postAny zero [] s = ⟨(false, some Err.errEmptyURLs), s, []⟩) ∧
    (GetBlockByNumber postBlock ⟨[], ext⟩ s = ⟨(none, some (Err.new "block not found")), s, []⟩ ∧
      GetPendingTransactions postAny zero ⟨[], ext⟩ s = ⟨(none, none), s, []⟩ ∧
      GetLogs (.ok filterArg) postLogs zero ⟨[], ext⟩ s = ⟨(none, none), s, []⟩ ∧
      ChainID postBig ⟨[], ext⟩ s = ⟨(none, none), s, []⟩ ∧
      NetworkID SetString postString ⟨[], ext⟩ s = ⟨(none, none), s, []⟩ ∧
      GetCode postAny zero ⟨[], ext⟩ s = ⟨(none, none), s, []⟩ ∧
      CallContract postString ⟨[], ext⟩ s = ⟨("", none), s, []⟩ ∧
      GetBalance postBig ⟨[], ext⟩ s = ⟨(none, none), s, []⟩) := by
  refine ⟨⟨rfl, rfl, rfl, rfl, rfl, rfl, rfl⟩, ⟨rfl, rfl, rfl, rfl, rfl, rfl, rfl, rfl⟩⟩

/-! ### Chain id check -/

/-- For a chain id that fits in 64 bits and is not negative, the low 64 bits are the chain id. -/
theorem bigUint64_eq_iff (c : Int) (n : Nat) (h0 : 0 ≤ c) (h64 : c < 2 ^ 64) :
    bigUint64 c = n ↔ c = n := by
  unfold bigUint64
  have hlt : c.natAbs < 2 ^ 64 := by omega
  rw [Nat.mod_eq_of_lt hlt]
  omega

/-- What VerifyChainID decides once the signer chain id `c` is obtained: it completes, with
SignerChainID set to `c`, exactly when the lower-cased NetID is "mainnet" and the low 64 bits
of `c` are 1, or it is "rinkeby" and they are 4, or it is "custom"; in every other case it ends
in a fatal error. -/
theorem VerifyChainID_decision {σ : Type} (ToLower : String → String) (NetID : String)
    (getSignerChainID : σ → Ran (Call (Option Int × Option Err)) σ) (s : σ) (c : Int)
    (hget : (VerifyChainID.retry getSignerChainID 5 none none s []).val = Call.returned (some c, none)) :
    ((VerifyChainID ToLower NetID getSignerChainID s).val = Verified.succeed (some c) ↔
      (ToLower NetID = "mainnet" ∧ bigUint64 c = 1) ∨ (ToLower NetID = "rinkeby" ∧ bigUint64 c = 4) ∨
        ToLower NetID = "custom") ∧
    ((VerifyChainID ToLower NetID getSignerChainID s).val = Verified.succeed (some c) ∨
      ∃ msg, (VerifyChainID ToLower NetID getSignerChainID s).val = Verified.fatal msg) := by
  have hne1 : ("mainnet" : String) ≠ "rinkeby" := by decide
  have hne2 : ("mainnet" : String) ≠ "custom" := by decide
  have hne3 : ("rinkeby" : String) ≠ "custom" := by decide
  by_cases hm : ToLower NetID = "mainnet"
  · by_cases h1 : bigUint64 c = 1
    · simp [VerifyChainID, netMainnet, netRinkeby, netCustom, hm, hget, h1]
    · simp [VerifyChainID, netMainnet, netRinkeby, netCustom, hm, hget, h1, hne1, hne2]
  · by_cases hr : ToLower NetID = "rinkeby"
    · by_cases h4 : bigUint64 c = 4
      · simp [VerifyChainID, netMainnet, netRinkeby, netCustom, hr, hget, h4, hne1.symm]
      · simp [VerifyChainID, netMainnet, netRinkeby, netCustom, hr, hget, h4, hne1.symm, hne3]
    · by_cases hc : ToLower NetID = "custom"
      · simp [VerifyChainID, netMainnet, netRinkeby, netCustom, hc, hget, hne2.symm, hne3.symm]
      · simp [VerifyChainID, netMainnet, netRinkeby, netCustom, hm, hr, hc]

/-- C16 (failing input): NetID "mainnet" and a gateway whose eth_chainId is 2^64 + 1. The check
`chainID.Uint64() != 1` reads the low 64 bits, so VerifyChainID completes without a fatal error
and sets SignerChainID to 2^64 + 1; likewise "Rinkeby" with 2^64 + 4, and "mainnet" with the
network id -1 (eth_chainId 0, net_version "-1"). Chain id 1 is accepted and 5 is fatal. -/
theorem VerifyChainID_accepts_truncated_chain_id :
    (VerifyChainID asciiToLower "mainnet"
      (GetSignerChainID sampleSetString (chainIdNet 18446744073709551617) (url1Answers "1") ⟨["url1"], []⟩)
      ()).val = Verified.succeed (some 18446744073709551617) ∧
    (VerifyChainID asciiToLower "Rinkeby"
      (GetSignerChainID sampleSetString (chainIdNet 18446744073709551620) (url1Answers "4") ⟨["url1"], []⟩)
      ()).val = Verified.succeed (some 18446744073709551620) ∧
    (VerifyChainID asciiToLower "mainnet"
      (GetSignerChainID sampleSetString (chainIdNet 0) (url1Answers "-1") ⟨["url1"], []⟩)
      ()).val = Verified.succeed (some (-1)) ∧
    (VerifyChainID asciiToLower "MainNet"
      (GetSignerChainID sampleSetString (chainIdNet 1) (url1Answers "1") ⟨["url1"], []⟩)
      ()).val = Verified.succeed (some 1) ∧
    (VerifyChainID asciiToLower "mainnet"
      (GetSignerChainID sampleSetString (chainIdNet 5) (url1Answers "5") ⟨["url1"], []⟩)
      ()).val = Verified.fatal "gateway chainID 5 is not mainnet" := by
  refine ⟨by decide, by decide, by decide, by decide, by decide⟩

/-! ### Queues and dispatch -/

/-- C14: dispatchSwapTask sends args on the channel stored under the lower-cased args.From in the
map of the direction of args and returns nil, when that channel has room in its buffer (with a
full buffer the call waits at the send and nothing changes): args is appended to that queue,
every other queue, the other map and the goroutines are as before. When the map has no channel
under that key, or the swap type is neither swapin nor swapout, it returns an error and the
state is as before. In every case the key sets of both maps are as before. -/
theorem dispatchSwapTask_routes (ToLower : String → String) (w : Worker) (args : BuildTxArgs) :
    (∀ isSwapin swapChan, args.SwapType = getSwapType isSwapin →
      w.chanMap isSwapin (ToLower args.From) = some swapChan →
      (swapChan.buf.length < swapChan.cap →
        (dispatchSwapTask ToLower w args).1 = Sent.returned none ∧
        (dispatchSwapTask ToLower w args).2.chanMap isSwapin (ToLower args.From)
          = some { swapChan with buf := swapChan.buf ++ [args] } ∧
        (∀ k, k ≠ ToLower args.From →
          (dispatchSwapTask ToLower w args).2.chanMap isSwapin k = w.chanMap isSwapin k) ∧
        (∀ k, (dispatchSwapTask ToLower w args).2.chanMap (!isSwapin) k = w.chanMap (!isSwapin) k) ∧
        (dispatchSwapTask ToLower w args).2.chansMade = w.chansMade ∧
        (dispatchSwapTask ToLower w args).2.spawned = w.spawned) ∧
      (¬ swapChan.buf.length < swapChan.cap →
        dispatchSwapTask ToLower w args = (Sent.blocked, w))) ∧
    (∀ isSwapin, args.SwapType = getSwapType isSwapin →
      w.chanMap isSwapin (ToLower args.From) = none →
      ∃ err, dispatchSwapTask ToLower w args = (Sent.returned (some err), w)) ∧
    (∀ code, args.SwapType = SwapType.other code →
      ∃ err, dispatchSwapTask ToLower w args = (Sent.returned (some err), w)) ∧
    (∀ isSwapin k, ((dispatchSwapTask ToLower w args).2.chanMap isSwapin k).isSome
      = (w.chanMap isSwapin k).isSome) := by
  refine ⟨?_, ?_, ?_, ?_⟩
  · intro isSwapin swapChan htype hchan
    cases isSwapin with
    | true =>
      simp only [getSwapType, if_true] at htype
      simp only [Worker.chanMap, if_true] at hchan
      constructor
      · intro hroom
        simp [dispatchSwapTask, htype, hchan, hroom, Worker.chanMap, Worker.setChan]
        intro k hk
        simp [hk]
      · intro hfull
        simp [dispatchSwapTask, htype, hchan, hfull]
    | false =>
      simp only [getSwapType, Bool.false_eq_true, if_false] at htype
      simp only [Worker.chanMap, Bool.false_eq_true, if_false] at hchan
      constructor
      · intro hroom
        simp [dispatchSwapTask, htype, hchan, hroom, Worker.chanMap, Worker.setChan]
        intro k hk
        simp [hk]
      · intro hfull
        simp [dispatchSwapTask, htype, hchan, hfull]
  · intro isSwapin htype hchan
    cases isSwapin with
    | true =>
      simp only [getSwapType, if_true] at htype
      simp only [Worker.chanMap, if_true] at hchan
      exact ⟨Err.new ("no swapin task channel for dcrm address '" ++ args.From ++ "'"),
        by simp [dispatchSwapTask, htype, hchan]⟩
    | false =>
      simp only [getSwapType, Bool.false_eq_true, if_false] at htype
      simp only [Worker.chanMap, Bool.false_eq_true, if_false] at hchan
      exact ⟨Err.new ("no swapout task channel for dcrm address '" ++ args.From ++ "'"),
        by simp [dispatchSwapTask, htype, hchan]⟩
  · intro code htype
    exact ⟨Err.new ("wrong swap type '" ++ otherSwapTypeText code ++ "'"),
      by simp [dispatchSwapTask, htype]⟩
  · intro isSwapin k
    unfold dispatchSwapTask
    cases htype : args.SwapType with
    | SwapinType =>
      simp only []
      cases hchan : w.swapinTaskChanMap (ToLower args.From) with
      | none => rfl
      | some swapChan =>
        simp only []
        split
        · cases isSwapin
          · simp [Worker.chanMap, Worker.setChan]
          · simp only [Worker.chanMap, Worker.setChan, if_true]
            by_cases hk : k = ToLower args.From
            · simp [hk, hchan]
            · simp [hk]
        · rfl
    | SwapoutType =>
      simp only []
      cases hchan : w.swapoutTaskChanMap (ToLower args.From) with
      | none => rfl
      | some swapChan =>
        simp only []
        split
        · cases isSwapin
          · simp only [Worker.chanMap, Worker.setChan, Bool.false_eq_true, if_false]
            by_cases hk : k = ToLower args.From
            · simp [hk, hchan]
            · simp [hk]
          · simp [Worker.chanMap, Worker.setChan]
        · rfl
    | other code => rfl

/-- C14 witness: after AddSwapJob for the sample pair, a swapin request from `0xDD` lands in
the swapin queue under `0xdd`, and the swapout queue under `0xss` stays empty. -/
theorem dispatchSwapTask_routes_witness :
    (dispatchSwapTask asciiToLower (AddSwapJob asciiToLower Worker.empty samplePair)
      { sampleArgs with From := "0xDD" }).1 = Sent.returned none ∧
    ((dispatchSwapTask asciiToLower (AddSwapJob asciiToLower Worker.empty samplePair)
      { sampleArgs with From := "0xDD" }).2.swapinTaskChanMap "0xdd").map (fun ch => ch.buf)
      = some [{ sampleArgs with From := "0xDD" }] ∧
    ((dispatchSwapTask asciiToLower (AddSwapJob asciiToLower Worker.empty samplePair)
      { sampleArgs with From := "0xDD" }).2.swapoutTaskChanMap "0xss").map (fun ch => ch.buf)
      = some [] :=
  ⟨(((dispatchSwapTask_routes asciiToLower (AddSwapJob asciiToLower Worker.empty samplePair)
      { sampleArgs with From := "0xDD" }).1 true ⟨0, 10, []⟩ rfl (by decide)).1 (by decide)).1,
   by decide, by decide⟩

/-- What isSwapInBlacklist answers when its lookups succeed: the address is queried first, the
bind address only when the first answer is no and bind differs from the address. -/
theorem isSwapInBlacklist_spec (QueryBlacklist : String → String → Bool × Option Err)
    (res : MgoSwapResult)
    (hq1 : (QueryBlacklist res.From res.PairID).2 = none)
    (hq2 : (QueryBlacklist res.Bind res.PairID).2 = none) :
    (isSwapInBlacklist QueryBlacklist res).1 =
      ((QueryBlacklist res.From res.PairID).1 || (QueryBlacklist res.Bind res.PairID).1, none) ∧
    (isSwapInBlacklist QueryBlacklist res).2 =
      Event.QueryBlacklist res.From res.PairID ::
        (if (QueryBlacklist res.From res.PairID).1 = false ∧ res.Bind ≠ res.From
          then [Event.QueryBlacklist res.Bind res.PairID] else []) := by
  unfold isSwapInBlacklist
  simp only [hq1, hq2]
  cases h1 : (QueryBlacklist res.From res.PairID).1 with
  | true => simp
  | false =>
    by_cases hb : res.Bind = res.From
    · simp [hb, h1]
    · simp [hb]

/-- C13: for a swap whose result record is unswapped, whose token configs both exist with the
source one not disabled, and whose blacklist lookups succeed: isSwapInBlacklist answers yes
exactly when the from address or the bind address is blacklisted, and it queries the bind address
only when from is not blacklisted and bind differs from from; when one of the two is
blacklisted, processSwap makes, after the lookups, the one status update to SwapInBlacklist,
leaves every task queue as it was and returns nil. -/
theorem processSwap_blacklisted (env : ProcessEnv) (w : Worker) (swap : MgoSwap) (isSwapin : Bool)
    (res : MgoSwapResult) (fromTokenCfg toTokenCfg : TokenConfig)
    (hfind : env.FindSwapResult isSwapin swap.TxID swap.PairID swap.Bind = .ok res)
    (hfresh : res.SwapTx = "" ∧ res.Status = SwapStatus.MatchTxEmpty ∧ res.SwapHeight = 0 ∧
      res.OldSwapTxs = [])
    (hcfg : env.GetTokenConfigsByDirection swap.PairID isSwapin = (some fromTokenCfg, some toTokenCfg))
    (hen : fromTokenCfg.DisableSwap = false)
    (hq1 : (env.QueryBlacklist res.From res.PairID).2 = none)
    (hq2 : (env.QueryBlacklist res.Bind res.PairID).2 = none) :
    (isSwapInBlacklist env.QueryBlacklist res).1 =
      ((env.QueryBlacklist res.From res.PairID).1 || (env.QueryBlacklist res.Bind res.PairID).1, none) ∧
    (isSwapInBlacklist env.QueryBlacklist res).2 =
      Event.QueryBlacklist res.From res.PairID ::
        (if (env.QueryBlacklist res.From res.PairID).1 = false ∧ res.Bind ≠ res.From
          then [Event.QueryBlacklist res.Bind res.PairID] else []) ∧
    (((env.QueryBlacklist res.From res.PairID).1 = true ∨
        (env.QueryBlacklist res.Bind res.PairID).1 = true) →
      processSwap env w swap isSwapin =
        ((Sent.returned none,
          [Event.FindSwapResult isSwapin swap.TxID swap.PairID swap.Bind] ++
            (isSwapInBlacklist env.QueryBlacklist res).2 ++
            [Event.UpdateSwapStatus isSwapin swap.TxID swap.PairID swap.Bind SwapStatus.SwapInBlacklist
              env.blacklistMemo]), w)) := by
  obtain ⟨h1, h2⟩ := isSwapInBlacklist_spec env.QueryBlacklist res hq1 hq2
  refine ⟨h1, h2, ?_⟩
  intro hblack
  have hp : res.processed = false := by
    obtain ⟨a, b, c, d⟩ := hfresh
    simp [MgoSwapResult.processed, a, b, c, d]
  have hb : ((env.QueryBlacklist res.From res.PairID).1 || (env.QueryBlacklist res.Bind res.PairID).1)
      = true := by
    rcases hblack with h | h <;> simp [h]
  have hval : isSwapInBlacklist env.QueryBlacklist res =
      ((true, none), (isSwapInBlacklist env.QueryBlacklist res).2) := by
    apply Prod.ext
    · rw [h1, hb]
    · rfl
  unfold processSwap
  simp only [hfind, preventDoubleSwap_eq, hp, hcfg, hen]
  rw [hval]
  simp

/-- C13 witness: the from address of the record is `0xBAD`; processSwap marks the swap
SwapInBlacklist, sends nothing and returns nil. -/
theorem processSwap_blacklisted_witness :
    (processSwap (sampleProcessEnv { sampleFresh with From := "0xBAD" })
        (AddSwapJob asciiToLower Worker.empty samplePair) sampleSwap true).1 =
      (Sent.returned none,
        [Event.FindSwapResult true "0xaaa" "eth/btc" "0xB",
         Event.QueryBlacklist "0xBAD" "eth/btc",
         Event.UpdateSwapStatus true "0xaaa" "eth/btc" "0xB" SwapStatus.SwapInBlacklist
           "address is in blacklist"]) ∧
    ((processSwap (sampleProcessEnv { sampleFresh with From := "0xBAD" })
        (AddSwapJob asciiToLower Worker.empty samplePair) sampleSwap true).2.swapinTaskChanMap "0xdd").map
      (fun ch => ch.buf) = some [] :=
  ⟨congrArg Prod.fst ((processSwap_blacklisted (sampleProcessEnv { sampleFresh with From := "0xBAD" })
      (AddSwapJob asciiToLower Worker.empty samplePair) sampleSwap true
      { sampleFresh with From := "0xBAD" } ⟨"0xSS", false⟩ ⟨"0xDD", false⟩
      rfl (by decide) rfl rfl rfl rfl).2.2 (Or.inl (by decide))),
   by decide⟩

/-- Reading a map after a channel was stored under a key. -/
theorem chanMap_setChan (w : Worker) (d : Bool) (key : String) (ch : Chan) (d1 : Bool) (k : String) :
    (w.setChan d key ch).chanMap d1 k = if d1 = d ∧ k = key then some ch else w.chanMap d1 k := by
  cases d <;> cases d1 <;> by_cases hk : k = key <;> simp [Worker.setChan, Worker.chanMap, hk]

/-- The block of AddSwapJob does nothing when the key has a channel. -/
theorem ensureChan_present (d : Bool) (addr : String) (w : Worker) (ch : Chan)
    (h : w.chanMap d addr = some ch) : AddSwapJob.ensureChan d addr w = w := by
  simp [AddSwapJob.ensureChan, h]

/-- The block of AddSwapJob, when the key has no channel: it stores a new channel of capacity
`swapChanSize` under the key and starts one consumer for it. -/
theorem ensureChan_absent (d : Bool) (addr : String) (w : Worker) (h : w.chanMap d addr = none) :
    (∀ d1 k, (AddSwapJob.ensureChan d addr w).chanMap d1 k =
      if d1 = d ∧ k = addr then some ⟨w.chansMade, swapChanSize, []⟩ else w.chanMap d1 k) ∧
    (AddSwapJob.ensureChan d addr w).chansMade = w.chansMade + 1 ∧
    (AddSwapJob.ensureChan d addr w).spawned = w.spawned ++ [Task.processSwapTask w.chansMade] := by
  refine ⟨fun d1 k => ?_, ?_, ?_⟩
  · rw [← chanMap_setChan]
    simp only [AddSwapJob.ensureChan, h]
    cases d <;> cases d1 <;> rfl
  · simp only [AddSwapJob.ensureChan, h]
  · simp only [AddSwapJob.ensureChan, h]

/-- The block of AddSwapJob never replaces a channel that is in a map. -/
theorem ensureChan_keeps (d : Bool) (addr : String) (w : Worker) (d1 : Bool) (k : String) (ch : Chan)
    (h : w.chanMap d1 k = some ch) : (AddSwapJob.ensureChan d addr w).chanMap d1 k = some ch := by
  cases hp : w.chanMap d addr with
  | some c => rw [ensureChan_present d addr w c hp]; exact h
  | none =>
    rw [(ensureChan_absent d addr w hp).1]
    by_cases hc : d1 = d ∧ k = addr
    · rw [hc.1, hc.2, hp] at h
      cases h
    · rw [if_neg hc]; exact h

/-- The keys of the maps after the block of AddSwapJob: the old ones and the key asked for. -/
theorem ensureChan_keys (d : Bool) (addr : String) (w : Worker) (d1 : Bool) (k : String) :
    ((AddSwapJob.ensureChan d addr w).chanMap d1 k).isSome = true ↔
      (w.chanMap d1 k).isSome = true ∨ (d1 = d ∧ k = addr) := by
  cases hp : w.chanMap d addr with
  | some c =>
    rw [ensureChan_present d addr w c hp]
    constructor
    · exact Or.inl
    · rintro (h | ⟨h1, h2⟩)
      · exact h
      · rw [h1, h2, hp]; rfl
  | none =>
    rw [(ensureChan_absent d addr w hp).1]
    by_cases hc : d1 = d ∧ k = addr
    · simp [hc]
    · simp [hc]

/-- The block of AddSwapJob keeps the queues well formed. -/
theorem ensureChan_wellFormed (d : Bool) (addr : String) (w : Worker) (hw : w.wellFormed) :
    (AddSwapJob.ensureChan d addr w).wellFormed := by
  cases hp : w.chanMap d addr with
  | some c => rw [ensureChan_present d addr w c hp]; exact hw
  | none =>
    obtain ⟨hmap, hmade, hspawn⟩ := ensureChan_absent d addr w hp
    obtain ⟨w1, w2, w3⟩ := hw
    have hfresh : (Task.processSwapTask w.chansMade) ∉ w.spawned := by
      intro hmem
      have := (w3 _ hmem).1
      omega
    refine ⟨?_, ?_, ?_⟩
    · intro d1 k ch hch
      rw [hmap] at hch
      rw [hmade, hspawn, List.count_append]
      by_cases hc : d1 = d ∧ k = addr
      · rw [if_pos hc] at hch
        cases hch
        refine ⟨rfl, rfl, by simp, ?_⟩
        simp [List.count_eq_zero_of_not_mem hfresh]
      · rw [if_neg hc] at hch
        obtain ⟨a, b, c, e⟩ := w1 d1 k ch hch
        refine ⟨a, b, by omega, ?_⟩
        have hne : Task.processSwapTask w.chansMade ≠ Task.processSwapTask ch.id := by
          intro heq
          have hid : w.chansMade = ch.id := Task.processSwapTask.inj heq
          omega
        rw [e, List.count_eq_zero_of_not_mem (by simpa using hne.symm)]
    · intro d1 d2 k1 k2 c1 c2 h1 h2 hid
      rw [hmap] at h1 h2
      by_cases hc1 : d1 = d ∧ k1 = addr <;> by_cases hc2 : d2 = d ∧ k2 = addr
      · exact ⟨hc1.1.trans hc2.1.symm, hc1.2.trans hc2.2.symm⟩
      · rw [if_pos hc1] at h1
        rw [if_neg hc2] at h2
        cases h1
        have := (w1 d2 k2 c2 h2).2.2.1
        simp only at hid
        omega
      · rw [if_neg hc1] at h1
        rw [if_pos hc2] at h2
        cases h2
        have := (w1 d1 k1 c1 h1).2.2.1
        simp only at hid
        omega
      · rw [if_neg hc1] at h1
        rw [if_neg hc2] at h2
        exact w2 d1 d2 k1 k2 c1 c2 h1 h2 hid
    · intro id hmem
      rw [hspawn, List.mem_append, List.mem_singleton] at hmem
      rw [hmade]
      rcases hmem with hmem | hmem
      · obtain ⟨hlt, d1, k, ch, hch, hid⟩ := w3 id hmem
        refine ⟨by omega, d1, k, ch, ?_, hid⟩
        exact ensureChan_keeps d addr w d1 k ch hch
      · cases hmem
        refine ⟨by omega, d, addr, ⟨w.chansMade, swapChanSize, []⟩, ?_, rfl⟩
        rw [hmap]
        simp

/-- The block of AddSwapJob for one direction leaves the map of the other direction alone. -/
theorem ensureChan_other (d : Bool) (addr : String) (w : Worker) (d1 : Bool) (k : String)
    (hd : d1 ≠ d) : (AddSwapJob.ensureChan d addr w).chanMap d1 k = w.chanMap d1 k := by
  cases hp : w.chanMap d addr with
  | some c => rw [ensureChan_present d addr w c hp]
  | none =>
    rw [(ensureChan_absent d addr w hp).1, if_neg (fun h => hd h.1)]

/-- What the block of AddSwapJob starts and makes: one consumer and one channel when the key
had no channel, nothing otherwise. -/
theorem ensureChan_spawned (d : Bool) (addr : String) (w : Worker) :
    (AddSwapJob.ensureChan d addr w).spawned =
      w.spawned ++ (if (w.chanMap d addr).isSome then [] else [Task.processSwapTask w.chansMade]) ∧
    (AddSwapJob.ensureChan d addr w).chansMade =
      w.chansMade + (if (w.chanMap d addr).isSome then 0 else 1) := by
  cases hp : w.chanMap d addr with
  | some c => rw [ensureChan_present d addr w c hp]; simp
  | none =>
    obtain ⟨-, h2, h3⟩ := ensureChan_absent d addr w hp
    rw [h2, h3]; simp

/-- AddSwapJob in terms of its two blocks: the maps and the channel count are those after the
blocks, and the two producers of the pair are started last. -/
theorem AddSwapJob_parts (ToLower : String → String) (w : Worker) (pairCfg : TokenPairConfig) :
    (∀ d k, (AddSwapJob ToLower w pairCfg).chanMap d k =
      (AddSwapJob.ensureChan false (ToLower pairCfg.SrcToken.DcrmAddress)
        (AddSwapJob.ensureChan true (ToLower pairCfg.DestToken.DcrmAddress) w)).chanMap d k) ∧
    (AddSwapJob ToLower w pairCfg).chansMade =
      (AddSwapJob.ensureChan false (ToLower pairCfg.SrcToken.DcrmAddress)
        (AddSwapJob.ensureChan true (ToLower pairCfg.DestToken.DcrmAddress) w)).chansMade ∧
    (AddSwapJob ToLower w pairCfg).spawned =
      (AddSwapJob.ensureChan false (ToLower pairCfg.SrcToken.DcrmAddress)
        (AddSwapJob.ensureChan true (ToLower pairCfg.DestToken.DcrmAddress) w)).spawned ++
        [Task.startSwapinSwapJob (ToLower pairCfg.PairID),
         Task.startSwapoutSwapJob (ToLower pairCfg.PairID)] := by
  refine ⟨fun d k => ?_, rfl, rfl⟩
  cases d <;> rfl

/-- AddSwapJob keeps the queues well formed. -/
theorem AddSwapJob_wellFormed (ToLower : String → String) (w : Worker) (pairCfg : TokenPairConfig)
    (hw : w.wellFormed) : (AddSwapJob ToLower w pairCfg).wellFormed := by
  obtain ⟨hmap, hmade, hspawn⟩ := AddSwapJob_parts ToLower w pairCfg
  obtain ⟨w1, w2, w3⟩ := ensureChan_wellFormed false (ToLower pairCfg.SrcToken.DcrmAddress) _
    (ensureChan_wellFormed true (ToLower pairCfg.DestToken.DcrmAddress) w hw)
  refine ⟨?_, ?_, ?_⟩
  · intro d k ch hch
    rw [hmap] at hch
    obtain ⟨a, b, c, e⟩ := w1 d k ch hch
    refine ⟨a, b, by rw [hmade]; exact c, ?_⟩
    rw [hspawn, List.count_append, e]
    simp
  · intro d1 d2 k1 k2 c1 c2 h1 h2 hid
    rw [hmap] at h1 h2
    exact w2 d1 d2 k1 k2 c1 c2 h1 h2 hid
  · intro id hmem
    rw [hspawn, List.mem_append] at hmem
    rcases hmem with hmem | hmem
    · obtain ⟨hlt, d, k, ch, hch, hid⟩ := w3 id hmem
      exact ⟨by rw [hmade]; exact hlt, d, k, ch, by rw [hmap]; exact hch, hid⟩
    · simp at hmem

/-- The keys of the maps after AddSwapJob: the old ones and the lower-cased signer address of
the pair for the direction. -/
theorem AddSwapJob_keys (ToLower : String → String) (w : Worker) (pairCfg : TokenPairConfig)
    (d : Bool) (k : String) :
    ((AddSwapJob ToLower w pairCfg).chanMap d k).isSome = true ↔
      (w.chanMap d k).isSome = true ∨ ToLower (pairCfg.dcrmAddress d) = k := by
  rw [(AddSwapJob_parts ToLower w pairCfg).1, ensureChan_keys, ensureChan_keys]
  cases d
  · have h1 : ¬ (false = true ∧ k = ToLower pairCfg.DestToken.DcrmAddress) := fun h => by cases h.1
    have h2 : (false = false ∧ k = ToLower pairCfg.SrcToken.DcrmAddress) ↔
        ToLower (pairCfg.dcrmAddress false) = k :=
      ⟨fun h => h.2.symm, fun h => ⟨rfl, h.symm⟩⟩
    rw [h2]
    tauto
  · have h1 : ¬ (true = false ∧ k = ToLower pairCfg.SrcToken.DcrmAddress) := fun h => by cases h.1
    have h2 : (true = true ∧ k = ToLower pairCfg.DestToken.DcrmAddress) ↔
        ToLower (pairCfg.dcrmAddress true) = k :=
      ⟨fun h => h.2.symm, fun h => ⟨rfl, h.symm⟩⟩
    rw [h2]
    tauto

/-- A run of AddSwapJob calls from a well-formed state: the state stays well formed and the keys
are the old ones and the lower-cased signer addresses of the pairs. -/
theorem foldl_AddSwapJob_spec (ToLower : String → String) (pairs : List TokenPairConfig) (w : Worker)
    (hw : w.wellFormed) :
    (pairs.foldl (AddSwapJob ToLower) w).wellFormed ∧
    ∀ d k, ((pairs.foldl (AddSwapJob ToLower) w).chanMap d k).isSome = true ↔
      (w.chanMap d k).isSome = true ∨ ∃ p ∈ pairs, ToLower (p.dcrmAddress d) = k := by
  induction pairs generalizing w with
  | nil => exact ⟨hw, fun d k => by simp⟩
  | cons p rest ih =>
    obtain ⟨h1, h2⟩ := ih (AddSwapJob ToLower w p) (AddSwapJob_wellFormed ToLower w p hw)
    refine ⟨h1, fun d k => ?_⟩
    rw [List.foldl_cons, h2, AddSwapJob_keys]
    constructor
    · rintro ((h | h) | ⟨q, hq, h⟩)
      · exact Or.inl h
      · exact Or.inr ⟨p, by simp, h⟩
      · exact Or.inr ⟨q, by simp [hq], h⟩
    · rintro (h | ⟨q, hq, h⟩)
      · exact Or.inl (Or.inl h)
      · rcases List.mem_cons.mp hq with hq | hq
        · exact Or.inl (Or.inr (hq ▸ h))
        · exact Or.inr ⟨q, hq, h⟩

/-- C15: after any sequence of AddSwapJob calls from empty maps, each map holds a channel under
a key exactly when the key is the lower-cased signer address of some pair seen for that
direction; every such channel has capacity 10 and exactly one consumer task was started for it;
no two entries hold the same channel and every consumer started belongs to a channel in a map.
For any state: AddSwapJob never replaces a channel already in a map; when the lower-cased address
of a direction is already a key, the map of that direction is left as it was; and the call makes
one channel and starts one consumer for each of its two addresses that was not yet a key, and
none otherwise. -/
theorem AddSwapJob_one_queue_per_address (ToLower : String → String) (pairs : List TokenPairConfig) :
    (∀ d k, ((addSwapJobs ToLower pairs).chanMap d k).isSome = true ↔
      ∃ p ∈ pairs, ToLower (p.dcrmAddress d) = k) ∧
    (∀ d k ch, (addSwapJobs ToLower pairs).chanMap d k = some ch →
      ch.cap = 10 ∧ (addSwapJobs ToLower pairs).spawned.count (Task.processSwapTask ch.id) = 1) ∧
    (∀ d1 d2 k1 k2 c1 c2, (addSwapJobs ToLower pairs).chanMap d1 k1 = some c1 →
      (addSwapJobs ToLower pairs).chanMap d2 k2 = some c2 → c1.id = c2.id → d1 = d2 ∧ k1 = k2) ∧
    (∀ id, Task.processSwapTask id ∈ (addSwapJobs ToLower pairs).spawned →
      ∃ d k ch, (addSwapJobs ToLower pairs).chanMap d k = some ch ∧ ch.id = id) ∧
    (∀ (w : Worker) (pairCfg : TokenPairConfig),
      (∀ d k ch, w.chanMap d k = some ch → (AddSwapJob ToLower w pairCfg).chanMap d k = some ch) ∧
      (∀ d, (w.chanMap d (ToLower (pairCfg.dcrmAddress d))).isSome = true →
        ∀ k, (AddSwapJob ToLower w pairCfg).chanMap d k = w.chanMap d k) ∧
      (AddSwapJob ToLower w pairCfg).chansMade = w.chansMade +
        (if (w.chanMap true (ToLower (pairCfg.dcrmAddress true))).isSome then 0 else 1) +
        (if (w.chanMap false (ToLower (pairCfg.dcrmAddress false))).isSome then 0 else 1) ∧
      ((AddSwapJob ToLower w pairCfg).spawned.filter Task.isConsumer).length =
        (w.spawned.filter Task.isConsumer).length +
        (if (w.chanMap true (ToLower (pairCfg.dcrmAddress true))).isSome then 0 else 1) +
        (if (w.chanMap false (ToLower (pairCfg.dcrmAddress false))).isSome then 0 else 1)) := by
  have hempty : Worker.empty.wellFormed := by
    refine ⟨?_, ?_, ?_⟩
    · intro d k ch h
      cases d <;> simp [Worker.empty, Worker.chanMap] at h
    · intro d1 d2 k1 k2 c1 c2 h
      cases d1 <;> simp [Worker.empty, Worker.chanMap] at h
    · intro id h
      simp [Worker.empty] at h
  obtain ⟨⟨f1, f2, f3⟩, fk⟩ := foldl_AddSwapJob_spec ToLower pairs Worker.empty hempty
  refine ⟨?_, ?_, f2, ?_, ?_⟩
  · intro d k
    unfold addSwapJobs
    rw [fk]
    constructor
    · rintro (h | h)
      · cases d <;> simp [Worker.empty, Worker.chanMap] at h
      · exact h
    · exact Or.inr
  · intro d k ch hch
    obtain ⟨a, -, -, e⟩ := f1 d k ch hch
    exact ⟨a, e⟩
  · intro id hmem
    exact (f3 id hmem).2
  · intro w pairCfg
    obtain ⟨hmap, hmade, hspawn⟩ := AddSwapJob_parts ToLower w pairCfg
    have hsame : ∀ k, (AddSwapJob.ensureChan true (ToLower pairCfg.DestToken.DcrmAddress) w).chanMap
        false k = w.chanMap false k :=
      fun k => ensureChan_other true _ w false k (by decide)
    obtain ⟨s1, m1⟩ := ensureChan_spawned true (ToLower pairCfg.DestToken.DcrmAddress) w
    obtain ⟨s2, m2⟩ := ensureChan_spawned false (ToLower pairCfg.SrcToken.DcrmAddress)
      (AddSwapJob.ensureChan true (ToLower pairCfg.DestToken.DcrmAddress) w)
    rw [hsame] at s2 m2
    refine ⟨?_, ?_, ?_, ?_⟩
    · intro d k ch hch
      rw [hmap]
      exact ensureChan_keeps _ _ _ d k ch (ensureChan_keeps _ _ _ d k ch hch)
    · intro d hpres k
      rw [hmap]
      cases d with
      | true =>
        simp only [TokenPairConfig.dcrmAddress, if_true] at hpres
        rw [ensureChan_other false _ _ true k (by decide)]
        obtain ⟨c, hc⟩ := Option.isSome_iff_exists.mp hpres
        rw [ensureChan_present true _ w c hc]
      | false =>
        simp only [TokenPairConfig.dcrmAddress, Bool.false_eq_true, if_false] at hpres
        rw [← hsame] at hpres
        obtain ⟨c, hc⟩ := Option.isSome_iff_exists.mp hpres
        rw [ensureChan_present false _ _ c hc, hsame]
    · rw [hmade, m2, m1]
      simp only [TokenPairConfig.dcrmAddress, if_true, Bool.false_eq_true, if_false]
    · rw [hspawn, s2, s1]
      simp only [TokenPairConfig.dcrmAddress, if_true, Bool.false_eq_true, if_false,
        List.filter_append, List.length_append]
      have hprod : (List.filter Task.isConsumer
          [Task.startSwapinSwapJob (ToLower pairCfg.PairID),
           Task.startSwapoutSwapJob (ToLower pairCfg.PairID)]).length = 0 := rfl
      rw [hprod]
      split <;> split <;> simp [Task.isConsumer]

/-- C15 witness: three AddSwapJob calls, the second with the addresses of the first in another
letter case and the third with a new source address. There are one swapin queue, two swapout
queues and three consumers. -/
theorem AddSwapJob_one_queue_per_address_witness :
    ((addSwapJobs asciiToLower
        [samplePair, { samplePair with SrcToken := ⟨"0xss", false⟩, DestToken := ⟨"0xdd", false⟩ },
         { samplePair with SrcToken := ⟨"0xEE", false⟩ }]).chanMap true "0xdd").isSome = true ∧
    (addSwapJobs asciiToLower
        [samplePair, { samplePair with SrcToken := ⟨"0xss", false⟩, DestToken := ⟨"0xdd", false⟩ },
         { samplePair with SrcToken := ⟨"0xEE", false⟩ }]).chansMade = 3 ∧
    (addSwapJobs asciiToLower
        [samplePair, { samplePair with SrcToken := ⟨"0xss", false⟩, DestToken := ⟨"0xdd", false⟩ },
         { samplePair with SrcToken := ⟨"0xEE", false⟩ }]).spawned.filter Task.isConsumer
      = [Task.processSwapTask 0, Task.processSwapTask 1, Task.processSwapTask 2] :=
  ⟨((AddSwapJob_one_queue_per_address asciiToLower
      [samplePair, { samplePair with SrcToken := ⟨"0xss", false⟩, DestToken := ⟨"0xdd", false⟩ },
       { samplePair with SrcToken := ⟨"0xEE", false⟩ }]).1 true "0xdd").mpr
      ⟨samplePair, by simp, by decide⟩,
   by decide, by decide⟩

end CrossChain
